import Mathlib

/-!
# A stack virtual machine with two dispatch strategies

Shallow embedding of `switched.c` (one central loop around a `switch`) and of
`asmexp.c` (one service routine per instruction, each of which fetches the next
instruction and calls its routine), followed by theorems about them.

Conventions of the embedding.

* `uint32_t` values are natural numbers; every operation that can leave the
  range is followed by an explicit reduction modulo `2 ^ 32`.  `int32_t` values
  (`sp`, immediates, the argument of `pick`) and `int` values (`length`) are
  integers.  `steps` is a `uint64_t`, incremented modulo `2 ^ 64`.
* A C function that writes through `cpu_t *` takes the record and returns the
  new record; one that also returns a value returns a pair.
* `common.h` is not among the sources.  Its two size constants and the libc
  random source are the fields of `Params`; the opcode numbers are read off the
  order of the `service_routines` table of `asmexp.c`, which is indexed by
  opcode.
* A failing `assert` (and an out-of-range index into `service_routines`) is the
  result `none`.
* The `printf` of `Print` is recorded in the field `out`; the diagnostic
  messages of the primitives are not recorded.
* `pick` can be asked for `stack[sp - pos]` with a subscript that is not a cell
  of `stack[STACK_CAPACITY]`.  C leaves that access undefined.  The embedding
  records it in the field `oob` and goes on with the word 0; a record with
  `oob` set says nothing about the C program.
* `asmexp.c` declares fourteen service routines `srv_*` and the driver
  `asm_main` as `extern`: they are assembly, outside the C sources.  They are
  modelled from the spec, each under a comment that says so; the thirteen
  routines `sr_*` that the table of `asmexp.c` holds, and the macros, are
  embedded from the C text.
-/

namespace Interp

/-- Constants declared in `common.h` and the sequence of values returned by
successive calls of `rand()`. -/
structure Params where
  PROGRAM_SIZE : Nat
  STACK_CAPACITY : Nat
  rand : Nat → Nat

/-- Run state of the processor. -/
inductive cpu_state_t where
  | Cpu_Running
  | Cpu_Halted
  | Cpu_Break
  deriving DecidableEq, Repr

open cpu_state_t

/-- Processor record.  `pc` is a `uint32_t`, `sp` an `int32_t`, `steps` a
`uint64_t`, `stack` an array of `uint32_t` cells and `pmem` the program memory.
The last three fields stand for what lies outside the record: `out` lists the
words printed by `Print`, oldest first, `nrand` counts the calls of `rand()`
made so far, and `oob` is set once `pick` has used a subscript outside the
array `stack[STACK_CAPACITY]`, from where on C defines nothing. -/
structure cpu_t where
  pc : Nat
  sp : Int
  state : cpu_state_t
  steps : Nat
  stack : Nat → Nat
  pmem : Nat → Nat
  out : List Nat
  nrand : Nat
  oob : Bool

/-- Result of decoding: opcode, length in cells (an `int`), and the signed
immediate of the two-cell instructions. -/
structure decode_t where
  opcode : Nat
  length : Int
  immediate : Int
  deriving DecidableEq

/-! ### Opcode numbers (positions in `service_routines`) -/

@[simp] abbrev Instr_Break : Nat := 0
@[simp] abbrev Instr_Nop : Nat := 1
@[simp] abbrev Instr_Halt : Nat := 2
@[simp] abbrev Instr_Push : Nat := 3
@[simp] abbrev Instr_Print : Nat := 4
@[simp] abbrev Instr_JNE : Nat := 5
@[simp] abbrev Instr_Swap : Nat := 6
@[simp] abbrev Instr_Dup : Nat := 7
@[simp] abbrev Instr_JE : Nat := 8
@[simp] abbrev Instr_Inc : Nat := 9
@[simp] abbrev Instr_Add : Nat := 10
@[simp] abbrev Instr_Sub : Nat := 11
@[simp] abbrev Instr_Mul : Nat := 12
@[simp] abbrev Instr_Rand : Nat := 13
@[simp] abbrev Instr_Dec : Nat := 14
@[simp] abbrev Instr_Drop : Nat := 15
@[simp] abbrev Instr_Over : Nat := 16
@[simp] abbrev Instr_Mod : Nat := 17
@[simp] abbrev Instr_Jump : Nat := 18
@[simp] abbrev Instr_And : Nat := 19
@[simp] abbrev Instr_Or : Nat := 20
@[simp] abbrev Instr_Xor : Nat := 21
@[simp] abbrev Instr_SHL : Nat := 22
@[simp] abbrev Instr_SHR : Nat := 23
@[simp] abbrev Instr_SQRT : Nat := 24
@[simp] abbrev Instr_Rot : Nat := 25
@[simp] abbrev Instr_Pick : Nat := 26

/-! ### Machine arithmetic -/

/-- Conversion of an integer to `uint32_t`. -/
def wrap32 (z : Int) : Nat := (z % 2 ^ 32).toNat

/-- Conversion of a 32-bit word to `int32_t` (two's complement). -/
def toInt32 (w : Nat) : Int :=
  if w % 2 ^ 32 < 2 ^ 31 then ((w % 2 ^ 32 : Nat) : Int) else ((w % 2 ^ 32 : Nat) : Int) - 2 ^ 32

/-- Shift left of `uint32_t`.  A count of 32 or more is undefined in C; the
count is taken modulo 32 here, as the x86 shift instructions do. -/
def shl32 (a b : Nat) : Nat := (a <<< (b % 32)) % 2 ^ 32

/-- Shift right of `uint32_t`, with the same treatment of large counts. -/
def shr32 (a b : Nat) : Nat := a >>> (b % 32)

/-- Value of `(uint32_t)sqrt((double)a)`: the conversion of a 32-bit word to
`double` is exact and the correctly rounded root of a word that is not a
perfect square stays below the next integer, so truncation gives the integer
square root. -/
def sqrt32 (a : Nat) : Nat := Nat.sqrt a

/-! ### Fetch and decode (the same text in both files) -/

/-- The C `fetch`; its `assert(pcpu->pc < PROGRAM_SIZE)` is the argument `_h`. -/
def fetch (P : Params) (pcpu : cpu_t) (_h : pcpu.pc < P.PROGRAM_SIZE) : Nat :=
  pcpu.pmem pcpu.pc

/-- The C `fetch_checked`: returns the raw instruction and the updated record. -/
def fetch_checked (P : Params) (pcpu : cpu_t) : Nat × cpu_t :=
  if h : pcpu.pc < P.PROGRAM_SIZE then (fetch P pcpu h, pcpu)
  else (Instr_Break, { pcpu with state := Cpu_Break })

/-- The C `decode`.  `pcpu->pc+1` is computed in `uint32_t`. -/
def decode (P : Params) (raw_instr : Nat) (pcpu : cpu_t) : decode_t :=
  if raw_instr = Instr_Nop ∨ raw_instr = Instr_Halt ∨ raw_instr = Instr_Print
      ∨ raw_instr = Instr_Swap ∨ raw_instr = Instr_Dup ∨ raw_instr = Instr_Inc
      ∨ raw_instr = Instr_Add ∨ raw_instr = Instr_Sub ∨ raw_instr = Instr_Mul
      ∨ raw_instr = Instr_Rand ∨ raw_instr = Instr_Dec ∨ raw_instr = Instr_Drop
      ∨ raw_instr = Instr_Over ∨ raw_instr = Instr_Mod ∨ raw_instr = Instr_And
      ∨ raw_instr = Instr_Or ∨ raw_instr = Instr_Xor ∨ raw_instr = Instr_SHL
      ∨ raw_instr = Instr_SHR ∨ raw_instr = Instr_Rot ∨ raw_instr = Instr_SQRT
      ∨ raw_instr = Instr_Pick then
    { opcode := raw_instr, length := 1, immediate := 0 }
  else if raw_instr = Instr_Push ∨ raw_instr = Instr_JNE ∨ raw_instr = Instr_JE
      ∨ raw_instr = Instr_Jump then
    if ¬ ((pcpu.pc + 1) % 2 ^ 32 < P.PROGRAM_SIZE) then
      { opcode := Instr_Break, length := 1, immediate := 0 }
    else
      { opcode := raw_instr, length := 2,
        immediate := toInt32 (pcpu.pmem ((pcpu.pc + 1) % 2 ^ 32)) }
  else
    { opcode := Instr_Break, length := 1, immediate := 0 }

/-- The C `fetch_decode` of `asmexp.c`. -/
def fetch_decode (P : Params) (pcpu : cpu_t) : decode_t × cpu_t :=
  let r := fetch_checked P pcpu
  (decode P r.1 r.2, r.2)

/-! ### Stack primitives (the same text in both files) -/

/-- The C `push`. -/
def push (P : Params) (pcpu : cpu_t) (v : Nat) : cpu_t :=
  if pcpu.sp ≥ (P.STACK_CAPACITY : Int) - 1 then
    { pcpu with state := Cpu_Break }
  else
    { pcpu with sp := pcpu.sp + 1, stack := Function.update pcpu.stack (pcpu.sp + 1).toNat v }

/-- The C `pop`: the returned word and the updated record. -/
def pop (pcpu : cpu_t) : Nat × cpu_t :=
  if pcpu.sp < 0 then
    (0, { pcpu with state := Cpu_Break })
  else
    (pcpu.stack pcpu.sp.toNat, { pcpu with sp := pcpu.sp - 1 })

/-- The C `pick`: the returned word and the updated record.  Past the guard the
subscript `pcpu->sp - pos`, an `int`, is at least 1.  It names a cell of
`uint32_t stack[STACK_CAPACITY]` when it is representable and below
`STACK_CAPACITY`; otherwise the access is outside the array, undefined in C:
`oob` is set and the word is 0. -/
def pick (P : Params) (pcpu : cpu_t) (pos : Int) : Nat × cpu_t :=
  if pcpu.sp - 1 < pos then
    (0, { pcpu with state := Cpu_Break })
  else if pcpu.sp - pos < 2 ^ 31 ∧ pcpu.sp - pos < (P.STACK_CAPACITY : Int) then
    (pcpu.stack (pcpu.sp - pos).toNat, pcpu)
  else
    (0, { pcpu with oob := true })

/-- Subscript of the cell that `pop` reads, the `pcpu->sp` of
`pcpu->stack[pcpu->sp--]`; `none` on the branch that reads no cell. -/
def pop_index (pcpu : cpu_t) : Option Int :=
  if pcpu.sp < 0 then none else some pcpu.sp

/-- Subscript of the cell that `pick` reads, the `pcpu->sp - pos` of
`pcpu->stack[pcpu->sp - pos]`, computed in `int`; `none` on the branch that
reads no cell, and `none` when the difference is not representable in `int`,
where the subtraction itself is undefined in C. -/
def pick_index (pcpu : cpu_t) (pos : Int) : Option Int :=
  if pcpu.sp - 1 < pos then none
  else if pcpu.sp - pos < 2 ^ 31 then some (pcpu.sp - pos)
  else none

/-- The statement `pc += length; steps++` shared by the loop and `ADVANCE_PC`. -/
def advance (c : cpu_t) (decoded : decode_t) : cpu_t :=
  { c with pc := wrap32 (c.pc + decoded.length), steps := (c.steps + 1) % 2 ^ 64 }

/-- The statement `pc += immediate` of the jumps. -/
def jump (c : cpu_t) (decoded : decode_t) : cpu_t :=
  { c with pc := wrap32 (c.pc + decoded.immediate) }

/-- Modelled from the spec: `init_cpu` of `common.h`, which is not among the
sources.  Spec 3: the record "is created once at run start (stack empty,
`pc=0`, `state=Running`, `steps=0`)"; the contents of the stack array and the
program are given. -/
def init_cpu (pmem : Nat → Nat) (stack0 : Nat → Nat) : cpu_t :=
  { pc := 0, sp := -1, state := Cpu_Running, steps := 0, stack := stack0, pmem := pmem,
    out := [], nrand := 0, oob := false }

/-! ### `switched.c`: the central loop -/

namespace Switched

/-- The `switch (decoded.opcode)` of `main`.  Inside the `switch`,
`BAIL_ON_ERROR()` is `if (cpu.state != Cpu_Running) break;`, which leaves the
`switch` only.  The `default` branch is a failing assertion. -/
def execute (P : Params) (cpu : cpu_t) (decoded : decode_t) : Option cpu_t :=
  if decoded.opcode = Instr_Nop then
    some cpu
  else if decoded.opcode = Instr_Halt then
    some { cpu with state := Cpu_Halted }
  else if decoded.opcode = Instr_Push then
    some (push P cpu (wrap32 decoded.immediate))
  else if decoded.opcode = Instr_Print then
    let r1 := pop cpu
    if r1.2.state ≠ Cpu_Running then some r1.2 else
    some { r1.2 with out := r1.2.out ++ [r1.1] }
  else if decoded.opcode = Instr_Swap then
    let r1 := pop cpu
    let r2 := pop r1.2
    if r2.2.state ≠ Cpu_Running then some r2.2 else
    some (push P (push P r2.2 r1.1) r2.1)
  else if decoded.opcode = Instr_Dup then
    let r1 := pop cpu
    if r1.2.state ≠ Cpu_Running then some r1.2 else
    some (push P (push P r1.2 r1.1) r1.1)
  else if decoded.opcode = Instr_Over then
    let r1 := pop cpu
    let r2 := pop r1.2
    if r2.2.state ≠ Cpu_Running then some r2.2 else
    some (push P (push P (push P r2.2 r2.1) r1.1) r2.1)
  else if decoded.opcode = Instr_Inc then
    let r1 := pop cpu
    if r1.2.state ≠ Cpu_Running then some r1.2 else
    some (push P r1.2 ((r1.1 + 1) % 2 ^ 32))
  else if decoded.opcode = Instr_Add then
    let r1 := pop cpu
    let r2 := pop r1.2
    if r2.2.state ≠ Cpu_Running then some r2.2 else
    some (push P r2.2 ((r1.1 + r2.1) % 2 ^ 32))
  else if decoded.opcode = Instr_Sub then
    let r1 := pop cpu
    let r2 := pop r1.2
    if r2.2.state ≠ Cpu_Running then some r2.2 else
    some (push P r2.2 (wrap32 ((r1.1 : Int) - (r2.1 : Int))))
  else if decoded.opcode = Instr_Mod then
    let r1 := pop cpu
    let r2 := pop r1.2
    if r2.2.state ≠ Cpu_Running then some r2.2 else
    if r2.1 = 0 then some { r2.2 with state := Cpu_Break } else
    some (push P r2.2 (r1.1 % r2.1))
  else if decoded.opcode = Instr_Mul then
    let r1 := pop cpu
    let r2 := pop r1.2
    if r2.2.state ≠ Cpu_Running then some r2.2 else
    some (push P r2.2 ((r1.1 * r2.1) % 2 ^ 32))
  else if decoded.opcode = Instr_Rand then
    some (push P { cpu with nrand := cpu.nrand + 1 } (P.rand cpu.nrand % 2 ^ 32))
  else if decoded.opcode = Instr_Dec then
    let r1 := pop cpu
    if r1.2.state ≠ Cpu_Running then some r1.2 else
    some (push P r1.2 (wrap32 ((r1.1 : Int) - 1)))
  else if decoded.opcode = Instr_Drop then
    some (pop cpu).2
  else if decoded.opcode = Instr_JE then
    let r1 := pop cpu
    if r1.2.state ≠ Cpu_Running then some r1.2 else
    if r1.1 = 0 then some (jump r1.2 decoded) else some r1.2
  else if decoded.opcode = Instr_JNE then
    let r1 := pop cpu
    if r1.2.state ≠ Cpu_Running then some r1.2 else
    if r1.1 ≠ 0 then some (jump r1.2 decoded) else some r1.2
  else if decoded.opcode = Instr_Jump then
    some (jump cpu decoded)
  else if decoded.opcode = Instr_And then
    let r1 := pop cpu
    let r2 := pop r1.2
    if r2.2.state ≠ Cpu_Running then some r2.2 else
    some (push P r2.2 (r1.1 &&& r2.1))
  else if decoded.opcode = Instr_Or then
    let r1 := pop cpu
    let r2 := pop r1.2
    if r2.2.state ≠ Cpu_Running then some r2.2 else
    some (push P r2.2 (r1.1 ||| r2.1))
  else if decoded.opcode = Instr_Xor then
    let r1 := pop cpu
    let r2 := pop r1.2
    if r2.2.state ≠ Cpu_Running then some r2.2 else
    some (push P r2.2 (r1.1 ^^^ r2.1))
  else if decoded.opcode = Instr_SHL then
    let r1 := pop cpu
    let r2 := pop r1.2
    if r2.2.state ≠ Cpu_Running then some r2.2 else
    some (push P r2.2 (shl32 r1.1 r2.1))
  else if decoded.opcode = Instr_SHR then
    let r1 := pop cpu
    let r2 := pop r1.2
    if r2.2.state ≠ Cpu_Running then some r2.2 else
    some (push P r2.2 (shr32 r1.1 r2.1))
  else if decoded.opcode = Instr_Rot then
    let r1 := pop cpu
    let r2 := pop r1.2
    let r3 := pop r2.2
    if r3.2.state ≠ Cpu_Running then some r3.2 else
    some (push P (push P (push P r3.2 r1.1) r3.1) r2.1)
  else if decoded.opcode = Instr_SQRT then
    let r1 := pop cpu
    if r1.2.state ≠ Cpu_Running then some r1.2 else
    some (push P r1.2 (sqrt32 r1.1))
  else if decoded.opcode = Instr_Pick then
    let r1 := pop cpu
    if r1.2.state ≠ Cpu_Running then some r1.2 else
    let r2 := pick P r1.2 (toInt32 r1.1)
    some (push P r2.2 r2.1)
  else if decoded.opcode = Instr_Break then
    some { cpu with state := Cpu_Break }
  else
    none

/-- One pass through the body of the `while` loop.  The flag is `false` when
the body was left by the `BAIL_ON_ERROR()` that follows `fetch_checked`, which
leaves the loop before `pc` and `steps` are advanced. -/
def body (P : Params) (cpu : cpu_t) : Option (cpu_t × Bool) :=
  let r := fetch_checked P cpu
  if r.2.state ≠ Cpu_Running then some (r.2, false) else
  let decoded := decode P r.1 r.2
  match execute P r.2 decoded with
  | none => none
  | some c => some (advance c decoded, true)

/-- The `while (cpu.state == Cpu_Running && cpu.steps < steplimit)` loop, with
a bound on the number of passes; `none` also when the bound is used up while
the loop condition still holds. -/
def loop (P : Params) (steplimit : Nat) : Nat → cpu_t → Option cpu_t
  | 0, cpu => if cpu.state = Cpu_Running ∧ cpu.steps < steplimit then none else some cpu
  | fuel + 1, cpu =>
    if cpu.state = Cpu_Running ∧ cpu.steps < steplimit then
      match body P cpu with
      | none => none
      | some (c, true) => loop P steplimit fuel c
      | some (c, false) => some c
    else some cpu

/-- The C `main` up to the assertion that follows the loop, from the record
made by `init_cpu`.  `steps` starts at zero in that record, so `steplimit`
passes are enough. -/
def main (P : Params) (steplimit : Nat) (cpu : cpu_t) : Option cpu_t :=
  match loop P steplimit steplimit cpu with
  | none => none
  | some c => if c.state ≠ Cpu_Running ∨ c.steps = steplimit then some c else none

end Switched

/-! ### `asmexp.c`: one service routine per instruction

Every routine ends in a call of the routine of the next instruction.  A routine
is embedded up to that call: it returns the record together with a flag, `true`
when it reaches `*pdecoded = fetch_decode(pcpu); DISPATCH();` and `false` when
it returns before (by `BAIL_ON_ERROR()`, by the `return` inside `ADVANCE_PC()`,
or by a `return` of its own).  `DISPATCH` below makes the calls.  The global
`steplimit` is an argument.

The file defines a C routine `sr_*` for each of the 27 instructions.  Its table
`service_routines` holds thirteen of them; in the other fourteen places it
holds an assembly routine `srv_*`, of which the file has the `extern`
declaration only. -/

namespace Asmexp

/-- The macro `ADVANCE_PC()`; the flag is `false` when the macro returns from
the routine. -/
def ADVANCE_PC (steplimit : Nat) (pcpu : cpu_t) (pdecoded : decode_t) : cpu_t × Bool :=
  let c := advance pcpu pdecoded
  if c.state ≠ Cpu_Running ∨ c.steps ≥ steplimit then (c, false) else (c, true)

/-- The C `sr_Nop`. -/
def sr_Nop (_P : Params) (steplimit : Nat) (pcpu : cpu_t) (pdecoded : decode_t) : cpu_t × Bool :=
  ADVANCE_PC steplimit pcpu pdecoded

/-- The C `sr_Halt`. -/
def sr_Halt (_P : Params) (steplimit : Nat) (pcpu : cpu_t) (pdecoded : decode_t) : cpu_t × Bool :=
  ((ADVANCE_PC steplimit { pcpu with state := Cpu_Halted } pdecoded).1, false)

/-- The C `sr_Push`. -/
def sr_Push (P : Params) (steplimit : Nat) (pcpu : cpu_t) (pdecoded : decode_t) : cpu_t × Bool :=
  ADVANCE_PC steplimit (push P pcpu (wrap32 pdecoded.immediate)) pdecoded

/-- The C `sr_Print`. -/
def sr_Print (_P : Params) (steplimit : Nat) (pcpu : cpu_t) (pdecoded : decode_t) : cpu_t × Bool :=
  let r1 := pop pcpu
  if r1.2.state ≠ Cpu_Running then (r1.2, false) else
  ADVANCE_PC steplimit { r1.2 with out := r1.2.out ++ [r1.1] } pdecoded

/-- The C `sr_Swap`. -/
def sr_Swap (P : Params) (steplimit : Nat) (pcpu : cpu_t) (pdecoded : decode_t) : cpu_t × Bool :=
  let r1 := pop pcpu
  let r2 := pop r1.2
  if r2.2.state ≠ Cpu_Running then (r2.2, false) else
  ADVANCE_PC steplimit (push P (push P r2.2 r1.1) r2.1) pdecoded

/-- The C `sr_Dup`. -/
def sr_Dup (P : Params) (steplimit : Nat) (pcpu : cpu_t) (pdecoded : decode_t) : cpu_t × Bool :=
  let r1 := pop pcpu
  if r1.2.state ≠ Cpu_Running then (r1.2, false) else
  ADVANCE_PC steplimit (push P (push P r1.2 r1.1) r1.1) pdecoded

/-- The C `sr_Over`. -/
def sr_Over (P : Params) (steplimit : Nat) (pcpu : cpu_t) (pdecoded : decode_t) : cpu_t × Bool :=
  let r1 := pop pcpu
  let r2 := pop r1.2
  if r2.2.state ≠ Cpu_Running then (r2.2, false) else
  ADVANCE_PC steplimit (push P (push P (push P r2.2 r2.1) r1.1) r2.1) pdecoded

/-- The C `sr_Inc`. -/
def sr_Inc (P : Params) (steplimit : Nat) (pcpu : cpu_t) (pdecoded : decode_t) : cpu_t × Bool :=
  let r1 := pop pcpu
  if r1.2.state ≠ Cpu_Running then (r1.2, false) else
  ADVANCE_PC steplimit (push P r1.2 ((r1.1 + 1) % 2 ^ 32)) pdecoded

/-- The C `sr_Add`. -/
def sr_Add (P : Params) (steplimit : Nat) (pcpu : cpu_t) (pdecoded : decode_t) : cpu_t × Bool :=
  let r1 := pop pcpu
  let r2 := pop r1.2
  if r2.2.state ≠ Cpu_Running then (r2.2, false) else
  ADVANCE_PC steplimit (push P r2.2 ((r1.1 + r2.1) % 2 ^ 32)) pdecoded

/-- The C `sr_Sub`. -/
def sr_Sub (P : Params) (steplimit : Nat) (pcpu : cpu_t) (pdecoded : decode_t) : cpu_t × Bool :=
  let r1 := pop pcpu
  let r2 := pop r1.2
  if r2.2.state ≠ Cpu_Running then (r2.2, false) else
  ADVANCE_PC steplimit (push P r2.2 (wrap32 ((r1.1 : Int) - (r2.1 : Int)))) pdecoded

/-- The C `sr_Mod`. -/
def sr_Mod (P : Params) (steplimit : Nat) (pcpu : cpu_t) (pdecoded : decode_t) : cpu_t × Bool :=
  let r1 := pop pcpu
  let r2 := pop r1.2
  if r2.2.state ≠ Cpu_Running then (r2.2, false) else
  if r2.1 = 0 then ({ r2.2 with state := Cpu_Break }, false) else
  ADVANCE_PC steplimit (push P r2.2 (r1.1 % r2.1)) pdecoded

/-- The C `sr_Mul`. -/
def sr_Mul (P : Params) (steplimit : Nat) (pcpu : cpu_t) (pdecoded : decode_t) : cpu_t × Bool :=
  let r1 := pop pcpu
  let r2 := pop r1.2
  if r2.2.state ≠ Cpu_Running then (r2.2, false) else
  ADVANCE_PC steplimit (push P r2.2 ((r1.1 * r2.1) % 2 ^ 32)) pdecoded

/-- The C `sr_Rand`. -/
def sr_Rand (P : Params) (steplimit : Nat) (pcpu : cpu_t) (pdecoded : decode_t) : cpu_t × Bool :=
  ADVANCE_PC steplimit
    (push P { pcpu with nrand := pcpu.nrand + 1 } (P.rand pcpu.nrand % 2 ^ 32)) pdecoded

/-- The C `sr_Dec`. -/
def sr_Dec (P : Params) (steplimit : Nat) (pcpu : cpu_t) (pdecoded : decode_t) : cpu_t × Bool :=
  let r1 := pop pcpu
  if r1.2.state ≠ Cpu_Running then (r1.2, false) else
  ADVANCE_PC steplimit (push P r1.2 (wrap32 ((r1.1 : Int) - 1))) pdecoded

/-- The C `sr_Drop`. -/
def sr_Drop (_P : Params) (steplimit : Nat) (pcpu : cpu_t) (pdecoded : decode_t) : cpu_t × Bool :=
  ADVANCE_PC steplimit (pop pcpu).2 pdecoded

/-- The C `sr_Je`. -/
def sr_Je (_P : Params) (steplimit : Nat) (pcpu : cpu_t) (pdecoded : decode_t) : cpu_t × Bool :=
  let r1 := pop pcpu
  if r1.2.state ≠ Cpu_Running then (r1.2, false) else
  if r1.1 = 0 then ADVANCE_PC steplimit (jump r1.2 pdecoded) pdecoded else
  ADVANCE_PC steplimit r1.2 pdecoded

/-- The C `sr_Jne`. -/
def sr_Jne (_P : Params) (steplimit : Nat) (pcpu : cpu_t) (pdecoded : decode_t) : cpu_t × Bool :=
  let r1 := pop pcpu
  if r1.2.state ≠ Cpu_Running then (r1.2, false) else
  if r1.1 ≠ 0 then ADVANCE_PC steplimit (jump r1.2 pdecoded) pdecoded else
  ADVANCE_PC steplimit r1.2 pdecoded

/-- The C `sr_Jump`. -/
def sr_Jump (_P : Params) (steplimit : Nat) (pcpu : cpu_t) (pdecoded : decode_t) : cpu_t × Bool :=
  ADVANCE_PC steplimit (jump pcpu pdecoded) pdecoded

/-- The C `sr_And`. -/
def sr_And (P : Params) (steplimit : Nat) (pcpu : cpu_t) (pdecoded : decode_t) : cpu_t × Bool :=
  let r1 := pop pcpu
  let r2 := pop r1.2
  if r2.2.state ≠ Cpu_Running then (r2.2, false) else
  ADVANCE_PC steplimit (push P r2.2 (r1.1 &&& r2.1)) pdecoded

/-- The C `sr_Or`. -/
def sr_Or (P : Params) (steplimit : Nat) (pcpu : cpu_t) (pdecoded : decode_t) : cpu_t × Bool :=
  let r1 := pop pcpu
  let r2 := pop r1.2
  if r2.2.state ≠ Cpu_Running then (r2.2, false) else
  ADVANCE_PC steplimit (push P r2.2 (r1.1 ||| r2.1)) pdecoded

/-- The C `sr_Xor`. -/
def sr_Xor (P : Params) (steplimit : Nat) (pcpu : cpu_t) (pdecoded : decode_t) : cpu_t × Bool :=
  let r1 := pop pcpu
  let r2 := pop r1.2
  if r2.2.state ≠ Cpu_Running then (r2.2, false) else
  ADVANCE_PC steplimit (push P r2.2 (r1.1 ^^^ r2.1)) pdecoded

/-- The C `sr_SHL`. -/
def sr_SHL (P : Params) (steplimit : Nat) (pcpu : cpu_t) (pdecoded : decode_t) : cpu_t × Bool :=
  let r1 := pop pcpu
  let r2 := pop r1.2
  if r2.2.state ≠ Cpu_Running then (r2.2, false) else
  ADVANCE_PC steplimit (push P r2.2 (shl32 r1.1 r2.1)) pdecoded

/-- The C `sr_SHR`. -/
def sr_SHR (P : Params) (steplimit : Nat) (pcpu : cpu_t) (pdecoded : decode_t) : cpu_t × Bool :=
  let r1 := pop pcpu
  let r2 := pop r1.2
  if r2.2.state ≠ Cpu_Running then (r2.2, false) else
  ADVANCE_PC steplimit (push P r2.2 (shr32 r1.1 r2.1)) pdecoded

/-- The C `sr_Rot`. -/
def sr_Rot (P : Params) (steplimit : Nat) (pcpu : cpu_t) (pdecoded : decode_t) : cpu_t × Bool :=
  let r1 := pop pcpu
  let r2 := pop r1.2
  let r3 := pop r2.2
  if r3.2.state ≠ Cpu_Running then (r3.2, false) else
  ADVANCE_PC steplimit (push P (push P (push P r3.2 r1.1) r3.1) r2.1) pdecoded

/-- The C `sr_SQRT`. -/
def sr_SQRT (P : Params) (steplimit : Nat) (pcpu : cpu_t) (pdecoded : decode_t) : cpu_t × Bool :=
  let r1 := pop pcpu
  if r1.2.state ≠ Cpu_Running then (r1.2, false) else
  ADVANCE_PC steplimit (push P r1.2 (sqrt32 r1.1)) pdecoded

/-- The C `sr_Pick`. -/
def sr_Pick (P : Params) (steplimit : Nat) (pcpu : cpu_t) (pdecoded : decode_t) : cpu_t × Bool :=
  let r1 := pop pcpu
  if r1.2.state ≠ Cpu_Running then (r1.2, false) else
  let r2 := pick P r1.2 (toInt32 r1.1)
  ADVANCE_PC steplimit (push P r2.2 r2.1) pdecoded

/-- The C `sr_Break`. -/
def sr_Break (_P : Params) (steplimit : Nat) (pcpu : cpu_t) (pdecoded : decode_t) : cpu_t × Bool :=
  ((ADVANCE_PC steplimit { pcpu with state := Cpu_Break } pdecoded).1, false)

/-! #### The assembly routines `srv_*`

The fourteen routines below are not among the sources.  Each is the handler
that the spec describes for Strategy B (4.5): "Each handler performs its own
effect, then itself advances `pc` and `steps`, checks the halting condition
(state no longer `Running`, or step budget reached) and returns immediately if
so, otherwise fetch-decodes the next instruction and transfers control directly
to that instruction's handler."  The effect is the one of 4.3, under the rule
of 4.2 that a handler "must check `state` immediately after each pop/pick and
abandon the instruction's remaining effects if a failure occurred"; by 7 a
failing primitive "returns a benign placeholder value so callers can finish the
current handler's bookkeeping (e.g. step counting)", so the advance follows a
failure too.  The advance and the halting check are written with `ADVANCE_PC`,
which is that sentence in C; the flag is the one of the C routines. -/

/-- Modelled from the spec: the assembly routine `srv_Nop`.  Spec 4.3: "`Nop`:
no effect". -/
def srv_Nop (_P : Params) (steplimit : Nat) (pcpu : cpu_t) (pdecoded : decode_t) : cpu_t × Bool :=
  ADVANCE_PC steplimit pcpu pdecoded

/-- Modelled from the spec: the assembly routine `srv_Halt`.  Spec 4.3:
"`Halt`: `state = Halted`"; 4.5: "`Halt` and `Break` handlers perform the final
`pc`/`steps` advance and return without continuing the chain." -/
def srv_Halt (_P : Params) (_steplimit : Nat) (pcpu : cpu_t) (pdecoded : decode_t) :
    cpu_t × Bool :=
  (advance { pcpu with state := Cpu_Halted } pdecoded, false)

/-- Modelled from the spec: the assembly routine `srv_Break`.  Spec 4.3:
"`Break`: `state = Break` immediately; no further instructions execute"; 4.5 as
for `srv_Halt`. -/
def srv_Break (_P : Params) (_steplimit : Nat) (pcpu : cpu_t) (pdecoded : decode_t) :
    cpu_t × Bool :=
  (advance { pcpu with state := Cpu_Break } pdecoded, false)

/-- Modelled from the spec: the assembly routine `srv_Push`.  Spec 4.3:
"`Push v`: push immediate `v`". -/
def srv_Push (P : Params) (steplimit : Nat) (pcpu : cpu_t) (pdecoded : decode_t) : cpu_t × Bool :=
  ADVANCE_PC steplimit (push P pcpu (wrap32 pdecoded.immediate)) pdecoded

/-- Modelled from the spec: the assembly routine `srv_Print`.  Spec 4.3:
"`Print`: pop one; side effect: emit it". -/
def srv_Print (_P : Params) (steplimit : Nat) (pcpu : cpu_t) (pdecoded : decode_t) :
    cpu_t × Bool :=
  let r1 := pop pcpu
  if r1.2.state ≠ Cpu_Running then ADVANCE_PC steplimit r1.2 pdecoded else
  ADVANCE_PC steplimit { r1.2 with out := r1.2.out ++ [r1.1] } pdecoded

/-- Modelled from the spec: the assembly routine `srv_Swap`.  Spec 4.3:
"`Swap`: pop a,b → push a,b". -/
def srv_Swap (P : Params) (steplimit : Nat) (pcpu : cpu_t) (pdecoded : decode_t) : cpu_t × Bool :=
  let r1 := pop pcpu
  if r1.2.state ≠ Cpu_Running then ADVANCE_PC steplimit r1.2 pdecoded else
  let r2 := pop r1.2
  if r2.2.state ≠ Cpu_Running then ADVANCE_PC steplimit r2.2 pdecoded else
  ADVANCE_PC steplimit (push P (push P r2.2 r1.1) r2.1) pdecoded

/-- Modelled from the spec: the assembly routine `srv_Dup`.  Spec 4.3: "`Dup`:
pop a → push a,a". -/
def srv_Dup (P : Params) (steplimit : Nat) (pcpu : cpu_t) (pdecoded : decode_t) : cpu_t × Bool :=
  let r1 := pop pcpu
  if r1.2.state ≠ Cpu_Running then ADVANCE_PC steplimit r1.2 pdecoded else
  ADVANCE_PC steplimit (push P (push P r1.2 r1.1) r1.1) pdecoded

/-- Modelled from the spec: the assembly routine `srv_Je`.  Spec 4.3: "`JE`/
`JNE`: pop a; if `a==0` (JE) or `a!=0` (JNE), add the decoded immediate to `pc`
(this addition happens before the uniform length-based `pc` advance performed
by the dispatch engine". -/
def srv_Je (_P : Params) (steplimit : Nat) (pcpu : cpu_t) (pdecoded : decode_t) : cpu_t × Bool :=
  let r1 := pop pcpu
  if r1.2.state ≠ Cpu_Running then ADVANCE_PC steplimit r1.2 pdecoded else
  if r1.1 = 0 then ADVANCE_PC steplimit (jump r1.2 pdecoded) pdecoded else
  ADVANCE_PC steplimit r1.2 pdecoded

/-- Modelled from the spec: the assembly routine `srv_Inc`.  Spec 4.3: "`Inc`/
`Dec`: pop a → push a±1 (wrapping on 32-bit overflow)". -/
def srv_Inc (P : Params) (steplimit : Nat) (pcpu : cpu_t) (pdecoded : decode_t) : cpu_t × Bool :=
  let r1 := pop pcpu
  if r1.2.state ≠ Cpu_Running then ADVANCE_PC steplimit r1.2 pdecoded else
  ADVANCE_PC steplimit (push P r1.2 ((r1.1 + 1) % 2 ^ 32)) pdecoded

/-- Modelled from the spec: the assembly routine `srv_Sub`.  Spec 4.3: "pop
a,b → push a OP b", where "`Sub` computes `first - second`". -/
def srv_Sub (P : Params) (steplimit : Nat) (pcpu : cpu_t) (pdecoded : decode_t) : cpu_t × Bool :=
  let r1 := pop pcpu
  if r1.2.state ≠ Cpu_Running then ADVANCE_PC steplimit r1.2 pdecoded else
  let r2 := pop r1.2
  if r2.2.state ≠ Cpu_Running then ADVANCE_PC steplimit r2.2 pdecoded else
  ADVANCE_PC steplimit (push P r2.2 (wrap32 ((r1.1 : Int) - (r2.1 : Int)))) pdecoded

/-- Modelled from the spec: the assembly routine `srv_Drop`.  Spec 4.3:
"`Drop`: pop one, discard". -/
def srv_Drop (_P : Params) (steplimit : Nat) (pcpu : cpu_t) (pdecoded : decode_t) : cpu_t × Bool :=
  ADVANCE_PC steplimit (pop pcpu).2 pdecoded

/-- Modelled from the spec: the assembly routine `srv_Over`.  Spec 4.3:
"`Over`: pop a,b → push b,a,b". -/
def srv_Over (P : Params) (steplimit : Nat) (pcpu : cpu_t) (pdecoded : decode_t) : cpu_t × Bool :=
  let r1 := pop pcpu
  if r1.2.state ≠ Cpu_Running then ADVANCE_PC steplimit r1.2 pdecoded else
  let r2 := pop r1.2
  if r2.2.state ≠ Cpu_Running then ADVANCE_PC steplimit r2.2 pdecoded else
  ADVANCE_PC steplimit (push P (push P (push P r2.2 r2.1) r1.1) r2.1) pdecoded

/-- Modelled from the spec: the assembly routine `srv_Mod`.  Spec 4.3: "`Mod`:
pop a,b; if `b == 0`, `state = Break` (division-by-zero is fatal, not a
recovered error) without pushing; else push `a % b`". -/
def srv_Mod (P : Params) (steplimit : Nat) (pcpu : cpu_t) (pdecoded : decode_t) : cpu_t × Bool :=
  let r1 := pop pcpu
  if r1.2.state ≠ Cpu_Running then ADVANCE_PC steplimit r1.2 pdecoded else
  let r2 := pop r1.2
  if r2.2.state ≠ Cpu_Running then ADVANCE_PC steplimit r2.2 pdecoded else
  if r2.1 = 0 then ADVANCE_PC steplimit { r2.2 with state := Cpu_Break } pdecoded else
  ADVANCE_PC steplimit (push P r2.2 (r1.1 % r2.1)) pdecoded

/-- Modelled from the spec: the assembly routine `srv_Jump`.  Spec 4.3:
"`Jump`: unconditionally add immediate to `pc` under the same rule". -/
def srv_Jump (_P : Params) (steplimit : Nat) (pcpu : cpu_t) (pdecoded : decode_t) : cpu_t × Bool :=
  ADVANCE_PC steplimit (jump pcpu pdecoded) pdecoded

/-- The table `service_routines`, entry by entry as in the source. -/
def service_routines : List (Params → Nat → cpu_t → decode_t → cpu_t × Bool) :=
  [srv_Break, srv_Nop, srv_Halt, srv_Push, srv_Print,
   sr_Jne, srv_Swap, srv_Dup, srv_Je, srv_Inc,
   sr_Add, srv_Sub, sr_Mul, sr_Rand, sr_Dec,
   srv_Drop, srv_Over, srv_Mod, srv_Jump,
   sr_And, sr_Or, sr_Xor,
   sr_SHL, sr_SHR,
   sr_SQRT,
   sr_Rot,
   sr_Pick]

/-- The macro `DISPATCH()` followed by the chain of calls it starts: call the
routine of `pdecoded->opcode`; when that routine reaches its own
`fetch_decode` and `DISPATCH()`, go on with the next instruction.  The first
argument bounds the number of routines called; `none` when it is used up or
when the opcode is outside the table. -/
def DISPATCH (P : Params) (steplimit : Nat) : Nat → cpu_t → decode_t → Option cpu_t
  | 0, _, _ => none
  | fuel + 1, pcpu, pdecoded =>
    match service_routines[pdecoded.opcode]? with
    | none => none
    | some sr =>
      match sr P steplimit pcpu pdecoded with
      | (c, false) => some c
      | (c, true) => DISPATCH P steplimit fuel (fetch_decode P c).2 (fetch_decode P c).1

/-- Modelled from the spec: the assembly driver `asm_main`, of which
`asmexp.c` has the `extern` declaration and the call
`asm_main(service_routines, DefProgram, Cpu_Running, steplimit)` only.  Spec
4.5, Strategy B: "execution begins by fetch-decoding the first instruction and
invoking its handler directly (no enclosing loop)", on the record of spec 3
("stack empty, `pc=0`, `state=Running`, `steps=0`").  The arguments are those
of the call, followed by the initial contents of the stack array.  The result
is the record that the driver reports in `ret_state`, `ret_pc`, `ret_sp`,
`ret_steps` and `ret_stack`.  The first routine is taken from the table passed
in; a routine that goes on uses `DISPATCH`.  `steps` starts at zero and every
routine that goes on has `steps < steplimit`, so `steplimit` further calls are
enough. -/
def asm_main (P : Params) (table : List (Params → Nat → cpu_t → decode_t → cpu_t × Bool))
    (DefProgram : Nat → Nat) (state : cpu_state_t) (steplimit : Nat) (stack0 : Nat → Nat) :
    Option cpu_t :=
  match table[(fetch_decode P { init_cpu DefProgram stack0 with state := state }).1.opcode]? with
  | none => none
  | some sr =>
    match sr P steplimit (fetch_decode P { init_cpu DefProgram stack0 with state := state }).2
        (fetch_decode P { init_cpu DefProgram stack0 with state := state }).1 with
    | (c, false) => some c
    | (c, true) => DISPATCH P steplimit steplimit (fetch_decode P c).2 (fetch_decode P c).1

/-- The C `main` of `asmexp.c` up to its report: the call
`asm_main(service_routines, DefProgram, Cpu_Running, steplimit)`.  The program
and the initial contents of the stack array are arguments. -/
def main (P : Params) (steplimit : Nat) (DefProgram : Nat → Nat) (stack0 : Nat → Nat) :
    Option cpu_t :=
  asm_main P service_routines DefProgram Cpu_Running steplimit stack0

end Asmexp

/-- Program memory holding the given cells from address zero, followed by
zeros. -/
def program (cells : List Nat) : Nat → Nat := fun i => cells.getD i 0

/-- Cell that encodes the signed immediate `v`. -/
def encode_imm (v : Int) : Nat := wrap32 v

/-- Live part of the stack, bottom first: the entries `0 .. sp`. -/
def live_stack (c : cpu_t) : List Nat := (List.range (c.sp + 1).toNat).map c.stack

/-- Parameters used in the examples: the sizes of the original `common.h` and a
random source that returns its call number. -/
def P0 : Params := { PROGRAM_SIZE := 512, STACK_CAPACITY := 32, rand := fun k => k }

/-- Record used in the examples: a running processor with the given `sp` whose
stack cell `i` holds `i + 1`, on an empty program memory. -/
def sample_cpu (sp : Int) : cpu_t :=
  { pc := 5, sp := sp, state := Cpu_Running, steps := 9, stack := fun i => i + 1,
    pmem := program [], out := [], nrand := 0, oob := false }

/-- Record used in the examples: a running processor whose live stack is the
given list, bottom first, the other cells of the array being zero. -/
def sample_stack (cells : List Nat) : cpu_t :=
  { pc := 0, sp := (cells.length : Int) - 1, state := Cpu_Running, steps := 0,
    stack := fun i => cells.getD i 0, pmem := program [], out := [], nrand := 0, oob := false }

/-! ## Auxiliary lemmas -/

theorem decode_opcode_le (P : Params) (raw : Nat) (c : cpu_t) : (decode P raw c).opcode ≤ 26 := by
  unfold decode
  split_ifs with h1 h2 h3 <;> simp at * <;> omega

theorem execute_isSome (P : Params) (c : cpu_t) (d : decode_t) (h : d.opcode ≤ 26) :
    ∃ c', Switched.execute P c d = some c' := by
  obtain ⟨op, len, imm⟩ := d
  simp only at h
  interval_cases op <;> simp [Switched.execute] <;> split_ifs <;> simp

theorem pop_state (c : cpu_t) : (pop c).2.state = c.state ∨ (pop c).2.state = Cpu_Break := by
  unfold pop; split_ifs <;> simp

theorem pop_state_rb (c : cpu_t) (h : c.state = Cpu_Running ∨ c.state = Cpu_Break) :
    (pop c).2.state = Cpu_Running ∨ (pop c).2.state = Cpu_Break := by
  rcases pop_state c with h3 | h3
  · rw [h3]; exact h
  · exact Or.inr h3

theorem sr_lookup (op : Nat) (h : op ≤ 26) : ∃ sr, Asmexp.service_routines[op]? = some sr := by
  interval_cases op <;> exact ⟨_, rfl⟩

/-- A `pop` that has failed on a running record fails again with the same
record. -/
theorem pop_fail (c : cpu_t) (hc : c.state = Cpu_Running)
    (h : (pop c).2.state ≠ Cpu_Running) : (pop (pop c).2).2 = (pop c).2 := by
  unfold pop at h ⊢
  by_cases hsp : c.sp < 0
  · simp only [hsp, if_true]
  · rw [if_neg hsp] at h
    exact absurd hc h

theorem sr_execute (P : Params) (L : Nat) (c : cpu_t) (d : decode_t) (h : d.opcode ≤ 26)
    (hc : c.state = Cpu_Running) (sr : Params → ℕ → cpu_t → decode_t → cpu_t × Bool)
    (hsr : Asmexp.service_routines[d.opcode]? = some sr) :
    ∃ c1, Switched.execute P c d = some c1 ∧
      (sr P L c d = Asmexp.ADVANCE_PC L c1 d ∨ (sr P L c d = (c1, false) ∧ c1.state = Cpu_Break)) := by
  obtain ⟨op, len, imm⟩ := d
  simp only at h hsr
  have h1 := pop_state_rb c (Or.inl hc)
  have h2 := pop_state_rb _ h1
  have h3 := pop_state_rb _ h2
  interval_cases op
  all_goals simp only [Asmexp.service_routines, List.getElem?_cons_zero, List.getElem?_cons_succ, Option.some.injEq] at hsr
  all_goals subst hsr
  all_goals simp only [Switched.execute, Instr_Break, Instr_Nop, Instr_Halt, Instr_Push,
    Instr_Print, Instr_JNE, Instr_Swap, Instr_Dup, Instr_JE, Instr_Inc, Instr_Add, Instr_Sub,
    Instr_Mul, Instr_Rand, Instr_Dec, Instr_Drop, Instr_Over, Instr_Mod, Instr_Jump, Instr_And,
    Instr_Or, Instr_Xor, Instr_SHL, Instr_SHR, Instr_SQRT, Instr_Rot, Instr_Pick,
    Nat.reduceEqDiff, OfNat.ofNat_ne_zero, OfNat.zero_ne_ofNat, reduceIte, if_true, if_false,
    Asmexp.sr_Break, Asmexp.sr_Nop, Asmexp.sr_Halt, Asmexp.sr_Push, Asmexp.sr_Print,
    Asmexp.sr_Jne, Asmexp.sr_Swap, Asmexp.sr_Dup, Asmexp.sr_Je, Asmexp.sr_Inc,
    Asmexp.sr_Add, Asmexp.sr_Sub, Asmexp.sr_Mul, Asmexp.sr_Rand, Asmexp.sr_Dec,
    Asmexp.sr_Drop, Asmexp.sr_Over, Asmexp.sr_Mod, Asmexp.sr_Jump,
    Asmexp.sr_And, Asmexp.sr_Or, Asmexp.sr_Xor, Asmexp.sr_SHL, Asmexp.sr_SHR,
    Asmexp.sr_SQRT, Asmexp.sr_Rot, Asmexp.sr_Pick,
    Asmexp.srv_Break, Asmexp.srv_Nop, Asmexp.srv_Halt, Asmexp.srv_Push, Asmexp.srv_Print,
    Asmexp.srv_Swap, Asmexp.srv_Dup, Asmexp.srv_Je, Asmexp.srv_Inc, Asmexp.srv_Sub,
    Asmexp.srv_Drop, Asmexp.srv_Over, Asmexp.srv_Mod, Asmexp.srv_Jump]
  all_goals first
    | exact ⟨_, rfl, Or.inl rfl⟩
    | (split_ifs <;> first
        | exact ⟨_, rfl, Or.inl rfl⟩
        | exact ⟨_, rfl, Or.inr ⟨rfl, rfl⟩⟩
        | (refine ⟨_, rfl, Or.inl ?_⟩
           rw [pop_fail c hc (by assumption)]
           done)
        | (exfalso
           have e := pop_fail c hc (by assumption)
           have : (pop (pop c).2).2.state ≠ Cpu_Running := by rw [e]; assumption
           contradiction)
        | exact ⟨_, rfl, Or.inr ⟨rfl, by simp_all⟩⟩)

@[simp] theorem push_steps (P : Params) (c : cpu_t) (v : Nat) : (push P c v).steps = c.steps := by
  unfold push; split_ifs <;> rfl

@[simp] theorem pop_steps (c : cpu_t) : (pop c).2.steps = c.steps := by
  unfold pop; split_ifs <;> rfl

@[simp] theorem pick_steps (P : Params) (c : cpu_t) (pos : Int) :
    (pick P c pos).2.steps = c.steps := by
  unfold pick; split_ifs <;> rfl

@[simp] theorem jump_steps (c : cpu_t) (d : decode_t) : (jump c d).steps = c.steps := rfl

theorem execute_eq_none (P : Params) (c : cpu_t) (d : decode_t) (h : 26 < d.opcode) :
    Switched.execute P c d = none := by
  unfold Switched.execute
  simp only [Instr_Break, Instr_Nop, Instr_Halt, Instr_Push,
    Instr_Print, Instr_JNE, Instr_Swap, Instr_Dup, Instr_JE, Instr_Inc, Instr_Add, Instr_Sub,
    Instr_Mul, Instr_Rand, Instr_Dec, Instr_Drop, Instr_Over, Instr_Mod, Instr_Jump, Instr_And,
    Instr_Or, Instr_Xor, Instr_SHL, Instr_SHR, Instr_SQRT, Instr_Rot, Instr_Pick]
  iterate 27 rw [if_neg (by omega)]

theorem execute_steps (P : Params) (c c1 : cpu_t) (d : decode_t)
    (h : Switched.execute P c d = some c1) : c1.steps = c.steps := by
  by_cases h26 : d.opcode ≤ 26
  · obtain ⟨op, len, imm⟩ := d
    simp only at h26
    interval_cases op
    all_goals simp only [Switched.execute, Instr_Break, Instr_Nop, Instr_Halt, Instr_Push,
      Instr_Print, Instr_JNE, Instr_Swap, Instr_Dup, Instr_JE, Instr_Inc, Instr_Add, Instr_Sub,
      Instr_Mul, Instr_Rand, Instr_Dec, Instr_Drop, Instr_Over, Instr_Mod, Instr_Jump, Instr_And,
      Instr_Or, Instr_Xor, Instr_SHL, Instr_SHR, Instr_SQRT, Instr_Rot, Instr_Pick,
      Nat.reduceEqDiff, OfNat.ofNat_ne_zero, OfNat.zero_ne_ofNat, reduceIte, if_true, if_false] at h
    all_goals first
      | (injection h with h; subst h; simp)
      | (split_ifs at h <;> injection h with h <;> subst h <;> simp)
  · rw [execute_eq_none P c d (by omega)] at h
    cases h

theorem fetch_checked_cases (P : Params) (c : cpu_t) :
    (c.pc < P.PROGRAM_SIZE ∧ fetch_checked P c = (c.pmem c.pc, c)) ∨
    (¬ c.pc < P.PROGRAM_SIZE ∧ fetch_checked P c = (Instr_Break, { c with state := Cpu_Break })) := by
  unfold fetch_checked
  split_ifs with h
  · exact Or.inl ⟨h, rfl⟩
  · exact Or.inr ⟨h, rfl⟩

/-- What one pass of the loop body does from a running record. -/
theorem body_cases (P : Params) (c : cpu_t) (hc : c.state = Cpu_Running) :
    (¬ c.pc < P.PROGRAM_SIZE ∧ Switched.body P c = some ({ c with state := Cpu_Break }, false)) ∨
    (c.pc < P.PROGRAM_SIZE ∧ ∃ c1, Switched.execute P c (decode P (c.pmem c.pc) c) = some c1 ∧
      Switched.body P c = some (advance c1 (decode P (c.pmem c.pc) c), true)) := by
  rcases fetch_checked_cases P c with ⟨h, e⟩ | ⟨h, e⟩
  · right
    obtain ⟨c1, h1⟩ := execute_isSome P c (decode P (c.pmem c.pc) c) (decode_opcode_le _ _ _)
    refine ⟨h, c1, h1, ?_⟩
    simp [Switched.body, e, hc, h1]
  · left
    refine ⟨h, ?_⟩
    simp [Switched.body, e]

theorem loop_stop (P : Params) (L fuel : Nat) (c : cpu_t)
    (h : ¬ (c.state = Cpu_Running ∧ c.steps < L)) : Switched.loop P L fuel c = some c := by
  cases fuel <;> simp [Switched.loop, h]

theorem loop_spec (P : Params) (L : Nat) (hL : L < 2 ^ 64) (fuel : Nat) (c : cpu_t)
    (hs : c.steps ≤ L) (hf : L - c.steps ≤ fuel) :
    ∃ a, Switched.loop P L fuel c = some a ∧ a.steps ≤ L ∧ (a.state = Cpu_Running → a.steps = L) := by
  induction fuel generalizing c with
  | zero =>
    have : c.steps = L := by omega
    refine ⟨c, loop_stop P L 0 c (by omega), hs, fun _ => this⟩
  | succ n ih =>
    by_cases hcond : c.state = Cpu_Running ∧ c.steps < L
    · rcases body_cases P c hcond.1 with ⟨_, hb⟩ | ⟨_, c1, h1, hb⟩
      · refine ⟨{ c with state := Cpu_Break }, ?_, hs, ?_⟩
        · simp [Switched.loop, hcond, hb]
        · intro h; simp at h
      · have hst : (advance c1 (decode P (c.pmem c.pc) c)).steps = c.steps + 1 := by
          have := execute_steps P c c1 _ h1
          simp only [advance, this]
          omega
        obtain ⟨a, ha, ha1, ha2⟩ := ih (advance c1 (decode P (c.pmem c.pc) c)) (by omega) (by omega)
        refine ⟨a, ?_, ha1, ha2⟩
        simp [Switched.loop, hcond, hb, ha]
    · refine ⟨c, loop_stop P L _ c hcond, hs, ?_⟩
      intro h
      have : ¬ c.steps < L := fun h' => hcond ⟨h, h'⟩
      omega

theorem decode_break (P : Params) (c : cpu_t) :
    decode P Instr_Break c = { opcode := Instr_Break, length := 1, immediate := 0 } := by
  simp [decode]

theorem fetch_decode_cases (P : Params) (c : cpu_t) :
    (c.pc < P.PROGRAM_SIZE ∧ fetch_decode P c = (decode P (c.pmem c.pc) c, c)) ∨
    (¬ c.pc < P.PROGRAM_SIZE ∧ fetch_decode P c =
      ({ opcode := Instr_Break, length := 1, immediate := 0 }, { c with state := Cpu_Break })) := by
  rcases fetch_checked_cases P c with ⟨h, e⟩ | ⟨h, e⟩
  · exact Or.inl ⟨h, by simp [fetch_decode, e]⟩
  · refine Or.inr ⟨h, ?_⟩
    simp only [fetch_decode, e, decode_break]

/-- Simulation of the loop by the chain of service routines, from a record on
which the loop condition holds. -/
theorem loop_dispatch (P : Params) (L : Nat) (hL : L < 2 ^ 64) (f1 f2 : Nat) (c : cpu_t)
    (hc : c.state = Cpu_Running) (hs : c.steps < L) (h1 : L - c.steps ≤ f1)
    (h2 : L - c.steps ≤ f2) :
    ∃ a b, Switched.loop P L f1 c = some a ∧
      Asmexp.DISPATCH P L f2 (fetch_decode P c).2 (fetch_decode P c).1 = some b ∧
      a.state = b.state ∧ a.sp = b.sp ∧ a.stack = b.stack ∧ a.out = b.out ∧
      a.nrand = b.nrand ∧ a.pmem = b.pmem ∧ a.oob = b.oob ∧ (a.state ≠ Cpu_Break → a = b) := by
  induction f1 generalizing f2 c with
  | zero => omega
  | succ n ih =>
    cases f2 with
    | zero => omega
    | succ m =>
      rcases body_cases P c hc with ⟨hpc, hb⟩ | ⟨hpc, c1, he, hb⟩
      · rcases fetch_decode_cases P c with ⟨hpc', _⟩ | ⟨_, hfd⟩
        · exact absurd hpc' hpc
        · refine ⟨{ c with state := Cpu_Break },
            advance { c with state := Cpu_Break } { opcode := Instr_Break, length := 1, immediate := 0 },
            ?_, ?_, ?_⟩
          · simp [Switched.loop, hc, hs, hb]
          · rw [hfd]
            simp only [Asmexp.DISPATCH, Asmexp.service_routines, Instr_Break,
              List.getElem?_cons_zero, Asmexp.srv_Break]
          · simp [advance]
      · rcases fetch_decode_cases P c with ⟨_, hfd⟩ | ⟨hpc', _⟩
        swap
        · exact absurd hpc hpc'
        have hle := decode_opcode_le P (c.pmem c.pc) c
        obtain ⟨sr, hsr⟩ := sr_lookup _ hle
        obtain ⟨c1', he', hcase⟩ := sr_execute P L c _ hle hc sr hsr
        rw [he] at he'
        injection he' with he'
        subst he'
        have hst : (advance c1 (decode P (c.pmem c.pc) c)).steps = c.steps + 1 := by
          have := execute_steps P c c1 _ he
          simp only [advance, this]
          omega
        have hloop : Switched.loop P L (n + 1) c =
            Switched.loop P L n (advance c1 (decode P (c.pmem c.pc) c)) := by
          simp [Switched.loop, hc, hs, hb]
        rw [hloop, hfd]
        rcases hcase with hadv | ⟨hbail, hbrk⟩
        · by_cases hstop : (advance c1 (decode P (c.pmem c.pc) c)).state ≠ Cpu_Running ∨
              (advance c1 (decode P (c.pmem c.pc) c)).steps ≥ L
          · refine ⟨advance c1 (decode P (c.pmem c.pc) c), advance c1 (decode P (c.pmem c.pc) c),
              ?_, ?_, rfl, rfl, rfl, rfl, rfl, rfl, rfl, fun _ => rfl⟩
            · apply loop_stop
              rintro ⟨g1, g2⟩
              rcases hstop with g | g
              · exact g g1
              · omega
            · simp only [Asmexp.DISPATCH, hsr, hadv, Asmexp.ADVANCE_PC, if_pos hstop]
          · have hstop' := hstop
            rw [not_or, not_not] at hstop'
            obtain ⟨a, b, ha, hb', hr⟩ := ih m (advance c1 (decode P (c.pmem c.pc) c))
              hstop'.1 (by omega) (by omega) (by omega)
            refine ⟨a, b, ha, ?_, hr⟩
            simp only [Asmexp.DISPATCH, hsr, hadv, Asmexp.ADVANCE_PC, if_neg hstop]
            exact hb'
        · refine ⟨advance c1 (decode P (c.pmem c.pc) c), c1, ?_, ?_, ?_⟩
          · apply loop_stop
            rintro ⟨g1, _⟩
            simp [advance, hbrk] at g1
          · simp only [Asmexp.DISPATCH, hsr, hbail]
          · simp [advance, hbrk]

/-- The run of `asmexp.c` is the chain of calls started after `fetch_decode` on
the initial record. -/
theorem asmexp_main_eq (P : Params) (L : Nat) (pmem stack0 : Nat → Nat) :
    Asmexp.main P L pmem stack0 =
      Asmexp.DISPATCH P L (L + 1) (fetch_decode P (init_cpu pmem stack0)).2
        (fetch_decode P (init_cpu pmem stack0)).1 := by
  rfl

theorem main_of_loop (P : Params) (L : Nat) (c a : cpu_t)
    (h : Switched.loop P L L c = some a) (hfin : a.state ≠ Cpu_Running ∨ a.steps = L) :
    Switched.main P L c = some a := by
  unfold Switched.main
  rw [h]
  simp only [hfin, if_true]

/-- The two runs from the initial record: same state, stack, output and random
draws; the same record when the run of the loop does not end in `Break`. -/
theorem main_agree (P : Params) (N : Nat) (h1 : 1 ≤ N) (hN : N < 2 ^ 64)
    (pmem stack0 : Nat → Nat) :
    ∃ a b, Switched.main P N (init_cpu pmem stack0) = some a ∧
      Asmexp.main P N pmem stack0 = some b ∧
      a.state = b.state ∧ a.sp = b.sp ∧ a.stack = b.stack ∧ a.out = b.out ∧
      a.nrand = b.nrand ∧ a.oob = b.oob ∧ (a.state ≠ Cpu_Break → a = b) := by
  obtain ⟨a, b, ha, hb, hst, hsp, hstack, hout, hnr, _, hoob, heq⟩ :=
    loop_dispatch P N hN N (N + 1) (init_cpu pmem stack0) rfl h1 (by simp [init_cpu])
      (by simp [init_cpu])
  obtain ⟨a', ha', _, hfin⟩ := loop_spec P N hN N (init_cpu pmem stack0) (Nat.zero_le _)
    (by simp [init_cpu])
  rw [ha] at ha'
  injection ha' with ha'
  subst ha'
  refine ⟨a, b, main_of_loop P N _ a ha ?_, (asmexp_main_eq P N pmem stack0).trans hb,
    hst, hsp, hstack, hout, hnr, hoob, heq⟩
  by_cases hr : a.state = Cpu_Running
  · exact Or.inr (hfin hr)
  · exact Or.inl hr

/-! ## C1: the two dispatch strategies compared -/

/-- C1, as stated, fails: on the one-cell program `Add` with budget 1 both
runs end in `Break` on the empty stack, but the loop of `switched.c` has
advanced `pc` and `steps` to 1, while `sr_Add`, the routine that the table of
`asmexp.c` holds for `Add`, has returned from `BAIL_ON_ERROR()` with `pc = 0`
and `steps = 0`.  Neither run reads outside the stack array. -/
theorem C1_counterexample :
    (Switched.main P0 1 (init_cpu (program [Instr_Add]) (fun _ => 0))).map
        (fun c => (c.state, c.pc, c.steps, c.oob)) = some (Cpu_Break, 1, 1, false) ∧
    (Asmexp.main P0 1 (program [Instr_Add]) (fun _ => 0)).map
        (fun c => (c.state, c.pc, c.steps, c.oob)) = some (Cpu_Break, 0, 0, false) ∧
    Asmexp.service_routines[Instr_Add]? = some Asmexp.sr_Add ∧
    (fun r : cpu_t × Bool => (r.1.state, r.1.pc, r.1.steps, r.2))
      (Asmexp.sr_Add P0 1 (init_cpu (program [Instr_Add]) (fun _ => 0))
        { opcode := Instr_Add, length := 1, immediate := 0 }) = (Cpu_Break, 0, 0, false) := by
  refine ⟨?_, ?_, ?_, ?_⟩ <;> rfl

/-- C1, amended: for every program, every initial content of the stack array
and every step budget `N` with `1 ≤ N < 2 ^ 64`, the run of the central loop of
`switched.c` has a final record.  If that run has read no cell outside the
stack array, the run of `asmexp.c` (its driver and its fourteen assembly
routines as modelled from the spec, its thirteen C routines from the source)
has a final record too, has read no cell outside the stack array either, and
the two records have the same state, `sp`, stack array, printed words and
number of `rand()` calls; when the final state is not `Break` they are the same
record, `pc` and `steps` included. -/
theorem C1_strategies_agree (P : Params) (N : Nat) (h1 : 1 ≤ N) (hN : N < 2 ^ 64)
    (pmem stack0 : Nat → Nat) :
    ∃ a, Switched.main P N (init_cpu pmem stack0) = some a ∧
      (a.oob = false →
        ∃ b, Asmexp.main P N pmem stack0 = some b ∧ b.oob = false ∧
          a.state = b.state ∧ a.sp = b.sp ∧ a.stack = b.stack ∧
          live_stack a = live_stack b ∧ a.out = b.out ∧ a.nrand = b.nrand ∧
          (a.state ≠ Cpu_Break → a.pc = b.pc ∧ a.steps = b.steps ∧ a = b)) := by
  obtain ⟨a, b, ha, hb, hst, hsp, hstack, hout, hnr, hoob, heq⟩ :=
    main_agree P N h1 hN pmem stack0
  refine ⟨a, ha, fun h0 => ⟨b, hb, ?_, hst, hsp, hstack, ?_, hout, hnr, ?_⟩⟩
  · rw [← hoob]
    exact h0
  · simp [live_stack, hsp, hstack]
  · intro h
    have := heq h
    exact ⟨by rw [this], by rw [this], this⟩

/-- Instance of `C1_strategies_agree`: the program `Push 5; Push 3; Sub; Print;
Halt` with budget 10. -/
theorem C1_strategies_agree_witness :
    (1 ≤ 10 ∧ 10 < 2 ^ 64) ∧
    ∃ a, Switched.main P0 10
        (init_cpu (program [Instr_Push, 5, Instr_Push, 3, Instr_Sub, Instr_Print, Instr_Halt])
          (fun _ => 0)) = some a ∧
      (a.oob = false →
        ∃ b, Asmexp.main P0 10
            (program [Instr_Push, 5, Instr_Push, 3, Instr_Sub, Instr_Print, Instr_Halt])
            (fun _ => 0) = some b ∧ b.oob = false ∧
          a.state = b.state ∧ a.sp = b.sp ∧ a.stack = b.stack ∧
          live_stack a = live_stack b ∧ a.out = b.out ∧ a.nrand = b.nrand ∧
          (a.state ≠ Cpu_Break → a.pc = b.pc ∧ a.steps = b.steps ∧ a = b)) :=
  ⟨by decide, C1_strategies_agree P0 10 (by decide) (by decide) _ _⟩

/-! ## C2: the step budget in the central loop -/

theorem loop_self_jump (P : Params) (L : Nat) (hL : L < 2 ^ 64) (hP : 2 ≤ P.PROGRAM_SIZE)
    (fuel : Nat) (c : cpu_t) (hc : c.state = Cpu_Running) (hpc : c.pc = 0)
    (h0 : c.pmem 0 = Instr_Jump) (h1 : c.pmem 1 = encode_imm (-2))
    (hs : c.steps ≤ L) (hf : L - c.steps ≤ fuel) :
    ∃ a, Switched.loop P L fuel c = some a ∧ a.state = Cpu_Running ∧ a.steps = L := by
  induction fuel generalizing c with
  | zero =>
    exact ⟨c, loop_stop P L 0 c (by omega), hc, by omega⟩
  | succ n ih =>
    by_cases hlt : c.steps < L
    · have hd : decode P (c.pmem c.pc) c =
          { opcode := Instr_Jump, length := 2, immediate := -2 } := by
        have : (1 : Nat) < P.PROGRAM_SIZE := by omega
        rw [hpc, h0]
        simp [decode, hpc, h1, this]
        decide
      have hb : Switched.body P c = some (advance (jump c (decode P (c.pmem c.pc) c))
          (decode P (c.pmem c.pc) c), true) := by
        rcases body_cases P c hc with ⟨hn, _⟩ | ⟨_, c1, he, hb⟩
        · exact absurd (by omega) hn
        · rw [hb]
          rw [hd] at he ⊢
          simp [Switched.execute] at he
          rw [← he]
      rw [hd] at hb
      obtain ⟨a, ha, hr⟩ := ih (advance (jump c { opcode := Instr_Jump, length := 2, immediate := -2 })
          { opcode := Instr_Jump, length := 2, immediate := -2 }) hc
        (by simp [advance, jump, hpc]; decide) h0 h1
        (by simp only [advance, jump]; omega) (by simp only [advance, jump]; omega)
      refine ⟨a, ?_, hr⟩
      simp [Switched.loop, hc, hlt, hb, ha]
    · exact ⟨c, loop_stop P L _ c (fun h => hlt h.2), hc, by omega⟩

/-- C2: for every program and every step budget `N` (a `uint64_t`), the run of
`switched.c` from the initial record passes the assertion after the loop and
ends with `steps ≤ N`, and with `steps = N` when the final state is `Running`.
When the first two cells of a program memory of at least two cells are a `Jump`
with immediate `-2` (net displacement zero), the run ends with
`state = Running` and `steps = N`. -/
theorem C2_switched_budget (P : Params) (N : Nat) (hN : N < 2 ^ 64)
    (pmem stack0 : Nat → Nat) :
    (∃ c, Switched.main P N (init_cpu pmem stack0) = some c ∧ c.steps ≤ N ∧
      (c.state = Cpu_Running → c.steps = N)) ∧
    (2 ≤ P.PROGRAM_SIZE → pmem 0 = Instr_Jump → pmem 1 = encode_imm (-2) →
      ∃ c, Switched.main P N (init_cpu pmem stack0) = some c ∧ c.state = Cpu_Running ∧
        c.steps = N) := by
  constructor
  · obtain ⟨a, ha, hle, hfin⟩ := loop_spec P N hN N (init_cpu pmem stack0) (Nat.zero_le _)
      (by simp [init_cpu])
    refine ⟨a, ?_, hle, hfin⟩
    unfold Switched.main
    rw [ha]
    by_cases hr : a.state = Cpu_Running
    · simp [hfin hr]
    · simp [hr]
  · intro hP h0 h1
    obtain ⟨a, ha, hr, hs⟩ := loop_self_jump P N hN hP N (init_cpu pmem stack0) rfl rfl h0 h1
      (Nat.zero_le _) (by simp [init_cpu])
    refine ⟨a, ?_, hr, hs⟩
    unfold Switched.main
    rw [ha]
    simp [hs]

/-- Instance of `C2_switched_budget`: the self-loop `Jump -2` with budget 7. -/
theorem C2_switched_budget_witness :
    7 < 2 ^ 64 ∧
    ∃ c, Switched.main P0 7 (init_cpu (program [Instr_Jump, encode_imm (-2)]) (fun _ => 0))
        = some c ∧ c.state = Cpu_Running ∧ c.steps = 7 :=
  ⟨by decide,
    (C2_switched_budget P0 7 (by decide) (program [Instr_Jump, encode_imm (-2)]) (fun _ => 0)).2
      (by decide) (by decide) (by decide)⟩

/-! ## C3: the step budget in the chain of service routines -/

/-- The chain of service routines, started on a record on which the loop
condition holds, returns with `steps` within the budget. -/
theorem dispatch_spec (P : Params) (L : Nat) (hL : L < 2 ^ 64) (fuel : Nat) (c : cpu_t)
    (hc : c.state = Cpu_Running) (hs : c.steps < L) (hf : L - c.steps ≤ fuel) :
    ∃ b, Asmexp.DISPATCH P L fuel (fetch_decode P c).2 (fetch_decode P c).1 = some b ∧
      b.steps ≤ L := by
  induction fuel generalizing c with
  | zero => omega
  | succ m ih =>
    rcases fetch_decode_cases P c with ⟨_, hfd⟩ | ⟨_, hfd⟩
    · have hle := decode_opcode_le P (c.pmem c.pc) c
      obtain ⟨sr, hsr⟩ := sr_lookup _ hle
      obtain ⟨c1, he, hcase⟩ := sr_execute P L c _ hle hc sr hsr
      have hst : (advance c1 (decode P (c.pmem c.pc) c)).steps = c.steps + 1 := by
        have := execute_steps P c c1 _ he
        simp only [advance, this]
        omega
      rw [hfd]
      rcases hcase with hadv | ⟨hbail, _⟩
      · by_cases hstop : (advance c1 (decode P (c.pmem c.pc) c)).state ≠ Cpu_Running ∨
            (advance c1 (decode P (c.pmem c.pc) c)).steps ≥ L
        · refine ⟨advance c1 (decode P (c.pmem c.pc) c), ?_, by omega⟩
          simp only [Asmexp.DISPATCH, hsr, hadv, Asmexp.ADVANCE_PC, if_pos hstop]
        · have hstop' := hstop
          rw [not_or, not_not] at hstop'
          obtain ⟨b, hb, hb'⟩ := ih (advance c1 (decode P (c.pmem c.pc) c)) hstop'.1
            (by omega) (by omega)
          refine ⟨b, ?_, hb'⟩
          simp only [Asmexp.DISPATCH, hsr, hadv, Asmexp.ADVANCE_PC, if_neg hstop]
          exact hb
      · refine ⟨c1, ?_, ?_⟩
        · simp only [Asmexp.DISPATCH, hsr, hbail]
        · rw [execute_steps P c c1 _ he]
          omega
    · refine ⟨advance { c with state := Cpu_Break }
          { opcode := Instr_Break, length := 1, immediate := 0 }, ?_, ?_⟩
      · rw [hfd]
        simp only [Asmexp.DISPATCH, Asmexp.service_routines, Instr_Break,
          List.getElem?_cons_zero, Asmexp.srv_Break]
      · simp only [advance]
        omega

/-- From the initial record and with a budget of at least one step, the run of
the chain of service routines completes with `steps` within the budget. -/
theorem asmexp_budget (P : Params) (N : Nat) (h1 : 1 ≤ N) (hN : N < 2 ^ 64)
    (pmem stack0 : Nat → Nat) :
    ∃ b, Asmexp.main P N pmem stack0 = some b ∧ b.steps ≤ N := by
  rw [asmexp_main_eq]
  exact dispatch_spec P N hN (N + 1) (init_cpu pmem stack0) rfl h1 (by simp [init_cpu])

theorem wrap32_toInt32 (w : Nat) : wrap32 (toInt32 w) = w % 2 ^ 32 := by
  unfold wrap32 toInt32
  split_ifs <;> omega

theorem toInt32_wrap32 (v : Int) (h1 : -2 ^ 31 ≤ v) (h2 : v < 2 ^ 31) : toInt32 (wrap32 v) = v := by
  unfold wrap32 toInt32
  split_ifs <;> omega

theorem wrap32_lt (z : Int) : wrap32 z < 2 ^ 32 := by
  unfold wrap32
  omega

theorem wrap32_mod (z : Int) : wrap32 z % 2 ^ 32 = wrap32 z :=
  Nat.mod_eq_of_lt (wrap32_lt z)

theorem body_eq (P : Params) (c : cpu_t) (hc : c.state = Cpu_Running) (hpc : c.pc < P.PROGRAM_SIZE) :
    Switched.body P c =
      (Switched.execute P c (decode P (c.pmem c.pc) c)).map
        (fun c1 => (advance c1 (decode P (c.pmem c.pc) c), true)) := by
  rcases body_cases P c hc with ⟨hn, _⟩ | ⟨_, c1, he, hb⟩
  · exact absurd hpc hn
  · rw [hb, he]; rfl

theorem loop_succ (P : Params) (L f : Nat) (c c' : cpu_t) (hc : c.state = Cpu_Running)
    (hs : c.steps < L) (hb : Switched.body P c = some (c', true)) :
    Switched.loop P L (f + 1) c = Switched.loop P L f c' := by
  simp [Switched.loop, hc, hs, hb]

theorem push_ok (P : Params) (c : cpu_t) (v : Nat) (h : c.sp < (P.STACK_CAPACITY : Int) - 1) :
    push P c v =
      { c with sp := c.sp + 1, stack := Function.update c.stack (c.sp + 1).toNat v } := by
  unfold push
  rw [if_neg (by omega)]

theorem asmexp_of_switched (P : Params) (N : Nat) (h1 : 1 ≤ N) (hN : N < 2 ^ 64)
    (pmem stack0 : Nat → Nat) (a : cpu_t)
    (ha : Switched.main P N (init_cpu pmem stack0) = some a) (hb : a.state ≠ Cpu_Break) :
    Asmexp.main P N pmem stack0 = some a := by
  obtain ⟨a', b, ha', hb', _, _, _, _, _, _, heq⟩ := main_agree P N h1 hN pmem stack0
  rw [ha] at ha'
  injection ha' with ha'
  subst ha'
  rw [hb', heq hb]

/-- The run of `Push v; Halt` in the central loop. -/
theorem switched_push_halt (P : Params) (N : Nat) (hN : 2 ≤ N) (v : Int)
    (hv1 : -2 ^ 31 ≤ v) (hv2 : v < 2 ^ 31)
    (hP : 3 ≤ P.PROGRAM_SIZE) (hS : 1 ≤ P.STACK_CAPACITY) (stack0 : Nat → Nat) :
    Switched.main P N (init_cpu (program [Instr_Push, encode_imm v, Instr_Halt]) stack0) =
      some { pc := 3, sp := 0, state := Cpu_Halted, steps := 2,
             stack := Function.update stack0 0 (wrap32 v),
             pmem := program [Instr_Push, encode_imm v, Instr_Halt], out := [], nrand := 0, oob := false } := by
  obtain ⟨n, rfl⟩ : ∃ n, N = n + 2 := ⟨N - 2, by omega⟩
  have hp1 : 1 < P.PROGRAM_SIZE := by omega
  have hp2 : 2 < P.PROGRAM_SIZE := by omega
  have b1 : Switched.body P (init_cpu (program [Instr_Push, encode_imm v, Instr_Halt]) stack0) =
      some ({ pc := 2, sp := 0, state := Cpu_Running, steps := 1,
              stack := Function.update stack0 0 (wrap32 v),
              pmem := program [Instr_Push, encode_imm v, Instr_Halt], out := [], nrand := 0, oob := false }, true) := by
    rw [body_eq P _ rfl (by simp [init_cpu]; omega)]
    have hd : decode P ((init_cpu (program [Instr_Push, encode_imm v, Instr_Halt]) stack0).pmem
        (init_cpu (program [Instr_Push, encode_imm v, Instr_Halt]) stack0).pc)
        (init_cpu (program [Instr_Push, encode_imm v, Instr_Halt]) stack0) =
        { opcode := Instr_Push, length := 2, immediate := v } := by
      simp [decode, init_cpu, program, hp1, encode_imm, toInt32_wrap32 v hv1 hv2]
    rw [hd]
    simp only [Switched.execute, Instr_Nop, Instr_Halt, Instr_Push, Nat.reduceEqDiff, reduceIte,
      Option.map_some']
    rw [push_ok P _ _ (by simp [init_cpu]; omega)]
    simp [advance, init_cpu, wrap32]
  have b2 : Switched.body P
        { pc := 2, sp := 0, state := Cpu_Running, steps := 1,
          stack := Function.update stack0 0 (wrap32 v),
          pmem := program [Instr_Push, encode_imm v, Instr_Halt], out := [], nrand := 0, oob := false } =
      some ({ pc := 3, sp := 0, state := Cpu_Halted, steps := 2,
              stack := Function.update stack0 0 (wrap32 v),
              pmem := program [Instr_Push, encode_imm v, Instr_Halt], out := [], nrand := 0, oob := false }, true) := by
    rw [body_eq P _ rfl hp2]
    simp [decode, program, Switched.execute, advance, wrap32]
  apply main_of_loop
  · rw [loop_succ P _ _ _ _ rfl (by simp [init_cpu]) b1,
      loop_succ P _ _ _ _ rfl (by simp) b2, loop_stop P _ _ _ (by simp)]
  · exact Or.inl (by simp)

/-! ## C4: `Push v; Halt` -/

/-- C4: for every signed 32-bit `v` and every step budget `N ≥ 2` (a
`uint64_t`), with a program memory of at least three cells and a stack of at
least one cell, the run of `Push v; Halt` from the initial record ends, in the
central loop of `switched.c` and in the chain of service routines of `asmexp.c`
alike, with `state = Halted`, `steps = 2` and a live stack that is exactly the
word of `v`; that word read back as a signed immediate is `v`.  The chain runs
the driver `asm_main` and the routines `srv_Push` and `srv_Halt`, all three as
modelled from the spec. -/
theorem C4_push_halt (P : Params) (N : Nat) (hN : 2 ≤ N) (hN64 : N < 2 ^ 64) (v : Int)
    (hv1 : -2 ^ 31 ≤ v) (hv2 : v < 2 ^ 31)
    (hP : 3 ≤ P.PROGRAM_SIZE) (hS : 1 ≤ P.STACK_CAPACITY) (stack0 : Nat → Nat) :
    (∃ a, Switched.main P N (init_cpu (program [Instr_Push, encode_imm v, Instr_Halt]) stack0)
        = some a ∧ a.state = Cpu_Halted ∧ a.steps = 2 ∧ live_stack a = [wrap32 v]) ∧
    (∃ b, Asmexp.main P N (program [Instr_Push, encode_imm v, Instr_Halt]) stack0
        = some b ∧ b.state = Cpu_Halted ∧ b.steps = 2 ∧ live_stack b = [wrap32 v]) ∧
    toInt32 (wrap32 v) = v := by
  have h := switched_push_halt P N hN v hv1 hv2 hP hS stack0
  have h' := asmexp_of_switched P N (by omega) hN64 _ _ _ h (by simp)
  exact ⟨⟨_, h, rfl, rfl, by simp [live_stack, List.range_succ]⟩,
    ⟨_, h', rfl, rfl, by simp [live_stack, List.range_succ]⟩, toInt32_wrap32 v hv1 hv2⟩

/-- Instance of `C4_push_halt`: `v = -7`, budget 2, the sizes of `P0`. -/
theorem C4_push_halt_witness :
    (∃ a, Switched.main P0 2 (init_cpu (program [Instr_Push, encode_imm (-7), Instr_Halt])
        (fun _ => 0)) = some a ∧ a.state = Cpu_Halted ∧ a.steps = 2 ∧
        live_stack a = [wrap32 (-7)]) ∧
    (∃ b, Asmexp.main P0 2 (program [Instr_Push, encode_imm (-7), Instr_Halt])
        (fun _ => 0) = some b ∧ b.state = Cpu_Halted ∧ b.steps = 2 ∧
        live_stack b = [wrap32 (-7)]) ∧
    toInt32 (wrap32 (-7)) = -7 :=
  C4_push_halt P0 2 (by decide) (by decide) (-7) (by decide) (by decide) (by decide) (by decide)
    (fun _ => 0)

theorem push_eq (P : Params) (c : cpu_t) (v : Nat) (sp' : Int) (hsp : sp' = c.sp + 1)
    (h : sp' < (P.STACK_CAPACITY : Int)) :
    push P c v = { c with sp := sp', stack := Function.update c.stack sp'.toNat v } := by
  subst hsp
  exact push_ok P c v (by omega)

/-- The run of `Push 5; Push 3; Sub; Print; Halt` in the central loop. -/
theorem switched_sub_print (P : Params) (N : Nat) (hN : 5 ≤ N)
    (hP : 7 ≤ P.PROGRAM_SIZE) (hS : 2 ≤ P.STACK_CAPACITY) (stack0 : Nat → Nat) :
    Switched.main P N
        (init_cpu (program [Instr_Push, 5, Instr_Push, 3, Instr_Sub, Instr_Print, Instr_Halt])
          stack0) =
      some { pc := 7, sp := -1, state := Cpu_Halted, steps := 5,
             stack := Function.update (Function.update (Function.update stack0 0 5) 1 3) 0
               4294967294,
             pmem := program [Instr_Push, 5, Instr_Push, 3, Instr_Sub, Instr_Print, Instr_Halt],
             out := [4294967294], nrand := 0, oob := false } := by
  obtain ⟨n, rfl⟩ : ∃ n, N = n + 5 := ⟨N - 5, by omega⟩
  have hp1 : 1 < P.PROGRAM_SIZE := by omega
  have hp2 : 2 < P.PROGRAM_SIZE := by omega
  have hp3 : 3 < P.PROGRAM_SIZE := by omega
  have hp4 : 4 < P.PROGRAM_SIZE := by omega
  have hp5 : 5 < P.PROGRAM_SIZE := by omega
  have hp6 : 6 < P.PROGRAM_SIZE := by omega
  have hs0 : (0 : Int) < (P.STACK_CAPACITY : Int) := by omega
  have hs1 : (1 : Int) < (P.STACK_CAPACITY : Int) := by omega
  have b1 : Switched.body P
      (init_cpu (program [Instr_Push, 5, Instr_Push, 3, Instr_Sub, Instr_Print, Instr_Halt])
        stack0) =
      some ({ pc := 2, sp := 0, state := Cpu_Running, steps := 1,
              stack := Function.update stack0 0 5,
              pmem := program [Instr_Push, 5, Instr_Push, 3, Instr_Sub, Instr_Print, Instr_Halt],
              out := [], nrand := 0, oob := false }, true) := by
    rw [body_eq P _ rfl (by simp [init_cpu]; omega)]
    simp [decode, program, Switched.execute, init_cpu, hp1, toInt32]
    rw [push_eq P _ _ 0 (by simp) hs0]
    simp [advance, wrap32]
  have b2 : Switched.body P
      { pc := 2, sp := 0, state := Cpu_Running, steps := 1,
        stack := Function.update stack0 0 5,
        pmem := program [Instr_Push, 5, Instr_Push, 3, Instr_Sub, Instr_Print, Instr_Halt],
        out := [], nrand := 0, oob := false } =
      some ({ pc := 4, sp := 1, state := Cpu_Running, steps := 2,
              stack := Function.update (Function.update stack0 0 5) 1 3,
              pmem := program [Instr_Push, 5, Instr_Push, 3, Instr_Sub, Instr_Print, Instr_Halt],
              out := [], nrand := 0, oob := false }, true) := by
    rw [body_eq P _ rfl hp2]
    simp [decode, program, Switched.execute, hp3, toInt32]
    rw [push_eq P _ _ 1 (by simp) hs1]
    simp [advance, wrap32]
  have b3 : Switched.body P
      { pc := 4, sp := 1, state := Cpu_Running, steps := 2,
        stack := Function.update (Function.update stack0 0 5) 1 3,
        pmem := program [Instr_Push, 5, Instr_Push, 3, Instr_Sub, Instr_Print, Instr_Halt],
        out := [], nrand := 0, oob := false } =
      some ({ pc := 5, sp := 0, state := Cpu_Running, steps := 3,
              stack := Function.update (Function.update (Function.update stack0 0 5) 1 3) 0 4294967294,
              pmem := program [Instr_Push, 5, Instr_Push, 3, Instr_Sub, Instr_Print, Instr_Halt],
              out := [], nrand := 0, oob := false }, true) := by
    rw [body_eq P _ rfl hp4]
    simp [decode, program, Switched.execute, pop]
    rw [push_eq P _ _ 0 (by simp) hs0]
    simp [advance, wrap32]
  have b4 : Switched.body P
      { pc := 5, sp := 0, state := Cpu_Running, steps := 3,
        stack := Function.update (Function.update (Function.update stack0 0 5) 1 3) 0 4294967294,
        pmem := program [Instr_Push, 5, Instr_Push, 3, Instr_Sub, Instr_Print, Instr_Halt],
        out := [], nrand := 0, oob := false } =
      some ({ pc := 6, sp := -1, state := Cpu_Running, steps := 4,
              stack := Function.update (Function.update (Function.update stack0 0 5) 1 3) 0 4294967294,
              pmem := program [Instr_Push, 5, Instr_Push, 3, Instr_Sub, Instr_Print, Instr_Halt],
              out := [4294967294], nrand := 0, oob := false }, true) := by
    rw [body_eq P _ rfl hp5]
    simp [decode, program, Switched.execute, pop, advance, wrap32]
  have b5 : Switched.body P
      { pc := 6, sp := -1, state := Cpu_Running, steps := 4,
        stack := Function.update (Function.update (Function.update stack0 0 5) 1 3) 0 4294967294,
        pmem := program [Instr_Push, 5, Instr_Push, 3, Instr_Sub, Instr_Print, Instr_Halt],
        out := [4294967294], nrand := 0, oob := false } =
      some ({ pc := 7, sp := -1, state := Cpu_Halted, steps := 5,
              stack := Function.update (Function.update (Function.update stack0 0 5) 1 3) 0 4294967294,
              pmem := program [Instr_Push, 5, Instr_Push, 3, Instr_Sub, Instr_Print, Instr_Halt],
              out := [4294967294], nrand := 0, oob := false }, true) := by
    rw [body_eq P _ rfl hp6]
    simp [decode, program, Switched.execute, advance, wrap32]
  apply main_of_loop
  · rw [loop_succ P _ _ _ _ rfl (by simp [init_cpu]) b1, loop_succ P _ _ _ _ rfl (by simp) b2,
      loop_succ P _ _ _ _ rfl (by simp) b3, loop_succ P _ _ _ _ rfl (by simp) b4,
      loop_succ P _ _ _ _ rfl (by simp) b5, loop_stop P _ _ _ (by simp)]
  · exact Or.inl (by simp)

/-! ## C5: `Push 5; Push 3; Sub; Print; Halt` -/

/-- C5, as stated, fails: with budget 5 the one printed word is `4294967294`,
whose signed decimal form is `-2`, not `2`: `Sub` pops 3 first and 5 second and
pushes `3 - 5`. -/
theorem C5_counterexample :
    (Switched.main P0 5
        (init_cpu (program [Instr_Push, 5, Instr_Push, 3, Instr_Sub, Instr_Print, Instr_Halt])
          (fun _ => 0))).map (fun c => (c.out, c.out.map toInt32)) =
      some ([4294967294], [-2]) ∧
    (Switched.main P0 5
        (init_cpu (program [Instr_Push, 5, Instr_Push, 3, Instr_Sub, Instr_Print, Instr_Halt])
          (fun _ => 0))).map (fun c => c.out.map toInt32) ≠ some [2] := by
  constructor
  · rfl
  · decide

/-- C5, amended: with a program memory of at least seven cells and a stack of
at least two cells, the run of `Push 5; Push 3; Sub; Print; Halt` with any step
budget `N ≥ 5` (a `uint64_t`) prints exactly one word, whose signed decimal
form is `-2`, and ends with `state = Halted`, `steps = 5` and an empty stack,
in the central loop and in the chain of service routines alike (the chain with
its assembly routines as modelled from the spec). -/
theorem C5_sub_print (P : Params) (N : Nat) (hN : 5 ≤ N) (hN64 : N < 2 ^ 64)
    (hP : 7 ≤ P.PROGRAM_SIZE) (hS : 2 ≤ P.STACK_CAPACITY) (stack0 : Nat → Nat) :
    (∃ a, Switched.main P N
        (init_cpu (program [Instr_Push, 5, Instr_Push, 3, Instr_Sub, Instr_Print, Instr_Halt])
          stack0) = some a ∧
      a.out.map toInt32 = [-2] ∧ a.state = Cpu_Halted ∧ a.steps = 5 ∧ a.sp = -1 ∧
      live_stack a = []) ∧
    (∃ b, Asmexp.main P N
        (program [Instr_Push, 5, Instr_Push, 3, Instr_Sub, Instr_Print, Instr_Halt])
          stack0 = some b ∧
      b.out.map toInt32 = [-2] ∧ b.state = Cpu_Halted ∧ b.steps = 5 ∧ b.sp = -1 ∧
      live_stack b = []) := by
  have h := switched_sub_print P N hN hP hS stack0
  have h' := asmexp_of_switched P N (by omega) hN64 _ _ _ h (by simp)
  have hout : List.map toInt32 [4294967294] = [-2] := by decide
  exact ⟨⟨_, h, hout, rfl, rfl, rfl, by simp [live_stack]⟩,
    ⟨_, h', hout, rfl, rfl, rfl, by simp [live_stack]⟩⟩

/-- Instance of `C5_sub_print`: budget 5 and the sizes of `P0`. -/
theorem C5_sub_print_witness :
    (5 ≤ 5 ∧ 5 < 2 ^ 64 ∧ 7 ≤ P0.PROGRAM_SIZE ∧ 2 ≤ P0.STACK_CAPACITY) ∧
    (∃ a, Switched.main P0 5
        (init_cpu (program [Instr_Push, 5, Instr_Push, 3, Instr_Sub, Instr_Print, Instr_Halt])
          (fun _ => 0)) = some a ∧
      a.out.map toInt32 = [-2] ∧ a.state = Cpu_Halted ∧ a.steps = 5 ∧ a.sp = -1 ∧
      live_stack a = []) ∧
    (∃ b, Asmexp.main P0 5
        (program [Instr_Push, 5, Instr_Push, 3, Instr_Sub, Instr_Print, Instr_Halt])
          (fun _ => 0) = some b ∧
      b.out.map toInt32 = [-2] ∧ b.state = Cpu_Halted ∧ b.steps = 5 ∧ b.sp = -1 ∧
      live_stack b = []) :=
  ⟨by decide, C5_sub_print P0 5 (by decide) (by decide) (by decide) (by decide) (fun _ => 0)⟩

theorem pop_ok (c : cpu_t) (h : 0 ≤ c.sp) :
    pop c = (c.stack c.sp.toNat, { c with sp := c.sp - 1 }) := by
  unfold pop
  rw [if_neg (by omega)]

/-- The routine that the table holds for a decoded instruction does what the
`switch` does and then runs `ADVANCE_PC`, when the `switch` leaves the record
out of `Break`. -/
theorem handler_of_execute (P : Params) (L : Nat) (c c' : cpu_t) (d : decode_t)
    (hc : c.state = Cpu_Running) (he : Switched.execute P c d = some c')
    (hb : c'.state ≠ Cpu_Break) :
    ∃ sr, Asmexp.service_routines[d.opcode]? = some sr ∧
      sr P L c d = Asmexp.ADVANCE_PC L c' d := by
  have hle : d.opcode ≤ 26 := by
    by_contra hgt
    rw [execute_eq_none P c d (by omega)] at he
    cases he
  obtain ⟨sr, hsr⟩ := sr_lookup _ hle
  obtain ⟨c1, h1, hcase⟩ := sr_execute P L c d hle hc sr hsr
  rw [he] at h1
  injection h1 with h1
  subst h1
  rcases hcase with h | ⟨_, h⟩
  · exact ⟨sr, hsr, h⟩
  · exact absurd h hb

theorem exec_two_pop (P : Params) (c : cpu_t) (v : Nat) (hrun : c.state = Cpu_Running)
    (hsp : 1 ≤ c.sp) (hcap : c.sp < (P.STACK_CAPACITY : Int)) :
    (pop (pop c).2).2.state = Cpu_Running ∧
    (pop c).1 = c.stack c.sp.toNat ∧ (pop (pop c).2).1 = c.stack (c.sp - 1).toNat ∧
    push P (pop (pop c).2).2 v =
      { c with sp := c.sp - 1, stack := Function.update c.stack (c.sp - 1).toNat v } := by
  have e1 := pop_ok c (by omega)
  have e2 := pop_ok (pop c).2 (by rw [e1]; show 0 ≤ c.sp - 1; omega)
  rw [e2, e1]
  refine ⟨hrun, rfl, rfl, ?_⟩
  rw [push_eq P _ _ (c.sp - 1) (by show c.sp - 1 = c.sp - 1 - 1 + 1; omega) (by omega)]

/-- Value of the `switch` on the eight two-operand instructions. -/
theorem exec_binop (P : Params) (c : cpu_t) (d : decode_t) (a b r : Nat)
    (hrun : c.state = Cpu_Running) (hsp : 1 ≤ c.sp) (hcap : c.sp < (P.STACK_CAPACITY : Int))
    (ha : c.stack c.sp.toNat = a) (hb : c.stack (c.sp - 1).toNat = b)
    (ha32 : a < 2 ^ 32) (hb32 : b < 2 ^ 32)
    (hop : (d.opcode = Instr_Add ∧ r = (a + b) % 2 ^ 32) ∨
      (d.opcode = Instr_Sub ∧ (r : Int) = ((a : Int) - (b : Int)) % 2 ^ 32) ∨
      (d.opcode = Instr_Mul ∧ r = (a * b) % 2 ^ 32) ∨
      (d.opcode = Instr_And ∧ r = (a &&& b) % 2 ^ 32) ∨
      (d.opcode = Instr_Or ∧ r = (a ||| b) % 2 ^ 32) ∨
      (d.opcode = Instr_Xor ∧ r = (a ^^^ b) % 2 ^ 32) ∨
      (d.opcode = Instr_SHL ∧ b < 32 ∧ r = (a * 2 ^ b) % 2 ^ 32) ∨
      (d.opcode = Instr_SHR ∧ b < 32 ∧ r = (a / 2 ^ b) % 2 ^ 32)) :
    Switched.execute P c d = some
      { c with sp := c.sp - 1, stack := Function.update c.stack (c.sp - 1).toNat r } := by
  obtain ⟨h1, h2, h3, h4⟩ := exec_two_pop P c r hrun hsp hcap
  obtain ⟨op, len, imm⟩ := d
  simp only at hop
  rcases hop with ⟨rfl, hr⟩ | ⟨rfl, hr⟩ | ⟨rfl, hr⟩ | ⟨rfl, hr⟩ | ⟨rfl, hr⟩ | ⟨rfl, hr⟩ |
    ⟨rfl, hlt, hr⟩ | ⟨rfl, hlt, hr⟩
  all_goals simp only [Switched.execute, Instr_Break, Instr_Nop, Instr_Halt, Instr_Push,
      Instr_Print, Instr_JNE, Instr_Swap, Instr_Dup, Instr_JE, Instr_Inc, Instr_Add, Instr_Sub,
      Instr_Mul, Instr_Rand, Instr_Dec, Instr_Drop, Instr_Over, Instr_Mod, Instr_Jump, Instr_And,
      Instr_Or, Instr_Xor, Instr_SHL, Instr_SHR, Instr_SQRT, Instr_Rot, Instr_Pick,
      Nat.reduceEqDiff, OfNat.ofNat_ne_zero, OfNat.zero_ne_ofNat, reduceIte, if_true, if_false]
  all_goals rw [if_neg (by rw [h1]; simp), h2, h3, ha, hb, ← h4]
  all_goals congr 2
  · exact hr.symm
  · unfold wrap32
    rw [← hr]
    exact Int.toNat_ofNat r
  · exact hr.symm
  · rw [hr, Nat.mod_eq_of_lt (Nat.and_lt_two_pow a hb32)]
  · rw [hr, Nat.mod_eq_of_lt (Nat.or_lt_two_pow ha32 hb32)]
  · rw [hr, Nat.mod_eq_of_lt (Nat.xor_lt_two_pow ha32 hb32)]
  · rw [hr, shl32, Nat.mod_eq_of_lt hlt, Nat.shiftLeft_eq]
  · rw [hr, shr32, Nat.mod_eq_of_lt hlt, Nat.shiftRight_eq_div_pow,
      Nat.mod_eq_of_lt (lt_of_le_of_lt (Nat.div_le_self _ _) ha32)]

/-! ## C6: the two-operand arithmetic and bitwise instructions -/

/-- C6: let the record be `Running` with at least two live entries inside the
stack array, `a` the top entry and `b` the entry below it, both 32-bit words.
For each of `Add`, `Sub`, `Mul`, `And`, `Or`, `Xor`, `SHL`, `SHR` (with
`b < 32` for the two shifts) the `switch` of `switched.c` ends with `sp` one
lower, with `(a OP b) mod 2 ^ 32` in the cell of the old second entry (for `Sub`
this is `a - b`), with every other cell of the stack array, `pc`, `steps` and
the `Running` state unchanged; the routine that the table of `asmexp.c` holds
for the opcode (a C routine `sr_*`, and for `Sub` the routine `srv_Sub` as
modelled from the spec) has the same effect, followed by `ADVANCE_PC`. -/
theorem C6_binary_ops (P : Params) (L : Nat) (c : cpu_t) (d : decode_t) (a b r : Nat)
    (hrun : c.state = Cpu_Running) (hsp : 1 ≤ c.sp) (hcap : c.sp < (P.STACK_CAPACITY : Int))
    (ha : c.stack c.sp.toNat = a) (hb : c.stack (c.sp - 1).toNat = b)
    (ha32 : a < 2 ^ 32) (hb32 : b < 2 ^ 32)
    (hop : (d.opcode = Instr_Add ∧ r = (a + b) % 2 ^ 32) ∨
      (d.opcode = Instr_Sub ∧ (r : Int) = ((a : Int) - (b : Int)) % 2 ^ 32) ∨
      (d.opcode = Instr_Mul ∧ r = (a * b) % 2 ^ 32) ∨
      (d.opcode = Instr_And ∧ r = (a &&& b) % 2 ^ 32) ∨
      (d.opcode = Instr_Or ∧ r = (a ||| b) % 2 ^ 32) ∨
      (d.opcode = Instr_Xor ∧ r = (a ^^^ b) % 2 ^ 32) ∨
      (d.opcode = Instr_SHL ∧ b < 32 ∧ r = (a * 2 ^ b) % 2 ^ 32) ∨
      (d.opcode = Instr_SHR ∧ b < 32 ∧ r = (a / 2 ^ b) % 2 ^ 32)) :
    ∃ c', Switched.execute P c d = some c' ∧
      (∃ sr, Asmexp.service_routines[d.opcode]? = some sr ∧
        sr P L c d = Asmexp.ADVANCE_PC L c' d) ∧
      c'.state = Cpu_Running ∧ c'.sp = c.sp - 1 ∧ c'.stack (c.sp - 1).toNat = r ∧
      (∀ i, i ≠ (c.sp - 1).toNat → c'.stack i = c.stack i) ∧
      c'.pc = c.pc ∧ c'.steps = c.steps := by
  have he := exec_binop P c d a b r hrun hsp hcap ha hb ha32 hb32 hop
  refine ⟨_, he, handler_of_execute P L c _ d hrun he ?_, hrun, rfl, ?_, ?_, rfl, rfl⟩
  · simp [hrun]
  · exact Function.update_same _ _ _
  · intro i hi
    exact Function.update_noteq hi _ _

/-- Instance of `C6_binary_ops`: `Sub` on a stack holding 5 below 3 pushes
`3 - 5` modulo `2 ^ 32`. -/
theorem C6_binary_ops_witness :
    ∃ c', Switched.execute P0
        { pc := 4, sp := 1, state := Cpu_Running, steps := 2,
          stack := fun i => if i = 0 then 5 else 3, pmem := program [], out := [], nrand := 0, oob := false }
        { opcode := Instr_Sub, length := 1, immediate := 0 } = some c' ∧
      (∃ sr, Asmexp.service_routines[Instr_Sub]? = some sr ∧
        sr P0 9
          { pc := 4, sp := 1, state := Cpu_Running, steps := 2,
            stack := fun i => if i = 0 then 5 else 3, pmem := program [], out := [], nrand := 0, oob := false }
          { opcode := Instr_Sub, length := 1, immediate := 0 } =
        Asmexp.ADVANCE_PC 9 c' { opcode := Instr_Sub, length := 1, immediate := 0 }) ∧
      c'.state = Cpu_Running ∧ c'.sp = (1 : Int) - 1 ∧ c'.stack ((1 : Int) - 1).toNat = 4294967294 ∧
      (∀ i, i ≠ ((1 : Int) - 1).toNat → c'.stack i = if i = 0 then 5 else 3) ∧
      c'.pc = 4 ∧ c'.steps = 2 :=
  C6_binary_ops P0 9
    { pc := 4, sp := 1, state := Cpu_Running, steps := 2,
      stack := fun i => if i = 0 then 5 else 3, pmem := program [], out := [], nrand := 0, oob := false }
    { opcode := Instr_Sub, length := 1, immediate := 0 } 3 5 4294967294
    rfl (by decide) (by decide) (by decide) (by decide) (by decide) (by decide)
    (Or.inr (Or.inl ⟨rfl, by decide⟩))

theorem pop_pop_ok (c : cpu_t) (hsp : 1 ≤ c.sp) :
    (pop (pop c).2).2 = { c with sp := c.sp - 2 } := by
  have e1 := pop_ok c (by omega)
  have e2 := pop_ok (pop c).2 (by rw [e1]; show 0 ≤ c.sp - 1; omega)
  rw [e2, e1]
  simp only [cpu_t.mk.injEq, and_true, true_and]
  omega

/-- Value of the `switch` and of `sr_Mod` on `Mod`. -/
theorem exec_mod (P : Params) (L : Nat) (c : cpu_t) (d : decode_t) (a b : Nat)
    (hrun : c.state = Cpu_Running) (hsp : 1 ≤ c.sp) (hcap : c.sp < (P.STACK_CAPACITY : Int))
    (hd : d.opcode = Instr_Mod)
    (ha : c.stack c.sp.toNat = a) (hb : c.stack (c.sp - 1).toNat = b) :
    (b = 0 → Switched.execute P c d = some { c with sp := c.sp - 2, state := Cpu_Break } ∧
      Asmexp.sr_Mod P L c d = ({ c with sp := c.sp - 2, state := Cpu_Break }, false)) ∧
    (b ≠ 0 → Switched.execute P c d = some
        { c with sp := c.sp - 1, stack := Function.update c.stack (c.sp - 1).toNat (a % b) } ∧
      Asmexp.sr_Mod P L c d = Asmexp.ADVANCE_PC L
        { c with sp := c.sp - 1, stack := Function.update c.stack (c.sp - 1).toNat (a % b) } d) := by
  obtain ⟨h1, h2, h3, h4⟩ := exec_two_pop P c (a % b) hrun hsp hcap
  have h5 := pop_pop_ok c hsp
  obtain ⟨op, len, imm⟩ := d
  simp only at hd
  subst hd
  simp only [Switched.execute, Asmexp.sr_Mod, Instr_Break, Instr_Nop, Instr_Halt, Instr_Push,
      Instr_Print, Instr_JNE, Instr_Swap, Instr_Dup, Instr_JE, Instr_Inc, Instr_Add, Instr_Sub,
      Instr_Mul, Instr_Rand, Instr_Dec, Instr_Drop, Instr_Over, Instr_Mod, Instr_Jump, Instr_And,
      Instr_Or, Instr_Xor, Instr_SHL, Instr_SHR, Instr_SQRT, Instr_Rot, Instr_Pick,
      Nat.reduceEqDiff, OfNat.ofNat_ne_zero, OfNat.zero_ne_ofNat, reduceIte, if_true, if_false]
  have hne : ¬ ((pop (pop c).2).2.state ≠ Cpu_Running) := by rw [h1]; simp
  rw [if_neg hne, if_neg hne, h2, h3, ha, hb]
  constructor
  · intro hz
    rw [if_pos hz, if_pos hz, h5]
    exact ⟨rfl, rfl⟩
  · intro hz
    rw [if_neg hz, if_neg hz, h4]
    exact ⟨rfl, rfl⟩

theorem ADVANCE_PC_fst (L : Nat) (c : cpu_t) (d : decode_t) :
    (Asmexp.ADVANCE_PC L c d).1 = advance c d := by
  unfold Asmexp.ADVANCE_PC
  dsimp only
  split_ifs <;> rfl

/-- Value of the modelled routine `srv_Mod` on `Mod`. -/
theorem srv_mod (P : Params) (L : Nat) (c : cpu_t) (d : decode_t) (a b : Nat)
    (hrun : c.state = Cpu_Running) (hsp : 1 ≤ c.sp) (hcap : c.sp < (P.STACK_CAPACITY : Int))
    (ha : c.stack c.sp.toNat = a) (hb : c.stack (c.sp - 1).toNat = b) :
    (b = 0 → Asmexp.srv_Mod P L c d =
      (advance { c with sp := c.sp - 2, state := Cpu_Break } d, false)) ∧
    (b ≠ 0 → Asmexp.srv_Mod P L c d = Asmexp.ADVANCE_PC L
        { c with sp := c.sp - 1, stack := Function.update c.stack (c.sp - 1).toNat (a % b) } d) := by
  obtain ⟨h1, h2, h3, h4⟩ := exec_two_pop P c (a % b) hrun hsp hcap
  have h5 := pop_pop_ok c hsp
  have h0 : ¬ ((pop c).2.state ≠ Cpu_Running) := by
    rw [pop_ok c (by omega)]
    simp [hrun]
  have hne : ¬ ((pop (pop c).2).2.state ≠ Cpu_Running) := by rw [h1]; simp
  unfold Asmexp.srv_Mod
  dsimp only
  rw [if_neg h0, if_neg hne, h2, h3, ha, hb]
  constructor
  · intro hz
    rw [if_pos hz, h5]
    simp [Asmexp.ADVANCE_PC, advance]
  · intro hz
    rw [if_neg hz, h4]

/-! ## C7: `Mod` -/

/-- C7: let the record be `Running` with at least two live entries inside the
stack array, `a` the top entry and `b` the entry below it.  The table of
`asmexp.c` holds `srv_Mod` for `Mod`.  If `b = 0`, the `Mod` case of the
`switch` of `switched.c`, the routine `srv_Mod` as modelled from the spec and
the C routine `sr_Mod` all end with `state = Break`, with `sp` two lower and
with the stack array unchanged: nothing is pushed, whatever `a` is; neither
routine goes on to the next instruction.  Otherwise all three end with `a % b`
in the cell of the old second entry, `sp` one lower, every other cell unchanged
and the state still `Running`, the routines having run `ADVANCE_PC` on that
record. -/
theorem C7_mod (P : Params) (L : Nat) (c : cpu_t) (d : decode_t) (a b : Nat)
    (hrun : c.state = Cpu_Running) (hsp : 1 ≤ c.sp) (hcap : c.sp < (P.STACK_CAPACITY : Int))
    (hd : d.opcode = Instr_Mod)
    (ha : c.stack c.sp.toNat = a) (hb : c.stack (c.sp - 1).toNat = b) :
    Asmexp.service_routines[d.opcode]? = some Asmexp.srv_Mod ∧
    (b = 0 → ∃ c', Switched.execute P c d = some c' ∧
      Asmexp.srv_Mod P L c d = (advance c' d, false) ∧
      Asmexp.sr_Mod P L c d = (c', false) ∧
      c'.state = Cpu_Break ∧ c'.sp = c.sp - 2 ∧ c'.stack = c.stack ∧
      (advance c' d).state = Cpu_Break ∧ (advance c' d).sp = c.sp - 2 ∧
      (advance c' d).stack = c.stack) ∧
    (b ≠ 0 → ∃ c', Switched.execute P c d = some c' ∧
      Asmexp.srv_Mod P L c d = Asmexp.ADVANCE_PC L c' d ∧
      Asmexp.sr_Mod P L c d = Asmexp.ADVANCE_PC L c' d ∧
      c'.state = Cpu_Running ∧ c'.sp = c.sp - 1 ∧ c'.stack (c.sp - 1).toNat = a % b ∧
      (∀ i, i ≠ (c.sp - 1).toNat → c'.stack i = c.stack i) ∧
      (Asmexp.ADVANCE_PC L c' d).1.state = Cpu_Running ∧
      (Asmexp.ADVANCE_PC L c' d).1.sp = c.sp - 1 ∧
      (Asmexp.ADVANCE_PC L c' d).1.stack = c'.stack) := by
  obtain ⟨hz, hnz⟩ := exec_mod P L c d a b hrun hsp hcap hd ha hb
  obtain ⟨vz, vnz⟩ := srv_mod P L c d a b hrun hsp hcap ha hb
  refine ⟨by rw [hd]; rfl, ?_, ?_⟩
  · intro h
    exact ⟨_, (hz h).1, vz h, (hz h).2, rfl, rfl, rfl, rfl, rfl, rfl⟩
  · intro h
    refine ⟨_, (hnz h).1, vnz h, (hnz h).2, hrun, rfl, Function.update_same _ _ _,
      fun i hi => Function.update_noteq hi _ _, ?_, ?_, ?_⟩
    · rw [ADVANCE_PC_fst]
      exact hrun
    · rw [ADVANCE_PC_fst]
      rfl
    · rw [ADVANCE_PC_fst]
      rfl

/-- Instance of `C7_mod`: `Mod` with 7 on top of 0, and with 7 on top of 4. -/
theorem C7_mod_witness :
    (∃ c', Switched.execute P0
        { pc := 0, sp := 1, state := Cpu_Running, steps := 0,
          stack := fun i => if i = 0 then 0 else 7, pmem := program [], out := [], nrand := 0,
          oob := false }
        { opcode := Instr_Mod, length := 1, immediate := 0 } = some c' ∧
      Asmexp.srv_Mod P0 9
        { pc := 0, sp := 1, state := Cpu_Running, steps := 0,
          stack := fun i => if i = 0 then 0 else 7, pmem := program [], out := [], nrand := 0,
          oob := false }
        { opcode := Instr_Mod, length := 1, immediate := 0 } =
        (advance c' { opcode := Instr_Mod, length := 1, immediate := 0 }, false) ∧
      Asmexp.sr_Mod P0 9
        { pc := 0, sp := 1, state := Cpu_Running, steps := 0,
          stack := fun i => if i = 0 then 0 else 7, pmem := program [], out := [], nrand := 0,
          oob := false }
        { opcode := Instr_Mod, length := 1, immediate := 0 } = (c', false) ∧
      c'.state = Cpu_Break ∧ c'.sp = (1 : Int) - 2 ∧
      c'.stack = fun i => if i = 0 then 0 else 7) ∧
    (∃ c', Switched.execute P0
        { pc := 0, sp := 1, state := Cpu_Running, steps := 0,
          stack := fun i => if i = 0 then 4 else 7, pmem := program [], out := [], nrand := 0,
          oob := false }
        { opcode := Instr_Mod, length := 1, immediate := 0 } = some c' ∧
      Asmexp.srv_Mod P0 9
        { pc := 0, sp := 1, state := Cpu_Running, steps := 0,
          stack := fun i => if i = 0 then 4 else 7, pmem := program [], out := [], nrand := 0,
          oob := false }
        { opcode := Instr_Mod, length := 1, immediate := 0 } =
        Asmexp.ADVANCE_PC 9 c' { opcode := Instr_Mod, length := 1, immediate := 0 } ∧
      c'.state = Cpu_Running ∧ c'.sp = (1 : Int) - 1 ∧ c'.stack ((1 : Int) - 1).toNat = 7 % 4) :=
  ⟨((C7_mod P0 9
      { pc := 0, sp := 1, state := Cpu_Running, steps := 0,
        stack := fun i => if i = 0 then 0 else 7, pmem := program [], out := [], nrand := 0,
        oob := false }
      { opcode := Instr_Mod, length := 1, immediate := 0 } 7 0
      rfl (by decide) (by decide) rfl (by decide) (by decide)).2.1 rfl).imp
      (fun _ h => ⟨h.1, h.2.1, h.2.2.1, h.2.2.2.1, h.2.2.2.2.1, h.2.2.2.2.2.1⟩),
   ((C7_mod P0 9
      { pc := 0, sp := 1, state := Cpu_Running, steps := 0,
        stack := fun i => if i = 0 then 4 else 7, pmem := program [], out := [], nrand := 0,
        oob := false }
      { opcode := Instr_Mod, length := 1, immediate := 0 } 7 4
      rfl (by decide) (by decide) rfl (by decide) (by decide)).2.2 (by decide)).imp
      (fun _ h => ⟨h.1, h.2.1, h.2.2.2.1, h.2.2.2.2.1, h.2.2.2.2.2.1⟩)⟩

/-- Value of the `switch` on `Swap`. -/
theorem exec_swap (P : Params) (c : cpu_t) (d : decode_t) (hrun : c.state = Cpu_Running)
    (hsp : 1 ≤ c.sp) (hcap : c.sp < (P.STACK_CAPACITY : Int)) (hd : d.opcode = Instr_Swap) :
    Switched.execute P c d = some
      { c with
        stack := Function.update (Function.update c.stack (c.sp - 1).toNat (c.stack c.sp.toNat))
                   c.sp.toNat (c.stack (c.sp - 1).toNat) } := by
  obtain ⟨op, len, imm⟩ := d
  simp only at hd
  subst hd
  simp only [Switched.execute, Instr_Break, Instr_Nop, Instr_Halt, Instr_Push,
      Instr_Print, Instr_JNE, Instr_Swap, Instr_Dup, Instr_JE, Instr_Inc, Instr_Add, Instr_Sub,
      Instr_Mul, Instr_Rand, Instr_Dec, Instr_Drop, Instr_Over, Instr_Mod, Instr_Jump, Instr_And,
      Instr_Or, Instr_Xor, Instr_SHL, Instr_SHR, Instr_SQRT, Instr_Rot, Instr_Pick,
      Nat.reduceEqDiff, OfNat.ofNat_ne_zero, OfNat.zero_ne_ofNat, reduceIte, if_true, if_false]
  rw [pop_ok c (by omega)]
  dsimp only
  rw [pop_ok _ (by dsimp only; omega)]
  dsimp only
  rw [if_neg (by simpa using hrun)]
  rw [push_eq P { c with sp := c.sp - 1 - 1 } _ (c.sp - 1) (by dsimp only; omega) (by omega)]
  dsimp only
  rw [push_eq P _ _ c.sp (by dsimp only; omega) (by omega)]

/-- Value of the `switch` on `Dup`. -/
theorem exec_dup (P : Params) (c : cpu_t) (d : decode_t) (hrun : c.state = Cpu_Running)
    (hsp : 0 ≤ c.sp) (hcap : c.sp + 1 < (P.STACK_CAPACITY : Int)) (hd : d.opcode = Instr_Dup) :
    Switched.execute P c d = some
      { c with
        sp := c.sp + 1,
        stack := Function.update (Function.update c.stack c.sp.toNat (c.stack c.sp.toNat))
                   (c.sp + 1).toNat (c.stack c.sp.toNat) } := by
  obtain ⟨op, len, imm⟩ := d
  simp only at hd
  subst hd
  simp only [Switched.execute, Instr_Break, Instr_Nop, Instr_Halt, Instr_Push,
      Instr_Print, Instr_JNE, Instr_Swap, Instr_Dup, Instr_JE, Instr_Inc, Instr_Add, Instr_Sub,
      Instr_Mul, Instr_Rand, Instr_Dec, Instr_Drop, Instr_Over, Instr_Mod, Instr_Jump, Instr_And,
      Instr_Or, Instr_Xor, Instr_SHL, Instr_SHR, Instr_SQRT, Instr_Rot, Instr_Pick,
      Nat.reduceEqDiff, OfNat.ofNat_ne_zero, OfNat.zero_ne_ofNat, reduceIte, if_true, if_false]
  rw [pop_ok c (by omega)]
  dsimp only
  rw [if_neg (by simpa using hrun)]
  rw [push_eq P { c with sp := c.sp - 1 } _ c.sp (by dsimp only; omega) (by omega)]
  dsimp only
  rw [push_eq P _ _ (c.sp + 1) (by dsimp only) (by omega)]

/-- Value of the `switch` on `Over`. -/
theorem exec_over (P : Params) (c : cpu_t) (d : decode_t) (hrun : c.state = Cpu_Running)
    (hsp : 1 ≤ c.sp) (hcap : c.sp + 1 < (P.STACK_CAPACITY : Int)) (hd : d.opcode = Instr_Over) :
    Switched.execute P c d = some
      { c with
        sp := c.sp + 1,
        stack := Function.update
                   (Function.update
                     (Function.update c.stack (c.sp - 1).toNat (c.stack (c.sp - 1).toNat))
                     c.sp.toNat (c.stack c.sp.toNat))
                   (c.sp + 1).toNat (c.stack (c.sp - 1).toNat) } := by
  obtain ⟨op, len, imm⟩ := d
  simp only at hd
  subst hd
  simp only [Switched.execute, Instr_Break, Instr_Nop, Instr_Halt, Instr_Push,
      Instr_Print, Instr_JNE, Instr_Swap, Instr_Dup, Instr_JE, Instr_Inc, Instr_Add, Instr_Sub,
      Instr_Mul, Instr_Rand, Instr_Dec, Instr_Drop, Instr_Over, Instr_Mod, Instr_Jump, Instr_And,
      Instr_Or, Instr_Xor, Instr_SHL, Instr_SHR, Instr_SQRT, Instr_Rot, Instr_Pick,
      Nat.reduceEqDiff, OfNat.ofNat_ne_zero, OfNat.zero_ne_ofNat, reduceIte, if_true, if_false]
  rw [pop_ok c (by omega)]
  dsimp only
  rw [pop_ok _ (by dsimp only; omega)]
  dsimp only
  rw [if_neg (by simpa using hrun)]
  rw [push_eq P { c with sp := c.sp - 1 - 1 } _ (c.sp - 1) (by dsimp only; omega) (by omega)]
  dsimp only
  rw [push_eq P { c with sp := c.sp - 1,
                         stack := Function.update c.stack (c.sp - 1).toNat
                                    (c.stack (c.sp - 1).toNat) } _ c.sp
      (by dsimp only; omega) (by omega)]
  dsimp only
  rw [push_eq P _ _ (c.sp + 1) (by dsimp only) (by omega)]

/-- Value of the `switch` on `Rot`. -/
theorem exec_rot (P : Params) (c : cpu_t) (d : decode_t) (hrun : c.state = Cpu_Running)
    (hsp : 2 ≤ c.sp) (hcap : c.sp < (P.STACK_CAPACITY : Int)) (hd : d.opcode = Instr_Rot) :
    Switched.execute P c d = some
      { c with
        stack := Function.update
                   (Function.update
                     (Function.update c.stack (c.sp - 2).toNat (c.stack c.sp.toNat))
                     (c.sp - 1).toNat (c.stack (c.sp - 2).toNat))
                   c.sp.toNat (c.stack (c.sp - 1).toNat) } := by
  obtain ⟨op, len, imm⟩ := d
  simp only at hd
  subst hd
  simp only [Switched.execute, Instr_Break, Instr_Nop, Instr_Halt, Instr_Push,
      Instr_Print, Instr_JNE, Instr_Swap, Instr_Dup, Instr_JE, Instr_Inc, Instr_Add, Instr_Sub,
      Instr_Mul, Instr_Rand, Instr_Dec, Instr_Drop, Instr_Over, Instr_Mod, Instr_Jump, Instr_And,
      Instr_Or, Instr_Xor, Instr_SHL, Instr_SHR, Instr_SQRT, Instr_Rot, Instr_Pick,
      Nat.reduceEqDiff, OfNat.ofNat_ne_zero, OfNat.zero_ne_ofNat, reduceIte, if_true, if_false]
  rw [pop_ok c (by omega)]
  dsimp only
  rw [pop_ok { c with sp := c.sp - 1 } (by dsimp only; omega)]
  dsimp only
  rw [pop_ok { c with sp := c.sp - 1 - 1 } (by dsimp only; omega)]
  dsimp only
  rw [if_neg (by simpa using hrun)]
  have e2 : c.sp - 1 - 1 = c.sp - 2 := by omega
  rw [e2]
  rw [push_eq P { c with sp := c.sp - 2 - 1 } _ (c.sp - 2) (by dsimp only; omega) (by omega)]
  dsimp only
  rw [push_eq P { c with sp := c.sp - 2,
                         stack := Function.update c.stack (c.sp - 2).toNat
                                    (c.stack c.sp.toNat) } _ (c.sp - 1)
      (by dsimp only; omega) (by omega)]
  dsimp only
  rw [push_eq P _ _ c.sp (by dsimp only; omega) (by omega)]

/-! ## C8: `Swap`, `Dup`, `Over`, `Rot` -/

/-- C8: let the record be `Running` with `sp = n`, so that cell `n` of the
stack array holds the top entry `a`, cell `n - 1` the entry `b` below it and
cell `n - 2` the entry `c` below that.  With the operands present and the
result inside the stack array, the `switch` of `switched.c` turns `[.., b, a]`
into `[.., a, b]` on `Swap`, `[.., a]` into `[.., a, a]` on `Dup`, `[.., b, a]`
into `[.., b, a, b]` on `Over` and `[.., c, b, a]` into `[.., a, c, b]` on
`Rot`; the cells below the operands and the `Running` state are unchanged, and
the routine that the table of `asmexp.c` holds for the opcode (the C routine
`sr_Rot`, and `srv_Swap`, `srv_Dup`, `srv_Over` as modelled from the spec) has
the same effect, followed by `ADVANCE_PC`. -/
theorem C8_stack_shuffles (P : Params) (L : Nat) (c : cpu_t) (d : decode_t) (n : Nat)
    (hrun : c.state = Cpu_Running) (hn : c.sp = (n : Int)) :
    (d.opcode = Instr_Swap → 1 ≤ n → n < P.STACK_CAPACITY →
      ∃ c', Switched.execute P c d = some c' ∧
        (∃ sr, Asmexp.service_routines[d.opcode]? = some sr ∧
          sr P L c d = Asmexp.ADVANCE_PC L c' d) ∧
        c'.state = Cpu_Running ∧ c'.sp = (n : Int) ∧
        c'.stack (n - 1) = c.stack n ∧ c'.stack n = c.stack (n - 1) ∧
        ∀ i, i < n - 1 → c'.stack i = c.stack i) ∧
    (d.opcode = Instr_Dup → n + 1 < P.STACK_CAPACITY →
      ∃ c', Switched.execute P c d = some c' ∧
        (∃ sr, Asmexp.service_routines[d.opcode]? = some sr ∧
          sr P L c d = Asmexp.ADVANCE_PC L c' d) ∧
        c'.state = Cpu_Running ∧ c'.sp = (n : Int) + 1 ∧
        c'.stack n = c.stack n ∧ c'.stack (n + 1) = c.stack n ∧
        ∀ i, i < n → c'.stack i = c.stack i) ∧
    (d.opcode = Instr_Over → 1 ≤ n → n + 1 < P.STACK_CAPACITY →
      ∃ c', Switched.execute P c d = some c' ∧
        (∃ sr, Asmexp.service_routines[d.opcode]? = some sr ∧
          sr P L c d = Asmexp.ADVANCE_PC L c' d) ∧
        c'.state = Cpu_Running ∧ c'.sp = (n : Int) + 1 ∧
        c'.stack (n - 1) = c.stack (n - 1) ∧ c'.stack n = c.stack n ∧
        c'.stack (n + 1) = c.stack (n - 1) ∧
        ∀ i, i < n - 1 → c'.stack i = c.stack i) ∧
    (d.opcode = Instr_Rot → 2 ≤ n → n < P.STACK_CAPACITY →
      ∃ c', Switched.execute P c d = some c' ∧
        (∃ sr, Asmexp.service_routines[d.opcode]? = some sr ∧
          sr P L c d = Asmexp.ADVANCE_PC L c' d) ∧
        c'.state = Cpu_Running ∧ c'.sp = (n : Int) ∧
        c'.stack (n - 2) = c.stack n ∧ c'.stack (n - 1) = c.stack (n - 2) ∧
        c'.stack n = c.stack (n - 1) ∧
        ∀ i, i < n - 2 → c'.stack i = c.stack i) := by
  have e0 : c.sp.toNat = n := by omega
  have e1 : (c.sp - 1).toNat = n - 1 := by omega
  have e2 : (c.sp - 2).toNat = n - 2 := by omega
  have e3 : (c.sp + 1).toNat = n + 1 := by omega
  refine ⟨?_, ?_, ?_, ?_⟩
  · intro hd h1 h2
    have he := exec_swap P c d hrun (by omega) (by omega) hd
    rw [e0, e1] at he
    refine ⟨_, he, handler_of_execute P L c _ d hrun he (by simp [hrun]), hrun, hn, ?_, ?_, ?_⟩
    · show Function.update (Function.update c.stack (n - 1) (c.stack n)) n _ (n - 1) = _
      rw [Function.update_noteq (by omega), Function.update_same]
    · exact Function.update_same _ _ _
    · intro i hi
      show Function.update (Function.update c.stack (n - 1) (c.stack n)) n _ i = _
      rw [Function.update_noteq (by omega), Function.update_noteq (by omega)]
  · intro hd h2
    have he := exec_dup P c d hrun (by omega) (by omega) hd
    rw [e0, e3] at he
    refine ⟨_, he, handler_of_execute P L c _ d hrun he (by simp [hrun]), hrun,
      by simp [hn], ?_, ?_, ?_⟩
    · show Function.update (Function.update c.stack n (c.stack n)) (n + 1) _ n = _
      rw [Function.update_noteq (by omega), Function.update_same]
    · exact Function.update_same _ _ _
    · intro i hi
      show Function.update (Function.update c.stack n (c.stack n)) (n + 1) _ i = _
      rw [Function.update_noteq (by omega), Function.update_noteq (by omega)]
  · intro hd h1 h2
    have he := exec_over P c d hrun (by omega) (by omega) hd
    rw [e0, e1, e3] at he
    refine ⟨_, he, handler_of_execute P L c _ d hrun he (by simp [hrun]), hrun,
      by simp [hn], ?_, ?_, ?_, ?_⟩
    · show Function.update (Function.update (Function.update c.stack (n - 1) _) n _) (n + 1) _
        (n - 1) = _
      rw [Function.update_noteq (by omega), Function.update_noteq (by omega),
        Function.update_same]
    · show Function.update (Function.update (Function.update c.stack (n - 1) _) n _) (n + 1) _
        n = _
      rw [Function.update_noteq (by omega), Function.update_same]
    · exact Function.update_same _ _ _
    · intro i hi
      show Function.update (Function.update (Function.update c.stack (n - 1) _) n _) (n + 1) _
        i = _
      rw [Function.update_noteq (by omega), Function.update_noteq (by omega),
        Function.update_noteq (by omega)]
  · intro hd h1 h2
    have he := exec_rot P c d hrun (by omega) (by omega) hd
    rw [e0, e1, e2] at he
    refine ⟨_, he, handler_of_execute P L c _ d hrun he (by simp [hrun]), hrun, hn,
      ?_, ?_, ?_, ?_⟩
    · show Function.update (Function.update (Function.update c.stack (n - 2) _) (n - 1) _) n _
        (n - 2) = _
      rw [Function.update_noteq (by omega), Function.update_noteq (by omega),
        Function.update_same]
    · show Function.update (Function.update (Function.update c.stack (n - 2) _) (n - 1) _) n _
        (n - 1) = _
      rw [Function.update_noteq (by omega), Function.update_same]
    · exact Function.update_same _ _ _
    · intro i hi
      show Function.update (Function.update (Function.update c.stack (n - 2) _) (n - 1) _) n _
        i = _
      rw [Function.update_noteq (by omega), Function.update_noteq (by omega),
        Function.update_noteq (by omega)]

/-- Instance of `C8_stack_shuffles`: `Rot` on the stack `[10, 20, 30]` (30 on
top) gives `[30, 10, 20]`. -/
theorem C8_stack_shuffles_witness :
    ∃ c', Switched.execute P0
        { pc := 0, sp := 2, state := Cpu_Running, steps := 0,
          stack := fun i => 10 * (i + 1), pmem := program [], out := [], nrand := 0, oob := false }
        { opcode := Instr_Rot, length := 1, immediate := 0 } = some c' ∧
      (∃ sr, Asmexp.service_routines[Instr_Rot]? = some sr ∧
        sr P0 9
          { pc := 0, sp := 2, state := Cpu_Running, steps := 0,
            stack := fun i => 10 * (i + 1), pmem := program [], out := [], nrand := 0, oob := false }
          { opcode := Instr_Rot, length := 1, immediate := 0 } =
        Asmexp.ADVANCE_PC 9 c' { opcode := Instr_Rot, length := 1, immediate := 0 }) ∧
      c'.state = Cpu_Running ∧ c'.sp = ((2 : Nat) : Int) ∧
      c'.stack (2 - 2) = 10 * (2 + 1) ∧ c'.stack (2 - 1) = 10 * (2 - 2 + 1) ∧
      c'.stack 2 = 10 * (2 - 1 + 1) ∧
      ∀ i, i < 2 - 2 → c'.stack i = 10 * (i + 1) :=
  (C8_stack_shuffles P0 9
    { pc := 0, sp := 2, state := Cpu_Running, steps := 0,
      stack := fun i => 10 * (i + 1), pmem := program [], out := [], nrand := 0, oob := false }
    { opcode := Instr_Rot, length := 1, immediate := 0 } 2 rfl rfl).2.2.2
    rfl (by decide) (by decide)

theorem decode_length_two (P : Params) (raw : Nat) (c : cpu_t)
    (h : (decode P raw c).length = 2) : (c.pc + 1) % 2 ^ 32 < P.PROGRAM_SIZE := by
  unfold decode at h
  split_ifs at h with h1 h2 h3
  · simp at h
  · exact h3
  · simp at h
  · simp at h

/-- Value of the `switch` on `Jump`. -/
theorem exec_jump (P : Params) (c : cpu_t) (d : decode_t) (hd : d.opcode = Instr_Jump) :
    Switched.execute P c d = some (jump c d) := by
  obtain ⟨op, len, imm⟩ := d
  simp only at hd
  subst hd
  simp only [Switched.execute, Instr_Break, Instr_Nop, Instr_Halt, Instr_Push,
      Instr_Print, Instr_JNE, Instr_Swap, Instr_Dup, Instr_JE, Instr_Inc, Instr_Add, Instr_Sub,
      Instr_Mul, Instr_Rand, Instr_Dec, Instr_Drop, Instr_Over, Instr_Mod, Instr_Jump, Instr_And,
      Instr_Or, Instr_Xor, Instr_SHL, Instr_SHR, Instr_SQRT, Instr_Rot, Instr_Pick,
      Nat.reduceEqDiff, OfNat.ofNat_ne_zero, OfNat.zero_ne_ofNat, reduceIte, if_true, if_false]

/-- Value of the `switch` on `JE`. -/
theorem exec_je (P : Params) (c : cpu_t) (d : decode_t) (hrun : c.state = Cpu_Running)
    (hsp : 0 ≤ c.sp) (hd : d.opcode = Instr_JE) :
    Switched.execute P c d = some
      (if c.stack c.sp.toNat = 0 then jump { c with sp := c.sp - 1 } d
        else { c with sp := c.sp - 1 }) := by
  obtain ⟨op, len, imm⟩ := d
  simp only at hd
  subst hd
  simp only [Switched.execute, Instr_Break, Instr_Nop, Instr_Halt, Instr_Push,
      Instr_Print, Instr_JNE, Instr_Swap, Instr_Dup, Instr_JE, Instr_Inc, Instr_Add, Instr_Sub,
      Instr_Mul, Instr_Rand, Instr_Dec, Instr_Drop, Instr_Over, Instr_Mod, Instr_Jump, Instr_And,
      Instr_Or, Instr_Xor, Instr_SHL, Instr_SHR, Instr_SQRT, Instr_Rot, Instr_Pick,
      Nat.reduceEqDiff, OfNat.ofNat_ne_zero, OfNat.zero_ne_ofNat, reduceIte, if_true, if_false]
  rw [pop_ok c hsp]
  dsimp only
  rw [if_neg (by simpa using hrun)]
  split_ifs <;> rfl

/-- Value of the `switch` on `JNE`. -/
theorem exec_jne (P : Params) (c : cpu_t) (d : decode_t) (hrun : c.state = Cpu_Running)
    (hsp : 0 ≤ c.sp) (hd : d.opcode = Instr_JNE) :
    Switched.execute P c d = some
      (if c.stack c.sp.toNat ≠ 0 then jump { c with sp := c.sp - 1 } d
        else { c with sp := c.sp - 1 }) := by
  obtain ⟨op, len, imm⟩ := d
  simp only at hd
  subst hd
  simp only [Switched.execute, Instr_Break, Instr_Nop, Instr_Halt, Instr_Push,
      Instr_Print, Instr_JNE, Instr_Swap, Instr_Dup, Instr_JE, Instr_Inc, Instr_Add, Instr_Sub,
      Instr_Mul, Instr_Rand, Instr_Dec, Instr_Drop, Instr_Over, Instr_Mod, Instr_Jump, Instr_And,
      Instr_Or, Instr_Xor, Instr_SHL, Instr_SHR, Instr_SQRT, Instr_Rot, Instr_Pick,
      Nat.reduceEqDiff, OfNat.ofNat_ne_zero, OfNat.zero_ne_ofNat, reduceIte, if_true, if_false]
  rw [pop_ok c hsp]
  dsimp only
  rw [if_neg (by simpa using hrun)]
  split_ifs <;> rfl

theorem wrap32_jump (p : Nat) (imm : Int) :
    ((wrap32 ((wrap32 ((p : Int) + imm) : Nat) + 2) : Nat) : Int) = ((p : Int) + imm + 2) % 2 ^ 32 := by
  unfold wrap32
  omega

theorem wrap32_next (p : Nat) (h : p + 2 < 2 ^ 32) : wrap32 ((p : Int) + 2) = p + 2 := by
  unfold wrap32
  omega

/-- One pass of the loop body and the service routine of the decoded opcode,
from a record that the `switch` leaves out of `Break`. -/
theorem cycle_of_execute (P : Params) (L : Nat) (c c1 : cpu_t) (hrun : c.state = Cpu_Running)
    (hpc : c.pc < P.PROGRAM_SIZE)
    (he : Switched.execute P c (decode P (c.pmem c.pc) c) = some c1)
    (hb : c1.state ≠ Cpu_Break) :
    Switched.body P c = some (advance c1 (decode P (c.pmem c.pc) c), true) ∧
    ∃ sr, Asmexp.service_routines[(decode P (c.pmem c.pc) c).opcode]? = some sr ∧
      (sr P L c (decode P (c.pmem c.pc) c)).1 = advance c1 (decode P (c.pmem c.pc) c) := by
  refine ⟨by rw [body_eq P c hrun hpc, he]; rfl, ?_⟩
  obtain ⟨sr, hsr, h⟩ := handler_of_execute P L c c1 _ hrun he hb
  exact ⟨sr, hsr, by rw [h, ADVANCE_PC_fst]⟩

/-! ## C9: `Jump`, `JE`, `JNE` -/

/-- C9: let the record be `Running` at `pc = p` inside a program memory of
fewer than `2 ^ 32` cells, and let the cell at `p` decode as a two-cell
instruction with immediate `imm`.  One pass of the loop body of `switched.c`
and the routine that the table of `asmexp.c` holds for the opcode (the C
routine `sr_Jne`, and `srv_Je`, `srv_Jump` as modelled from the spec) leave the
same record, in which: for `Jump`, `pc = (p + imm + 2) mod 2 ^ 32` and `sp` is unchanged; for
`JE` and `JNE` on a non-empty stack with top entry `x`, `sp` is one lower, and
`pc = (p + imm + 2) mod 2 ^ 32` when the jump is taken (`x = 0` for `JE`,
`x ≠ 0` for `JNE`) and `pc = p + 2` when it is not.  The stack array and the
`Running` state are unchanged in every case. -/
theorem C9_jumps (P : Params) (L : Nat) (c : cpu_t) (op : Nat) (imm : Int) (x : Nat)
    (hPS : P.PROGRAM_SIZE < 2 ^ 32) (hrun : c.state = Cpu_Running)
    (hpc : c.pc < P.PROGRAM_SIZE)
    (hd : decode P (c.pmem c.pc) c = { opcode := op, length := 2, immediate := imm })
    (hx : c.stack c.sp.toNat = x) :
    (op = Instr_Jump →
      ∃ c', Switched.body P c = some (c', true) ∧
        (∃ sr, Asmexp.service_routines[op]? = some sr ∧
          (sr P L c { opcode := op, length := 2, immediate := imm }).1 = c') ∧
        (c'.pc : Int) = ((c.pc : Int) + imm + 2) % 2 ^ 32 ∧
        c'.sp = c.sp ∧ c'.stack = c.stack ∧ c'.state = Cpu_Running) ∧
    (op = Instr_JE → 0 ≤ c.sp →
      ∃ c', Switched.body P c = some (c', true) ∧
        (∃ sr, Asmexp.service_routines[op]? = some sr ∧
          (sr P L c { opcode := op, length := 2, immediate := imm }).1 = c') ∧
        (x = 0 → (c'.pc : Int) = ((c.pc : Int) + imm + 2) % 2 ^ 32) ∧
        (x ≠ 0 → c'.pc = c.pc + 2) ∧
        c'.sp = c.sp - 1 ∧ c'.stack = c.stack ∧ c'.state = Cpu_Running) ∧
    (op = Instr_JNE → 0 ≤ c.sp →
      ∃ c', Switched.body P c = some (c', true) ∧
        (∃ sr, Asmexp.service_routines[op]? = some sr ∧
          (sr P L c { opcode := op, length := 2, immediate := imm }).1 = c') ∧
        (x ≠ 0 → (c'.pc : Int) = ((c.pc : Int) + imm + 2) % 2 ^ 32) ∧
        (x = 0 → c'.pc = c.pc + 2) ∧
        c'.sp = c.sp - 1 ∧ c'.stack = c.stack ∧ c'.state = Cpu_Running) := by
  have hlen := decode_length_two P (c.pmem c.pc) c (by rw [hd])
  have hp2 : c.pc + 2 < 2 ^ 32 := by omega
  refine ⟨?_, ?_, ?_⟩
  · intro hop
    have he := exec_jump P c (decode P (c.pmem c.pc) c) (by rw [hd]; exact hop)
    obtain ⟨hb, hs⟩ := cycle_of_execute P L c _ hrun hpc he (by simp [jump, hrun])
    rw [hd] at hb hs
    exact ⟨_, hb, hs, wrap32_jump c.pc imm, rfl, rfl, hrun⟩
  · intro hop hsp
    have he := exec_je P c (decode P (c.pmem c.pc) c) hrun hsp (by rw [hd]; exact hop)
    rw [hx] at he
    by_cases hz : x = 0
    · rw [if_pos hz] at he
      obtain ⟨hb, hs⟩ := cycle_of_execute P L c _ hrun hpc he (by simp [jump, hrun])
      rw [hd] at hb hs
      exact ⟨_, hb, hs, fun _ => wrap32_jump c.pc imm, fun h => absurd hz h, rfl, rfl, hrun⟩
    · rw [if_neg hz] at he
      obtain ⟨hb, hs⟩ := cycle_of_execute P L c _ hrun hpc he (by simp [hrun])
      rw [hd] at hb hs
      exact ⟨_, hb, hs, fun h => absurd h hz, fun _ => wrap32_next c.pc hp2, rfl, rfl, hrun⟩
  · intro hop hsp
    have he := exec_jne P c (decode P (c.pmem c.pc) c) hrun hsp (by rw [hd]; exact hop)
    rw [hx] at he
    by_cases hz : x = 0
    · rw [if_neg (not_not.mpr hz)] at he
      obtain ⟨hb, hs⟩ := cycle_of_execute P L c _ hrun hpc he (by simp [hrun])
      rw [hd] at hb hs
      exact ⟨_, hb, hs, fun h => absurd hz h, fun _ => wrap32_next c.pc hp2, rfl, rfl, hrun⟩
    · rw [if_pos hz] at he
      obtain ⟨hb, hs⟩ := cycle_of_execute P L c _ hrun hpc he (by simp [jump, hrun])
      rw [hd] at hb hs
      exact ⟨_, hb, hs, fun _ => wrap32_jump c.pc imm, fun h => absurd h hz, rfl, rfl, hrun⟩

/-- Instance of `C9_jumps`: at `pc = 4` the cells `JE -6` with 0 on top of the
stack lead to `pc = 0`, with `sp` one lower. -/
theorem C9_jumps_witness :
    ∃ c', Switched.body P0
        { pc := 4, sp := 0, state := Cpu_Running, steps := 3, stack := fun _ => 0,
          pmem := program [Instr_Nop, Instr_Nop, Instr_Nop, Instr_Nop, Instr_JE, encode_imm (-6)],
          out := [], nrand := 0, oob := false } = some (c', true) ∧
      (∃ sr, Asmexp.service_routines[Instr_JE]? = some sr ∧
        (sr P0 9
          { pc := 4, sp := 0, state := Cpu_Running, steps := 3, stack := fun _ => 0,
            pmem := program [Instr_Nop, Instr_Nop, Instr_Nop, Instr_Nop, Instr_JE,
              encode_imm (-6)],
            out := [], nrand := 0, oob := false }
          { opcode := Instr_JE, length := 2, immediate := -6 }).1 = c') ∧
      ((0 : Nat) = 0 → (c'.pc : Int) = (((4 : Nat) : Int) + (-6) + 2) % 2 ^ 32) ∧
      ((0 : Nat) ≠ 0 → c'.pc = 4 + 2) ∧
      c'.sp = (0 : Int) - 1 ∧ c'.stack = (fun _ => 0) ∧ c'.state = Cpu_Running :=
  (C9_jumps P0 9
    { pc := 4, sp := 0, state := Cpu_Running, steps := 3, stack := fun _ => 0,
      pmem := program [Instr_Nop, Instr_Nop, Instr_Nop, Instr_Nop, Instr_JE, encode_imm (-6)],
      out := [], nrand := 0, oob := false }
    Instr_JE (-6) 0 (by decide) rfl (by decide) (by decide) rfl).2.1 rfl (by decide)

/-! ## C10: when `push` fails -/

/-- C10, as stated, fails: with `STACK_CAPACITY = 32` and `sp = 30`, that is
with `STACK_CAPACITY - 1` live entries, `push` succeeds: the state stays
`Running`, `sp` becomes 31 and the value is stored in cell 31.  It fails on the
next push, from `sp = 31`. -/
theorem C10_counterexample :
    (live_stack { pc := 0, sp := 30, state := Cpu_Running, steps := 0, stack := fun _ => 0,
                  pmem := program [], out := [], nrand := 0, oob := false }).length = P0.STACK_CAPACITY - 1 ∧
    (push P0 { pc := 0, sp := 30, state := Cpu_Running, steps := 0, stack := fun _ => 0,
               pmem := program [], out := [], nrand := 0, oob := false } 7).state = Cpu_Running ∧
    (push P0 { pc := 0, sp := 30, state := Cpu_Running, steps := 0, stack := fun _ => 0,
               pmem := program [], out := [], nrand := 0, oob := false } 7).sp = 31 ∧
    (push P0 { pc := 0, sp := 30, state := Cpu_Running, steps := 0, stack := fun _ => 0,
               pmem := program [], out := [], nrand := 0, oob := false } 7).stack 31 = 7 ∧
    (push P0 { pc := 0, sp := 31, state := Cpu_Running, steps := 0, stack := fun _ => 0,
               pmem := program [], out := [], nrand := 0, oob := false } 7).state = Cpu_Break := by
  refine ⟨?_, ?_, ?_, ?_, ?_⟩ <;> decide

/-- C10, amended: on a `Running` record with `-1 ≤ sp < STACK_CAPACITY`, `push`
fails (sets `state = Break`) exactly when `sp = STACK_CAPACITY - 1`, that is
when the stack already holds `STACK_CAPACITY` live entries; with fewer live
entries it succeeds: the state is unchanged, `sp` is one higher and the value
is in the cell of the new `sp`. -/
theorem C10_push_overflow (P : Params) (c : cpu_t) (v : Nat) (hrun : c.state = Cpu_Running)
    (hlo : -1 ≤ c.sp) (hhi : c.sp < (P.STACK_CAPACITY : Int)) :
    ((push P c v).state = Cpu_Break ↔ c.sp = (P.STACK_CAPACITY : Int) - 1) ∧
    ((push P c v).state = Cpu_Break ↔ (live_stack c).length = P.STACK_CAPACITY) ∧
    ((live_stack c).length < P.STACK_CAPACITY →
      (push P c v).state = Cpu_Running ∧ (push P c v).sp = c.sp + 1 ∧
      (push P c v).stack (c.sp + 1).toNat = v) := by
  have hlen : (live_stack c).length = (c.sp + 1).toNat := by simp [live_stack]
  have key : (push P c v).state = Cpu_Break ↔ c.sp = (P.STACK_CAPACITY : Int) - 1 := by
    unfold push
    split_ifs with h
    · simp only [true_iff]
      omega
    · simp only [hrun, false_iff]
      constructor
      · intro h'; cases h'
      · intro h'; omega
  refine ⟨key, ?_, ?_⟩
  · rw [key, hlen]
    omega
  · intro hlt
    rw [hlen] at hlt
    rw [push_ok P c v (by omega)]
    exact ⟨hrun, rfl, Function.update_same _ _ _⟩

/-- Instance of `C10_push_overflow`: `STACK_CAPACITY = 32` and `sp = 30`. -/
theorem C10_push_overflow_witness :
    ((push P0 { pc := 0, sp := 30, state := Cpu_Running, steps := 0, stack := fun _ => 0,
                pmem := program [], out := [], nrand := 0, oob := false } 7).state = Cpu_Break ↔
      (30 : Int) = (P0.STACK_CAPACITY : Int) - 1) ∧
    ((push P0 { pc := 0, sp := 30, state := Cpu_Running, steps := 0, stack := fun _ => 0,
                pmem := program [], out := [], nrand := 0, oob := false } 7).state = Cpu_Break ↔
      (live_stack { pc := 0, sp := 30, state := Cpu_Running, steps := 0, stack := fun _ => 0,
                    pmem := program [], out := [], nrand := 0, oob := false }).length = P0.STACK_CAPACITY) ∧
    ((live_stack { pc := 0, sp := 30, state := Cpu_Running, steps := 0, stack := fun _ => 0,
                   pmem := program [], out := [], nrand := 0, oob := false }).length < P0.STACK_CAPACITY →
      (push P0 { pc := 0, sp := 30, state := Cpu_Running, steps := 0, stack := fun _ => 0,
                 pmem := program [], out := [], nrand := 0, oob := false } 7).state = Cpu_Running ∧
      (push P0 { pc := 0, sp := 30, state := Cpu_Running, steps := 0, stack := fun _ => 0,
                 pmem := program [], out := [], nrand := 0, oob := false } 7).sp = (30 : Int) + 1 ∧
      (push P0 { pc := 0, sp := 30, state := Cpu_Running, steps := 0, stack := fun _ => 0,
                 pmem := program [], out := [], nrand := 0, oob := false } 7).stack ((30 : Int) + 1).toNat = 7) :=
  C10_push_overflow P0
    { pc := 0, sp := 30, state := Cpu_Running, steps := 0, stack := fun _ => 0,
      pmem := program [], out := [], nrand := 0, oob := false } 7 rfl (by decide) (by decide)

/-! ## C11: what `push` changes -/

/-- C11: for every record and value `v`, a `push` that fails (`sp` at or above
`STACK_CAPACITY - 1`) returns the record with only `state` set to `Break`, so
`sp` and every stack cell are unchanged; a `push` that succeeds returns the
record with `sp` one higher and `v` in the cell of the new `sp`, every other
cell and the state unchanged.  Neither outcome changes `pc` or `steps`. -/
theorem C11_push_frame (P : Params) (c : cpu_t) (v : Nat) :
    ((P.STACK_CAPACITY : Int) - 1 ≤ c.sp →
      push P c v = { c with state := Cpu_Break } ∧
      (push P c v).state = Cpu_Break ∧ (push P c v).sp = c.sp ∧
      (push P c v).stack = c.stack) ∧
    (c.sp < (P.STACK_CAPACITY : Int) - 1 →
      (push P c v).sp = c.sp + 1 ∧ (push P c v).stack (c.sp + 1).toNat = v ∧
      (∀ i, i ≠ (c.sp + 1).toNat → (push P c v).stack i = c.stack i) ∧
      (push P c v).state = c.state) ∧
    (push P c v).pc = c.pc ∧ (push P c v).steps = c.steps ∧
    (push P c v).pmem = c.pmem ∧ (push P c v).out = c.out := by
  refine ⟨?_, ?_, ?_⟩
  · intro h
    have e : push P c v = { c with state := Cpu_Break } := by
      unfold push
      rw [if_pos (by omega)]
    rw [e]
    exact ⟨rfl, rfl, rfl, rfl⟩
  · intro h
    rw [push_ok P c v h]
    exact ⟨rfl, Function.update_same _ _ _, fun i hi => Function.update_noteq hi _ _, rfl⟩
  · unfold push
    split_ifs <;> exact ⟨rfl, rfl, rfl, rfl⟩

/-- Instance of `C11_push_frame`: with `STACK_CAPACITY = 32`, a push on `sp = 31`
fails and a push on `sp = 3` succeeds. -/
theorem C11_push_frame_witness :
    (push P0 (sample_cpu 31) 7).state = Cpu_Break ∧
    (push P0 (sample_cpu 31) 7).sp = 31 ∧
    (push P0 (sample_cpu 3) 7).sp = (3 : Int) + 1 ∧
    (push P0 (sample_cpu 3) 7).stack ((3 : Int) + 1).toNat = 7 :=
  ⟨((C11_push_frame P0 (sample_cpu 31) 7).1
      (by decide)).2.1,
   ((C11_push_frame P0 (sample_cpu 31) 7).1
      (by decide)).2.2.1,
   ((C11_push_frame P0 (sample_cpu 3) 7).2.1
      (by decide)).1,
   ((C11_push_frame P0 (sample_cpu 3) 7).2.1
      (by decide)).2.1⟩

/-! ## C12: `pop` -/

/-- C12: for every record, if `sp < 0` then `pop` returns 0 and the record with
only `state` set to `Break`, so `sp` and the stack array are unchanged;
otherwise it returns the cell at `sp` and the record with only `sp` lowered by
one, so the state and every stack cell are unchanged. -/
theorem C12_pop (c : cpu_t) :
    (c.sp < 0 →
      (pop c).1 = 0 ∧ pop_index c = none ∧ (pop c).2 = { c with state := Cpu_Break } ∧
      (pop c).2.state = Cpu_Break ∧ (pop c).2.sp = c.sp ∧ (pop c).2.stack = c.stack) ∧
    (0 ≤ c.sp →
      (pop c).1 = c.stack c.sp.toNat ∧ pop_index c = some c.sp ∧
      (pop c).2 = { c with sp := c.sp - 1 } ∧
      (pop c).2.sp = c.sp - 1 ∧ (pop c).2.state = c.state ∧ (pop c).2.stack = c.stack) ∧
    (pop c).2.pc = c.pc ∧ (pop c).2.steps = c.steps := by
  refine ⟨?_, ?_, ?_⟩
  · intro h
    have e : pop c = (0, { c with state := Cpu_Break }) := by
      unfold pop
      rw [if_pos h]
    have e' : pop_index c = none := by
      unfold pop_index
      rw [if_pos h]
    rw [e]
    exact ⟨rfl, e', rfl, rfl, rfl, rfl⟩
  · intro h
    have e' : pop_index c = some c.sp := by
      unfold pop_index
      rw [if_neg (by omega)]
    rw [pop_ok c h]
    exact ⟨rfl, e', rfl, rfl, rfl, rfl⟩
  · unfold pop
    split_ifs <;> exact ⟨rfl, rfl⟩

/-- Instance of `C12_pop`: a pop on the empty stack and a pop on `sp = 2`. -/
theorem C12_pop_witness :
    ((pop (sample_cpu (-1))).1 = 0 ∧
     (pop (sample_cpu (-1))).2.state = Cpu_Break) ∧
    ((pop (sample_cpu 2)).1 = (fun i => i + 1) (2 : Int).toNat ∧
     (pop (sample_cpu 2)).2.sp = (2 : Int) - 1) :=
  ⟨⟨((C12_pop (sample_cpu (-1))).1 (by decide)).1,
    ((C12_pop (sample_cpu (-1))).1 (by decide)).2.2.2.1⟩,
   ⟨((C12_pop (sample_cpu 2)).2.1 (by decide)).1,
    ((C12_pop (sample_cpu 2)).2.1 (by decide)).2.2.2.1⟩⟩

/-- The value of `pick` is the cell at the subscript given by `pick_index`
when that subscript is below `STACK_CAPACITY`; with a subscript that is not,
or is not representable, `pick` sets `oob`. -/
theorem pick_eq_index (P : Params) (c : cpu_t) (pos : Int) :
    pick P c pos =
      match pick_index c pos with
      | none =>
        if c.sp - 1 < pos then (0, { c with state := Cpu_Break })
        else (0, { c with oob := true })
      | some i =>
        if i < (P.STACK_CAPACITY : Int) then (c.stack i.toNat, c)
        else (0, { c with oob := true }) := by
  unfold pick pick_index
  by_cases h1 : c.sp - 1 < pos
  · simp only [h1, if_true]
  · by_cases h2 : c.sp - pos < 2 ^ 31
    · by_cases h3 : c.sp - pos < (P.STACK_CAPACITY : Int)
      · simp only [h1, h2, h3, if_true, if_false, and_self]
      · simp only [h1, h2, h3, if_true, if_false, and_false]
    · simp only [h1, h2, if_true, if_false, false_and]

/-- Offsets from zero up to `sp - 1` are served by `pick`, which then changes
nothing in the record, when `sp` is an `int32_t` inside the stack array. -/
theorem pick_ok (P : Params) (c : cpu_t) (pos : Int) (h0 : 0 ≤ pos) (h : pos ≤ c.sp - 1)
    (hcap : c.sp < (P.STACK_CAPACITY : Int)) (h31 : c.sp < 2 ^ 31) :
    pick P c pos = (c.stack (c.sp - pos).toNat, c) := by
  unfold pick
  rw [if_neg (by omega), if_pos ⟨by omega, by omega⟩]

/-- The subscript read by `pop` lies in `0 .. sp`. -/
theorem pop_index_range (c : cpu_t) (i : Int) (h : pop_index c = some i) : 0 ≤ i ∧ i ≤ c.sp := by
  unfold pop_index at h
  split_ifs at h with h1
  injection h with h
  omega

/-- For an offset that is not negative, the subscript read by `pick` lies in
`1 .. sp`. -/
theorem pick_index_range (c : cpu_t) (pos i : Int) (hpos : 0 ≤ pos)
    (h : pick_index c pos = some i) : 1 ≤ i ∧ i ≤ c.sp := by
  unfold pick_index at h
  split_ifs at h with h1
  injection h with h
  omega

/-! ## C13: `pick` and the `Pick` instruction -/

/-- C13 at its failing inputs: `pick` refuses the offset `sp`, which indexes
the bottom cell and not below it.  On the one-entry stack `[7]` the offset 0
gives `Break` and the value 0 instead of 7; on `[7, 8, 9]` the offset 2 gives
`Break` while the offset 1 returns 8.  The `Pick` instruction on `[7, 0]` pops
0, leaves one entry, and ends in `Break` with the stack `[7, 0]` instead of
duplicating the new top into `[7, 7]`, in the `switch` and in `sr_Pick`
alike. -/
theorem C13_pick_refuses_bottom :
    ((pick P0 (sample_stack [7]) 0).1 = 0 ∧
      (pick P0 (sample_stack [7]) 0).2.state = Cpu_Break) ∧
    ((pick P0 (sample_stack [7, 8, 9]) 2).1 = 0 ∧
      (pick P0 (sample_stack [7, 8, 9]) 2).2.state = Cpu_Break) ∧
    ((pick P0 (sample_stack [7, 8, 9]) 1).1 = 8 ∧
      (pick P0 (sample_stack [7, 8, 9]) 1).2.state = Cpu_Running) ∧
    (Switched.execute P0 (sample_stack [7, 0])
        { opcode := Instr_Pick, length := 1, immediate := 0 }).map
      (fun c => (c.state, c.sp, live_stack c)) = some (Cpu_Break, 1, [7, 0]) ∧
    (fun c : cpu_t => (c.state, c.sp, live_stack c))
      (Asmexp.sr_Pick P0 9 (sample_stack [7, 0])
        { opcode := Instr_Pick, length := 1, immediate := 0 }).1 = (Cpu_Break, 1, [7, 0]) := by
  refine ⟨?_, ?_, ?_, ?_, ?_⟩ <;> decide

/-! ## C14: the cells read by `pop` and `pick` -/

/-- C14 at its failing inputs: `pick` has no test for a negative offset.  On
the one-entry stack `[7]` (`sp = 0`) in an array of 32 cells, the word
`4294967295`, offset `-1`, makes `pick` read cell 1, above `sp`, without
setting `Break`.  The word `4294967196`, offset `-100`, passes the guard as
well, with the subscript 100 outside the array.  For the word `2147483648`,
offset `-2 ^ 31`, the guard passes and the difference `sp - pos` is `2 ^ 31`,
which no `int` holds: there is no subscript, and again no `Break`.  The `Pick`
instruction on `[7, 4294967295]` stays `Running` and pushes the stale cell 1,
which still holds the popped operand. -/
theorem C14_pick_reads_above_sp :
    (pick_index (sample_stack [7]) (toInt32 4294967295) = some 1 ∧
      (pick P0 (sample_stack [7]) (toInt32 4294967295)).2.state = Cpu_Running ∧
      (sample_stack [7]).sp = 0) ∧
    (pick_index (sample_stack [7]) (toInt32 4294967196) = some 100 ∧
      (pick P0 (sample_stack [7]) (toInt32 4294967196)).2.state = Cpu_Running ∧
      (pick P0 (sample_stack [7]) (toInt32 4294967196)).2.oob = true ∧
      P0.STACK_CAPACITY = 32) ∧
    ((sample_stack [7]).sp - toInt32 2147483648 = 2 ^ 31 ∧
      pick_index (sample_stack [7]) (toInt32 2147483648) = none ∧
      (pick P0 (sample_stack [7]) (toInt32 2147483648)).2.state = Cpu_Running ∧
      (pick P0 (sample_stack [7]) (toInt32 2147483648)).2.oob = true) ∧
    (Switched.execute P0 (sample_stack [7, 4294967295])
        { opcode := Instr_Pick, length := 1, immediate := 0 }).map
      (fun c => (c.state, c.sp, live_stack c)) = some (Cpu_Running, 1, [7, 4294967295]) ∧
    (fun c : cpu_t => (c.state, c.sp, live_stack c))
      (Asmexp.sr_Pick P0 9 (sample_stack [7, 4294967295])
        { opcode := Instr_Pick, length := 1, immediate := 0 }).1 =
      (Cpu_Running, 1, [7, 4294967295]) := by
  refine ⟨⟨?_, ?_, ?_⟩, ⟨?_, ?_, ?_, ?_⟩, ⟨?_, ?_, ?_, ?_⟩, ?_, ?_⟩ <;> decide

/-! ## C15: no push after a failed pop or pick -/

/-- C15 at its failing input: the `Pick` instruction on the one-entry stack
`[5]` pops 5, which leaves the stack empty (`sp = -1`); `pick` then fails and
sets `Break`, and the `push` of the same statement still runs: the instruction
ends with `sp = 0` and the stack `[0]`, in the `switch` and in `sr_Pick`
alike. -/
theorem C15_pick_pushes_after_failure :
    (fun c : cpu_t => (c.state, c.sp, live_stack c)) (pop (sample_stack [5])).2 =
      (Cpu_Running, -1, []) ∧
    (pick P0 (pop (sample_stack [5])).2 (toInt32 (pop (sample_stack [5])).1)).2.state =
      Cpu_Break ∧
    (Switched.execute P0 (sample_stack [5])
        { opcode := Instr_Pick, length := 1, immediate := 0 }).map
      (fun c => (c.state, c.sp, live_stack c)) = some (Cpu_Break, 0, [0]) ∧
    (fun c : cpu_t => (c.state, c.sp, live_stack c))
      (Asmexp.sr_Pick P0 9 (sample_stack [5])
        { opcode := Instr_Pick, length := 1, immediate := 0 }).1 = (Cpu_Break, 0, [0]) := by
  refine ⟨?_, ?_, ?_, ?_⟩ <;> decide

theorem toInt32_range (w : Nat) : -2 ^ 31 ≤ toInt32 w ∧ toInt32 w < 2 ^ 31 := by
  unfold toInt32
  split_ifs <;> omega

theorem toInt32_congr (w : Nat) : (toInt32 w - (w : Int)) % 2 ^ 32 = 0 := by
  unfold toInt32
  split_ifs <;> omega

/-! ## C16: decoding the two-cell instructions -/

/-- C16: let the raw instruction be `Push`, `JNE`, `JE` or `Jump` and let
`pc + 1` not wrap around in `uint32_t`.  If `pc + 1 ≥ PROGRAM_SIZE`, `decode`
returns `Break` with length 1.  Otherwise it returns the same opcode with
length 2 and, as immediate, the signed 32-bit reading of the cell at `pc + 1`:
the integer in `[-2 ^ 31, 2 ^ 31)` congruent to the cell modulo `2 ^ 32`.  So
when that cell encodes a `v` in `[-2 ^ 31, 2 ^ 31)`, the decoded immediate is
`v`. -/
theorem C16_decode_two_cell (P : Params) (raw : Nat) (c : cpu_t)
    (hraw : raw = Instr_Push ∨ raw = Instr_JNE ∨ raw = Instr_JE ∨ raw = Instr_Jump)
    (hpc : c.pc + 1 < 2 ^ 32) :
    (P.PROGRAM_SIZE ≤ c.pc + 1 →
      decode P raw c = { opcode := Instr_Break, length := 1, immediate := 0 }) ∧
    (c.pc + 1 < P.PROGRAM_SIZE →
      decode P raw c =
        { opcode := raw, length := 2, immediate := toInt32 (c.pmem (c.pc + 1)) } ∧
      -2 ^ 31 ≤ (decode P raw c).immediate ∧ (decode P raw c).immediate < 2 ^ 31 ∧
      ((decode P raw c).immediate - (c.pmem (c.pc + 1) : Int)) % 2 ^ 32 = 0 ∧
      ∀ v : Int, -2 ^ 31 ≤ v → v < 2 ^ 31 → c.pmem (c.pc + 1) = encode_imm v →
        decode P raw c = { opcode := raw, length := 2, immediate := v }) := by
  have hmod : (c.pc + 1) % 2 ^ 32 = c.pc + 1 := Nat.mod_eq_of_lt hpc
  have h1 : ¬ (raw = Instr_Nop ∨ raw = Instr_Halt ∨ raw = Instr_Print
      ∨ raw = Instr_Swap ∨ raw = Instr_Dup ∨ raw = Instr_Inc
      ∨ raw = Instr_Add ∨ raw = Instr_Sub ∨ raw = Instr_Mul
      ∨ raw = Instr_Rand ∨ raw = Instr_Dec ∨ raw = Instr_Drop
      ∨ raw = Instr_Over ∨ raw = Instr_Mod ∨ raw = Instr_And
      ∨ raw = Instr_Or ∨ raw = Instr_Xor ∨ raw = Instr_SHL
      ∨ raw = Instr_SHR ∨ raw = Instr_Rot ∨ raw = Instr_SQRT
      ∨ raw = Instr_Pick) := by
    simp only [Instr_Break, Instr_Nop, Instr_Halt, Instr_Push,
      Instr_Print, Instr_JNE, Instr_Swap, Instr_Dup, Instr_JE, Instr_Inc, Instr_Add, Instr_Sub,
      Instr_Mul, Instr_Rand, Instr_Dec, Instr_Drop, Instr_Over, Instr_Mod, Instr_Jump, Instr_And,
      Instr_Or, Instr_Xor, Instr_SHL, Instr_SHR, Instr_SQRT, Instr_Rot, Instr_Pick] at hraw ⊢
    omega
  constructor
  · intro h
    unfold decode
    rw [if_neg h1, if_pos hraw, hmod, if_pos (by omega)]
  · intro h
    have e : decode P raw c =
        { opcode := raw, length := 2, immediate := toInt32 (c.pmem (c.pc + 1)) } := by
      unfold decode
      rw [if_neg h1, if_pos hraw, hmod, if_neg (by omega)]
    rw [e]
    refine ⟨rfl, (toInt32_range _).1, (toInt32_range _).2, toInt32_congr _, ?_⟩
    intro v hv1 hv2 hcell
    rw [hcell, encode_imm, toInt32_wrap32 v hv1 hv2]

/-- Instance of `C16_decode_two_cell`: the cells `Push -7` at address 0 of a
memory of 512 cells, and a `Push` in the last cell of the memory. -/
theorem C16_decode_two_cell_witness :
    decode P0 Instr_Push (init_cpu (program [Instr_Push, encode_imm (-7)]) (fun _ => 0)) =
      { opcode := Instr_Push, length := 2, immediate := -7 } ∧
    decode P0 Instr_Push { sample_cpu 0 with pc := 511 } =
      { opcode := Instr_Break, length := 1, immediate := 0 } :=
  ⟨((C16_decode_two_cell P0 Instr_Push
        (init_cpu (program [Instr_Push, encode_imm (-7)]) (fun _ => 0))
        (Or.inl rfl) (by decide)).2 (by decide)).2.2.2.2 (-7) (by decide) (by decide) rfl,
   (C16_decode_two_cell P0 Instr_Push { sample_cpu 0 with pc := 511 }
        (Or.inl rfl) (by decide)).1 (by decide)⟩

/-! ## C17: the decoded opcode is in the closed set -/

/-- C17: a raw cell above 26, the last opcode number of the closed set
`0 .. 26`, decodes as `Break` with length 1.  For every raw cell the decoded
opcode is at most 26, so the `switch` of `switched.c` does not reach its
`default` branch on it, and `service_routines`, a table of 27 entries, has an
entry at that index. -/
theorem C17_decode_closed (P : Params) (raw : Nat) (c c1 : cpu_t) :
    (26 < raw → decode P raw c = { opcode := Instr_Break, length := 1, immediate := 0 }) ∧
    (decode P raw c).opcode ≤ 26 ∧
    (∃ c', Switched.execute P c1 (decode P raw c) = some c') ∧
    Asmexp.service_routines.length = 27 ∧
    (decode P raw c).opcode < Asmexp.service_routines.length ∧
    (∃ sr, Asmexp.service_routines[(decode P raw c).opcode]? = some sr) := by
  have hle := decode_opcode_le P raw c
  refine ⟨?_, hle, execute_isSome P c1 _ hle, rfl, ?_, sr_lookup _ hle⟩
  · intro h
    unfold decode
    simp only [Instr_Break, Instr_Nop, Instr_Halt, Instr_Push,
      Instr_Print, Instr_JNE, Instr_Swap, Instr_Dup, Instr_JE, Instr_Inc, Instr_Add, Instr_Sub,
      Instr_Mul, Instr_Rand, Instr_Dec, Instr_Drop, Instr_Over, Instr_Mod, Instr_Jump, Instr_And,
      Instr_Or, Instr_Xor, Instr_SHL, Instr_SHR, Instr_SQRT, Instr_Rot, Instr_Pick]
    rw [if_neg (by omega), if_neg (by omega)]
  · show (decode P raw c).opcode < 27
    omega

/-- Instance of `C17_decode_closed`: the raw cell 27. -/
theorem C17_decode_closed_witness :
    decode P0 27 (sample_cpu 0) = { opcode := Instr_Break, length := 1, immediate := 0 } :=
  (C17_decode_closed P0 27 (sample_cpu 0) (sample_cpu 0)).1 (by decide)

theorem loop_bail (P : Params) (L f : Nat) (c c' : cpu_t) (hc : c.state = Cpu_Running)
    (hs : c.steps < L) (hb : Switched.body P c = some (c', false)) :
    Switched.loop P L (f + 1) c = some c' := by
  simp [Switched.loop, hc, hs, hb]

/-- From a running record with `pc` out of range and budget left, the loop
stops at the fetch with only the state changed, and the chain of service
routines runs the routine of `Break` on the `Break` decoding. -/
theorem run_pc_out_of_range (P : Params) (L f : Nat) (c : cpu_t) (hc : c.state = Cpu_Running)
    (hs : c.steps < L) (hpc : P.PROGRAM_SIZE ≤ c.pc) :
    Switched.loop P L (f + 1) c = some { c with state := Cpu_Break } ∧
    Asmexp.DISPATCH P L (f + 1) (fetch_decode P c).2 (fetch_decode P c).1 =
      some (advance { c with state := Cpu_Break }
        { opcode := Instr_Break, length := 1, immediate := 0 }) := by
  constructor
  · rcases body_cases P c hc with ⟨_, hb⟩ | ⟨h, _⟩
    · exact loop_bail P L f c _ hc hs hb
    · omega
  · rcases fetch_decode_cases P c with ⟨h, _⟩ | ⟨_, hfd⟩
    · omega
    · rw [hfd]
      simp only [Asmexp.DISPATCH, Asmexp.service_routines, Instr_Break,
        List.getElem?_cons_zero, Asmexp.srv_Break]

/-- The run of `Push 0; JE 10` in the central loop, in a program memory of 4
to 14 cells. -/
theorem switched_jump_out (P : Params) (N : Nat) (hN : 3 ≤ N)
    (hP : 4 ≤ P.PROGRAM_SIZE) (hP' : P.PROGRAM_SIZE ≤ 14) (hS : 1 ≤ P.STACK_CAPACITY)
    (stack0 : Nat → Nat) :
    Switched.main P N (init_cpu (program [Instr_Push, 0, Instr_JE, 10]) stack0) =
      some { pc := 14, sp := -1, state := Cpu_Break, steps := 2,
             stack := Function.update stack0 0 0,
             pmem := program [Instr_Push, 0, Instr_JE, 10], out := [], nrand := 0, oob := false } := by
  obtain ⟨n, rfl⟩ : ∃ n, N = n + 3 := ⟨N - 3, by omega⟩
  have hp1 : 1 < P.PROGRAM_SIZE := by omega
  have hp2 : 2 < P.PROGRAM_SIZE := by omega
  have hp3 : 3 < P.PROGRAM_SIZE := by omega
  have hs0 : (0 : Int) < (P.STACK_CAPACITY : Int) := by omega
  have b1 : Switched.body P (init_cpu (program [Instr_Push, 0, Instr_JE, 10]) stack0) =
      some ({ pc := 2, sp := 0, state := Cpu_Running, steps := 1,
              stack := Function.update stack0 0 0,
              pmem := program [Instr_Push, 0, Instr_JE, 10], out := [], nrand := 0, oob := false }, true) := by
    rw [body_eq P _ rfl (by simp [init_cpu]; omega)]
    simp [decode, program, Switched.execute, init_cpu, hp1, toInt32]
    rw [push_eq P _ _ 0 (by simp) hs0]
    simp [advance, wrap32]
  have b2 : Switched.body P
        { pc := 2, sp := 0, state := Cpu_Running, steps := 1,
          stack := Function.update stack0 0 0,
          pmem := program [Instr_Push, 0, Instr_JE, 10], out := [], nrand := 0, oob := false } =
      some ({ pc := 14, sp := -1, state := Cpu_Running, steps := 2,
              stack := Function.update stack0 0 0,
              pmem := program [Instr_Push, 0, Instr_JE, 10], out := [], nrand := 0, oob := false }, true) := by
    rw [body_eq P _ rfl hp2]
    simp [decode, program, Switched.execute, pop, jump, advance, wrap32, hp3, toInt32]
  apply main_of_loop
  · rw [loop_succ P _ _ _ _ rfl (by simp [init_cpu]) b1,
      loop_succ P _ _ _ _ rfl (by simp) b2]
    exact (run_pc_out_of_range P _ n _ rfl (by simp) (by simpa using hP')).1
  · exact Or.inl (by simp)

/-! ## C18: `fetch_decode` -/

/-- C18: for every record, `fetch_decode` leaves `pc`, `sp`, the stack array,
`steps`, the program memory and the output unchanged.  With `pc` in range it
leaves the whole record unchanged and decodes the cell at `pc`.  With
`pc ≥ PROGRAM_SIZE` it sets `state = Break` and returns the `Break` decoding of
length 1, whatever the program memory holds.  Hence a running record with `pc`
out of range and budget left ends in `Break` at the next fetch, in the loop and
in the chain alike; and in a program memory of 4 to 14 cells the run of
`Push 0; JE 10` with a budget of at least 3 leaves `pc = 14` out of range and
ends in `Break` in both strategies (the chain with its assembly routines as
modelled from the spec). -/
theorem C18_fetch_decode (P : Params) (c : cpu_t) :
    ((fetch_decode P c).2.pc = c.pc ∧ (fetch_decode P c).2.sp = c.sp ∧
      (fetch_decode P c).2.stack = c.stack ∧ (fetch_decode P c).2.steps = c.steps ∧
      (fetch_decode P c).2.pmem = c.pmem ∧ (fetch_decode P c).2.out = c.out) ∧
    (c.pc < P.PROGRAM_SIZE →
      (fetch_decode P c).2 = c ∧ (fetch_decode P c).1 = decode P (c.pmem c.pc) c) ∧
    (P.PROGRAM_SIZE ≤ c.pc →
      fetch_decode P c =
        ({ opcode := Instr_Break, length := 1, immediate := 0 }, { c with state := Cpu_Break }) ∧
      ∀ m : Nat → Nat, (fetch_decode P { c with pmem := m }).1 =
        { opcode := Instr_Break, length := 1, immediate := 0 }) ∧
    (∀ L f : Nat, c.state = Cpu_Running → c.steps < L → P.PROGRAM_SIZE ≤ c.pc →
      ∃ a b, Switched.loop P L (f + 1) c = some a ∧ a.state = Cpu_Break ∧
        Asmexp.DISPATCH P L (f + 1) (fetch_decode P c).2 (fetch_decode P c).1 = some b ∧
        b.state = Cpu_Break) ∧
    (∀ (N : Nat) (stack0 : Nat → Nat), 3 ≤ N → N < 2 ^ 64 → 4 ≤ P.PROGRAM_SIZE →
      P.PROGRAM_SIZE ≤ 14 → 1 ≤ P.STACK_CAPACITY →
      ∃ a b, Switched.main P N (init_cpu (program [Instr_Push, 0, Instr_JE, 10]) stack0) = some a ∧
        a.state = Cpu_Break ∧ P.PROGRAM_SIZE ≤ a.pc ∧
        Asmexp.main P N (program [Instr_Push, 0, Instr_JE, 10]) stack0 = some b ∧
        b.state = Cpu_Break) := by
  refine ⟨?_, ?_, ?_, ?_, ?_⟩
  · rcases fetch_decode_cases P c with ⟨_, e⟩ | ⟨_, e⟩ <;> rw [e] <;>
      exact ⟨rfl, rfl, rfl, rfl, rfl, rfl⟩
  · intro h
    rcases fetch_decode_cases P c with ⟨_, e⟩ | ⟨h', _⟩
    · rw [e]
      exact ⟨rfl, rfl⟩
    · exact absurd h h'
  · intro h
    refine ⟨?_, ?_⟩
    · rcases fetch_decode_cases P c with ⟨h', _⟩ | ⟨_, e⟩
      · omega
      · exact e
    · intro m
      rcases fetch_decode_cases P { c with pmem := m } with ⟨h', _⟩ | ⟨_, e⟩
      · exact absurd h' (by simpa using h)
      · rw [e]
  · intro L f hc hs hpc
    obtain ⟨h1, h2⟩ := run_pc_out_of_range P L f c hc hs hpc
    exact ⟨_, _, h1, rfl, h2, rfl⟩
  · intro N stack0 hN hN64 hP hP' hS
    have ha := switched_jump_out P N hN hP hP' hS stack0
    obtain ⟨a, b, ha', hb, hst, _⟩ := main_agree P N (by omega) hN64
      (program [Instr_Push, 0, Instr_JE, 10]) stack0
    rw [ha] at ha'
    injection ha' with ha'
    subst ha'
    exact ⟨_, b, ha, rfl, hP', hb, hst.symm⟩

/-- Instance of `C18_fetch_decode`: a record with `pc = 600` in a program
memory of 512 cells, and the run of `Push 0; JE 10` with budget 5 in a program
memory of 8 cells. -/
theorem C18_fetch_decode_witness :
    (fetch_decode P0 { sample_cpu 0 with pc := 600 } =
      ({ opcode := Instr_Break, length := 1, immediate := 0 },
       { sample_cpu 0 with pc := 600, state := Cpu_Break })) ∧
    (∃ a b, Switched.main { P0 with PROGRAM_SIZE := 8 } 5
        (init_cpu (program [Instr_Push, 0, Instr_JE, 10]) (fun _ => 0)) = some a ∧
      a.state = Cpu_Break ∧ ({ P0 with PROGRAM_SIZE := 8 } : Params).PROGRAM_SIZE ≤ a.pc ∧
      Asmexp.main { P0 with PROGRAM_SIZE := 8 } 5
        (program [Instr_Push, 0, Instr_JE, 10]) (fun _ => 0) = some b ∧
      b.state = Cpu_Break) :=
  ⟨((C18_fetch_decode P0 { sample_cpu 0 with pc := 600 }).2.2.1 (by decide)).1,
   (C18_fetch_decode { P0 with PROGRAM_SIZE := 8 } (sample_cpu 0)).2.2.2.2 5 (fun _ => 0)
     (by decide) (by decide) (by decide) (by decide) (by decide)⟩

theorem decode_halt (P : Params) (c : cpu_t) :
    decode P Instr_Halt c = { opcode := Instr_Halt, length := 1, immediate := 0 } := by
  simp [decode]

theorem decode_unrecognised (P : Params) (raw : Nat) (c : cpu_t) (h : 26 < raw) :
    decode P raw c = { opcode := Instr_Break, length := 1, immediate := 0 } := by
  unfold decode
  simp only [Instr_Break, Instr_Nop, Instr_Halt, Instr_Push,
    Instr_Print, Instr_JNE, Instr_Swap, Instr_Dup, Instr_JE, Instr_Inc, Instr_Add, Instr_Sub,
    Instr_Mul, Instr_Rand, Instr_Dec, Instr_Drop, Instr_Over, Instr_Mod, Instr_Jump, Instr_And,
    Instr_Or, Instr_Xor, Instr_SHL, Instr_SHR, Instr_SQRT, Instr_Rot, Instr_Pick]
  rw [if_neg (by omega), if_neg (by omega)]

theorem advance_one (c : cpu_t) (d : decode_t) (hd : d.length = 1) (hpc : c.pc + 1 < 2 ^ 32)
    (hs : c.steps + 1 < 2 ^ 64) :
    advance c d = { c with pc := c.pc + 1, steps := c.steps + 1 } := by
  unfold advance
  rw [hd, Nat.mod_eq_of_lt hs]
  have : wrap32 ((c.pc : Int) + 1) = c.pc + 1 := by
    unfold wrap32
    omega
  rw [this]

/-- A cycle on `Halt`, from a running record with budget left, in the loop and
in the chain. -/
theorem run_halt (P : Params) (L f : Nat) (c : cpu_t) (hL : L < 2 ^ 64)
    (hrun : c.state = Cpu_Running) (hpc : c.pc < P.PROGRAM_SIZE) (hpc32 : c.pc + 1 < 2 ^ 32)
    (hs : c.steps < L) (hcell : c.pmem c.pc = Instr_Halt) :
    Switched.loop P L (f + 1) c =
      some { c with state := Cpu_Halted, pc := c.pc + 1, steps := c.steps + 1 } ∧
    Asmexp.DISPATCH P L (f + 1) (fetch_decode P c).2 (fetch_decode P c).1 =
      some { c with state := Cpu_Halted, pc := c.pc + 1, steps := c.steps + 1 } := by
  have hb : Switched.body P c =
      some ({ c with state := Cpu_Halted, pc := c.pc + 1, steps := c.steps + 1 }, true) := by
    rw [body_eq P c hrun hpc, hcell, decode_halt]
    simp only [Switched.execute, Instr_Nop, Instr_Halt, Nat.reduceEqDiff, reduceIte,
      Option.map_some']
    rw [advance_one { c with state := Cpu_Halted }
      { opcode := Instr_Halt, length := 1, immediate := 0 } rfl hpc32
      (by show c.steps + 1 < 2 ^ 64; omega)]
  constructor
  · rw [loop_succ P L f c _ hrun hs hb]
    exact loop_stop P L f _ (by simp)
  · rcases fetch_decode_cases P c with ⟨_, hfd⟩ | ⟨h, _⟩
    · rw [hfd, hcell, decode_halt]
      simp only [Asmexp.DISPATCH, Asmexp.service_routines, Instr_Halt,
        List.getElem?_cons_zero, List.getElem?_cons_succ, Asmexp.srv_Halt]
      rw [advance_one { c with state := Cpu_Halted }
      { opcode := Instr_Halt, length := 1, immediate := 0 } rfl hpc32
      (by show c.steps + 1 < 2 ^ 64; omega)]
    · exact absurd hpc h

/-- A cycle on `Break` or on an unrecognised opcode, from a running record with
budget left, in the loop and in the chain. -/
theorem run_break (P : Params) (L f : Nat) (c : cpu_t) (hL : L < 2 ^ 64)
    (hrun : c.state = Cpu_Running) (hpc : c.pc < P.PROGRAM_SIZE) (hpc32 : c.pc + 1 < 2 ^ 32)
    (hs : c.steps < L) (hcell : c.pmem c.pc = Instr_Break ∨ 26 < c.pmem c.pc) :
    Switched.loop P L (f + 1) c =
      some { c with state := Cpu_Break, pc := c.pc + 1, steps := c.steps + 1 } ∧
    Asmexp.DISPATCH P L (f + 1) (fetch_decode P c).2 (fetch_decode P c).1 =
      some { c with state := Cpu_Break, pc := c.pc + 1, steps := c.steps + 1 } := by
  have hd : decode P (c.pmem c.pc) c =
      { opcode := Instr_Break, length := 1, immediate := 0 } := by
    rcases hcell with h | h
    · rw [h, decode_break]
    · exact decode_unrecognised P _ c h
  have hb : Switched.body P c =
      some ({ c with state := Cpu_Break, pc := c.pc + 1, steps := c.steps + 1 }, true) := by
    rw [body_eq P c hrun hpc, hd]
    simp only [Switched.execute, Instr_Break, Instr_Nop, Instr_Halt, Instr_Push,
      Instr_Print, Instr_JNE, Instr_Swap, Instr_Dup, Instr_JE, Instr_Inc, Instr_Add, Instr_Sub,
      Instr_Mul, Instr_Rand, Instr_Dec, Instr_Drop, Instr_Over, Instr_Mod, Instr_Jump, Instr_And,
      Instr_Or, Instr_Xor, Instr_SHL, Instr_SHR, Instr_SQRT, Instr_Rot, Instr_Pick,
      Nat.reduceEqDiff, OfNat.ofNat_ne_zero, OfNat.zero_ne_ofNat, reduceIte, if_true, if_false,
      Option.map_some']
    rw [advance_one { c with state := Cpu_Break }
      { opcode := Instr_Break, length := 1, immediate := 0 } rfl hpc32
      (by show c.steps + 1 < 2 ^ 64; omega)]
  constructor
  · rw [loop_succ P L f c _ hrun hs hb]
    exact loop_stop P L f _ (by simp)
  · rcases fetch_decode_cases P c with ⟨_, hfd⟩ | ⟨h, _⟩
    · rw [hfd, hd]
      simp only [Asmexp.DISPATCH, Asmexp.service_routines, Instr_Break,
        List.getElem?_cons_zero, Asmexp.srv_Break]
      rw [advance_one { c with state := Cpu_Break }
      { opcode := Instr_Break, length := 1, immediate := 0 } rfl hpc32
      (by show c.steps + 1 < 2 ^ 64; omega)]
    · exact absurd hpc h

/-! ## C19: `Halt`, `Break` and unrecognised opcodes -/

/-- C19: let the record be `Running` at `pc = p` inside a program memory of
fewer than `2 ^ 32` cells, with `steps = s` below the budget.  If the cell at
`p` is `Halt`, the run of the loop of `switched.c` and the run of the chain of
`asmexp.c` from this record both return the record with `state = Halted`,
`pc = p + 1` and `steps = s + 1` and everything else, `sp` and the stack array
included, unchanged, however many further passes or calls the bound `f` would
allow.  If the cell is `Break` or is not an opcode of the closed set, the same
holds with `state = Break`.  The table holds `srv_Halt` and `srv_Break` for
these two opcodes; as modelled from the spec they never go on to the next
instruction, and neither do the C routines `sr_Halt` and `sr_Break`. -/
theorem C19_halt_break (P : Params) (L f : Nat) (c : cpu_t) (hL : L < 2 ^ 64)
    (hPS : P.PROGRAM_SIZE < 2 ^ 32) (hrun : c.state = Cpu_Running)
    (hpc : c.pc < P.PROGRAM_SIZE) (hs : c.steps < L) :
    (c.pmem c.pc = Instr_Halt →
      Switched.loop P L (f + 1) c =
        some { c with state := Cpu_Halted, pc := c.pc + 1, steps := c.steps + 1 } ∧
      Asmexp.DISPATCH P L (f + 1) (fetch_decode P c).2 (fetch_decode P c).1 =
        some { c with state := Cpu_Halted, pc := c.pc + 1, steps := c.steps + 1 }) ∧
    (c.pmem c.pc = Instr_Break ∨ 26 < c.pmem c.pc →
      Switched.loop P L (f + 1) c =
        some { c with state := Cpu_Break, pc := c.pc + 1, steps := c.steps + 1 } ∧
      Asmexp.DISPATCH P L (f + 1) (fetch_decode P c).2 (fetch_decode P c).1 =
        some { c with state := Cpu_Break, pc := c.pc + 1, steps := c.steps + 1 }) ∧
    Asmexp.service_routines[Instr_Halt]? = some Asmexp.srv_Halt ∧
    Asmexp.service_routines[Instr_Break]? = some Asmexp.srv_Break ∧
    (∀ (x : cpu_t) (d : decode_t),
      (Asmexp.srv_Halt P L x d).2 = false ∧ (Asmexp.srv_Break P L x d).2 = false ∧
      (Asmexp.sr_Halt P L x d).2 = false ∧ (Asmexp.sr_Break P L x d).2 = false) :=
  ⟨fun h => run_halt P L f c hL hrun hpc (by omega) hs h,
   fun h => run_break P L f c hL hrun hpc (by omega) hs h,
   rfl, rfl, fun _ _ => ⟨rfl, rfl, rfl, rfl⟩⟩

/-- Instance of `C19_halt_break`: the program `Nop; Halt` entered at `pc = 1`
with one step done and budget 9, and the unrecognised cell 99 at `pc = 0`. -/
theorem C19_halt_break_witness :
    (Switched.loop P0 9 (3 + 1) { init_cpu (program [Instr_Nop, Instr_Halt]) (fun _ => 0) with
                                  pc := 1, steps := 1 } =
        some { init_cpu (program [Instr_Nop, Instr_Halt]) (fun _ => 0) with
               state := Cpu_Halted, pc := 1 + 1, steps := 1 + 1 } ∧
      Asmexp.DISPATCH P0 9 (3 + 1)
        (fetch_decode P0 { init_cpu (program [Instr_Nop, Instr_Halt]) (fun _ => 0) with
                           pc := 1, steps := 1 }).2
        (fetch_decode P0 { init_cpu (program [Instr_Nop, Instr_Halt]) (fun _ => 0) with
                           pc := 1, steps := 1 }).1 =
        some { init_cpu (program [Instr_Nop, Instr_Halt]) (fun _ => 0) with
               state := Cpu_Halted, pc := 1 + 1, steps := 1 + 1 }) ∧
    (Switched.loop P0 9 (3 + 1) (init_cpu (program [99]) (fun _ => 0)) =
        some { init_cpu (program [99]) (fun _ => 0) with
               state := Cpu_Break, pc := 0 + 1, steps := 0 + 1 } ∧
      Asmexp.DISPATCH P0 9 (3 + 1)
        (fetch_decode P0 (init_cpu (program [99]) (fun _ => 0))).2
        (fetch_decode P0 (init_cpu (program [99]) (fun _ => 0))).1 =
        some { init_cpu (program [99]) (fun _ => 0) with
               state := Cpu_Break, pc := 0 + 1, steps := 0 + 1 }) :=
  ⟨(C19_halt_break P0 9 3 { init_cpu (program [Instr_Nop, Instr_Halt]) (fun _ => 0) with
                            pc := 1, steps := 1 }
      (by decide) (by decide) rfl (by decide) (by decide)).1 (by decide),
   (C19_halt_break P0 9 3 (init_cpu (program [99]) (fun _ => 0))
      (by decide) (by decide) rfl (by decide) (by decide)).2.1 (Or.inr (by decide))⟩

theorem st_push (P : Params) (c x : cpu_t) (v : Nat)
    (h : x.state = c.state ∨ x.state = Cpu_Break) :
    (push P x v).state = c.state ∨ (push P x v).state = Cpu_Break := by
  unfold push
  split_ifs
  · exact Or.inr rfl
  · exact h

theorem st_pop (c x : cpu_t) (h : x.state = c.state ∨ x.state = Cpu_Break) :
    (pop x).2.state = c.state ∨ (pop x).2.state = Cpu_Break := by
  unfold pop
  split_ifs
  · exact Or.inr rfl
  · exact h

theorem st_pick (P : Params) (c x : cpu_t) (pos : Int)
    (h : x.state = c.state ∨ x.state = Cpu_Break) :
    (pick P x pos).2.state = c.state ∨ (pick P x pos).2.state = Cpu_Break := by
  unfold pick
  split_ifs
  · exact Or.inr rfl
  · exact h
  · exact h

/-- State after the `switch`: unchanged, or `Break`, or `Halted` on `Halt`. -/
theorem execute_state (P : Params) (c c' : cpu_t) (d : decode_t)
    (h : Switched.execute P c d = some c') :
    c'.state = c.state ∨ c'.state = Cpu_Break ∨
      (d.opcode = Instr_Halt ∧ c'.state = Cpu_Halted) := by
  by_cases h26 : d.opcode ≤ 26
  · obtain ⟨op, len, imm⟩ := d
    simp only at h26
    have key : ∀ x : cpu_t, (x.state = c.state ∨ x.state = Cpu_Break) →
        x.state = c.state ∨ x.state = Cpu_Break ∨
          (op = Instr_Halt ∧ x.state = Cpu_Halted) :=
      fun x hx => hx.elim Or.inl (fun h => Or.inr (Or.inl h))
    interval_cases op
    all_goals simp only [Switched.execute, Instr_Break, Instr_Nop, Instr_Halt, Instr_Push,
      Instr_Print, Instr_JNE, Instr_Swap, Instr_Dup, Instr_JE, Instr_Inc, Instr_Add, Instr_Sub,
      Instr_Mul, Instr_Rand, Instr_Dec, Instr_Drop, Instr_Over, Instr_Mod, Instr_Jump, Instr_And,
      Instr_Or, Instr_Xor, Instr_SHL, Instr_SHR, Instr_SQRT, Instr_Rot, Instr_Pick,
      Nat.reduceEqDiff, OfNat.ofNat_ne_zero, OfNat.zero_ne_ofNat, reduceIte, if_true, if_false] at h
    all_goals first
      | (injection h with h; subst h; exact Or.inr (Or.inl rfl))
      | (injection h with h; subst h; exact Or.inr (Or.inr ⟨rfl, rfl⟩))
      | (injection h with h; subst h; apply key
         repeat (first | exact Or.inl rfl | apply st_push | apply st_pop | apply st_pick))
      | (split_ifs at h <;> injection h with h <;> subst h <;> apply key <;>
         first
          | exact Or.inr rfl
          | (dsimp only [jump]
             repeat (first | exact Or.inl rfl | apply st_push | apply st_pop | apply st_pick)))
  · rw [execute_eq_none P c d (by omega)] at h
    cases h

theorem ADVANCE_PC_flag (L : Nat) (c : cpu_t) (d : decode_t)
    (h : (Asmexp.ADVANCE_PC L c d).2 = true) :
    (Asmexp.ADVANCE_PC L c d).1.state = Cpu_Running ∧ (Asmexp.ADVANCE_PC L c d).1.steps < L := by
  unfold Asmexp.ADVANCE_PC at h ⊢
  dsimp only at h ⊢
  split_ifs at h ⊢ with h1
  rw [not_or, not_not] at h1
  exact ⟨h1.1, by show (advance c d).steps < L; omega⟩

/-- A service routine goes on to the next instruction only with the record
`Running` and `steps` below the budget. -/
theorem sr_flag (P : Params) (L : Nat) (c : cpu_t) (d : decode_t) (op : Nat)
    (sr : Params → ℕ → cpu_t → decode_t → cpu_t × Bool)
    (hsr : Asmexp.service_routines[op]? = some sr) (h : (sr P L c d).2 = true) :
    (sr P L c d).1.state = Cpu_Running ∧ (sr P L c d).1.steps < L := by
  have hop : op ≤ 26 := by
    by_contra hgt
    have : Asmexp.service_routines[op]? = none := by
      apply List.getElem?_eq_none
      show 27 ≤ op
      omega
    rw [this] at hsr
    cases hsr
  interval_cases op
  all_goals simp only [Asmexp.service_routines, List.getElem?_cons_zero, List.getElem?_cons_succ,
    Option.some.injEq] at hsr
  all_goals subst hsr
  all_goals simp only [Asmexp.sr_Break, Asmexp.sr_Nop, Asmexp.sr_Halt, Asmexp.sr_Push,
    Asmexp.sr_Print, Asmexp.sr_Jne, Asmexp.sr_Swap, Asmexp.sr_Dup, Asmexp.sr_Je, Asmexp.sr_Inc,
    Asmexp.sr_Add, Asmexp.sr_Sub, Asmexp.sr_Mul, Asmexp.sr_Rand, Asmexp.sr_Dec,
    Asmexp.sr_Drop, Asmexp.sr_Over, Asmexp.sr_Mod, Asmexp.sr_Jump,
    Asmexp.sr_And, Asmexp.sr_Or, Asmexp.sr_Xor, Asmexp.sr_SHL, Asmexp.sr_SHR,
    Asmexp.sr_SQRT, Asmexp.sr_Rot, Asmexp.sr_Pick,
    Asmexp.srv_Break, Asmexp.srv_Nop, Asmexp.srv_Halt, Asmexp.srv_Push, Asmexp.srv_Print,
    Asmexp.srv_Swap, Asmexp.srv_Dup, Asmexp.srv_Je, Asmexp.srv_Inc, Asmexp.srv_Sub,
    Asmexp.srv_Drop, Asmexp.srv_Over, Asmexp.srv_Mod, Asmexp.srv_Jump] at h ⊢
  all_goals first
    | exact ADVANCE_PC_flag L _ d h
    | exact absurd h Bool.false_ne_true
    | (split_ifs at h ⊢ <;> exact ADVANCE_PC_flag L _ d h)

/-- State after a service routine: unchanged, or `Break`, or `Halted` for the
routine of `Halt`. -/
theorem sr_state (P : Params) (L : Nat) (c : cpu_t) (d : decode_t) (op : Nat)
    (sr : Params → ℕ → cpu_t → decode_t → cpu_t × Bool)
    (hsr : Asmexp.service_routines[op]? = some sr) :
    (sr P L c d).1.state = c.state ∨ (sr P L c d).1.state = Cpu_Break ∨
      (op = Instr_Halt ∧ (sr P L c d).1.state = Cpu_Halted) := by
  have hop : op ≤ 26 := by
    by_contra hgt
    have : Asmexp.service_routines[op]? = none := by
      apply List.getElem?_eq_none
      show 27 ≤ op
      omega
    rw [this] at hsr
    cases hsr
  by_cases h2 : op = Instr_Halt
  · subst h2
    simp only [Asmexp.service_routines, List.getElem?_cons_zero, List.getElem?_cons_succ,
      Option.some.injEq] at hsr
    subst hsr
    exact Or.inr (Or.inr ⟨rfl, rfl⟩)
  have key : ∀ x : cpu_t, (x.state = c.state ∨ x.state = Cpu_Break) →
      x.state = c.state ∨ x.state = Cpu_Break ∨
        (op = Instr_Halt ∧ x.state = Cpu_Halted) :=
    fun x hx => hx.elim Or.inl (fun h => Or.inr (Or.inl h))
  apply key
  clear key
  interval_cases op
  all_goals simp only [Asmexp.service_routines, List.getElem?_cons_zero, List.getElem?_cons_succ,
    Option.some.injEq] at hsr
  all_goals subst hsr
  all_goals first
    | exact absurd rfl h2
    | unfold Asmexp.srv_Break | unfold Asmexp.srv_Nop | unfold Asmexp.srv_Push
    | unfold Asmexp.srv_Print | unfold Asmexp.sr_Jne | unfold Asmexp.srv_Swap
    | unfold Asmexp.srv_Dup | unfold Asmexp.srv_Je | unfold Asmexp.srv_Inc
    | unfold Asmexp.sr_Add | unfold Asmexp.srv_Sub | unfold Asmexp.sr_Mul
    | unfold Asmexp.sr_Rand | unfold Asmexp.sr_Dec | unfold Asmexp.srv_Drop
    | unfold Asmexp.srv_Over | unfold Asmexp.srv_Mod | unfold Asmexp.srv_Jump
    | unfold Asmexp.sr_And | unfold Asmexp.sr_Or | unfold Asmexp.sr_Xor
    | unfold Asmexp.sr_SHL | unfold Asmexp.sr_SHR | unfold Asmexp.sr_SQRT
    | unfold Asmexp.sr_Rot | unfold Asmexp.sr_Pick
  all_goals try dsimp only
  all_goals first
    | exact Or.inr rfl
    | (rw [ADVANCE_PC_fst]
       dsimp only [advance, jump]
       repeat (first | exact Or.inl rfl | apply st_push | apply st_pop | apply st_pick))
    | (split_ifs <;>
       first
        | exact Or.inr rfl
        | (dsimp only
           repeat (first | exact Or.inl rfl | apply st_push | apply st_pop | apply st_pick))
        | (rw [ADVANCE_PC_fst]
           dsimp only [advance, jump]
           repeat (first
             | exact Or.inl rfl | exact Or.inr rfl | apply st_push | apply st_pop
             | apply st_pick)))

/-- Value of the `switch` on `Halt`. -/
theorem exec_halt (P : Params) (c : cpu_t) (d : decode_t) (hd : d.opcode = Instr_Halt) :
    Switched.execute P c d = some { c with state := Cpu_Halted } := by
  obtain ⟨op, len, imm⟩ := d
  simp only at hd
  subst hd
  simp only [Switched.execute, Instr_Nop, Instr_Halt, Nat.reduceEqDiff, reduceIte]

theorem decode_opcode_halt (P : Params) (raw : Nat) (c : cpu_t)
    (h : (decode P raw c).opcode = Instr_Halt) : raw = Instr_Halt := by
  unfold decode at h
  split_ifs at h with h1 h2 h3 <;>
    simp only [Instr_Break, Instr_Push, Instr_JNE, Instr_JE, Instr_Jump, Instr_Halt] at * <;>
    omega

/-- A run of the loop that starts `Running` and ends `Halted` ends with a pass
on a `Halt` cell. -/
theorem loop_halted (P : Params) (L : Nat) (fuel : Nat) (x a : cpu_t)
    (hx : x.state = Cpu_Running) (hl : Switched.loop P L fuel x = some a)
    (ha : a.state = Cpu_Halted) :
    ∃ c, c.state = Cpu_Running ∧ c.pc < P.PROGRAM_SIZE ∧ c.pmem c.pc = Instr_Halt ∧
      a = advance { c with state := Cpu_Halted } (decode P (c.pmem c.pc) c) := by
  induction fuel generalizing x with
  | zero =>
    unfold Switched.loop at hl
    split_ifs at hl
    injection hl with hl
    rw [← hl, hx] at ha
    cases ha
  | succ n ih =>
    by_cases hcond : x.state = Cpu_Running ∧ x.steps < L
    · rcases body_cases P x hx with ⟨_, hb⟩ | ⟨hpc, c1, he, hb⟩
      · rw [loop_bail P L n x _ hx hcond.2 hb] at hl
        injection hl with hl
        rw [← hl] at ha
        cases ha
      · rw [loop_succ P L n x _ hx hcond.2 hb] at hl
        by_cases hr : c1.state = Cpu_Running
        · exact ih (advance c1 (decode P (x.pmem x.pc) x)) hr hl
        · rw [loop_stop P L n (advance c1 (decode P (x.pmem x.pc) x)) (fun h => hr h.1)] at hl
          injection hl with hl
          have hst : c1.state = Cpu_Halted := by rw [← hl] at ha; exact ha
          rcases execute_state P x c1 _ he with h | h | ⟨hop, _⟩
          · rw [h, hx] at hst
            cases hst
          · rw [h] at hst
            cases hst
          · rw [exec_halt P x _ hop] at he
            injection he with he
            exact ⟨x, hx, hpc, decode_opcode_halt P _ x hop, by rw [← hl, ← he]⟩
    · rw [loop_stop P L _ x hcond] at hl
      injection hl with hl
      rw [← hl, hx] at ha
      cases ha

/-- A run of the chain that starts on a `Running` record and ends `Halted` ends
with the routine of a `Halt` cell, `srv_Halt`. -/
theorem dispatch_halted (P : Params) (L : Nat) (fuel : Nat) (x b : cpu_t)
    (hx : x.state = Cpu_Running)
    (hl : Asmexp.DISPATCH P L fuel (fetch_decode P x).2 (fetch_decode P x).1 = some b)
    (hb : b.state = Cpu_Halted) :
    ∃ c, c.state = Cpu_Running ∧ c.pc < P.PROGRAM_SIZE ∧ c.pmem c.pc = Instr_Halt ∧
      b = advance { c with state := Cpu_Halted } (decode P (c.pmem c.pc) c) ∧
      b = (Asmexp.srv_Halt P L c (decode P (c.pmem c.pc) c)).1 := by
  induction fuel generalizing x with
  | zero =>
    unfold Asmexp.DISPATCH at hl
    cases hl
  | succ n ih =>
    rcases fetch_decode_cases P x with ⟨hpc, hfd⟩ | ⟨_, hfd⟩
    · have hle := decode_opcode_le P (x.pmem x.pc) x
      obtain ⟨sr, hsr⟩ := sr_lookup _ hle
      obtain ⟨c1, he, hcase⟩ := sr_execute P L x _ hle hx sr hsr
      rw [hfd] at hl
      rcases hcase with hadv | ⟨hbail, hbrk⟩
      · by_cases hstop : (advance c1 (decode P (x.pmem x.pc) x)).state ≠ Cpu_Running ∨
            (advance c1 (decode P (x.pmem x.pc) x)).steps ≥ L
        · simp only [Asmexp.DISPATCH, hsr, hadv, Asmexp.ADVANCE_PC, if_pos hstop] at hl
          injection hl with hl
          have hst : c1.state = Cpu_Halted := by rw [← hl] at hb; exact hb
          rcases execute_state P x c1 _ he with h | h | ⟨hop, _⟩
          · rw [h, hx] at hst
            cases hst
          · rw [h] at hst
            cases hst
          · rw [exec_halt P x _ hop] at he
            injection he with he
            refine ⟨x, hx, hpc, decode_opcode_halt P _ x hop, by rw [← hl, ← he], ?_⟩
            rw [← hl, ← he]
            rfl
        · have hstop' := hstop
          rw [not_or, not_not] at hstop'
          simp only [Asmexp.DISPATCH, hsr, hadv, Asmexp.ADVANCE_PC, if_neg hstop] at hl
          exact ih _ hstop'.1 hl
      · simp only [Asmexp.DISPATCH, hsr, hbail] at hl
        injection hl with hl
        rw [← hl, hbrk] at hb
        cases hb
    · rw [hfd] at hl
      simp only [Asmexp.DISPATCH, Asmexp.service_routines, Instr_Break,
        List.getElem?_cons_zero, Asmexp.srv_Break] at hl
      injection hl with hl
      rw [← hl] at hb
      cases hb

theorem main_some (P : Params) (L : Nat) (c a : cpu_t) (h : Switched.main P L c = some a) :
    Switched.loop P L L c = some a := by
  unfold Switched.main at h
  split at h
  · cases h
  · split_ifs at h
    exact h ▸ (by assumption)

/-! ## C20: the state machine -/

/-- C20: the state field follows the state machine in both strategies, where
the service routines of `asmexp.c` are the entries of its table: thirteen C
routines and fourteen assembly routines as modelled from the spec.  The
loop of `switched.c` started on a record that is `Halted` or `Break` returns
it unchanged, and a service routine of `asmexp.c` goes on to the next
instruction only with the record `Running`, so that no cycle starts from a
terminal state.  Neither the `switch`, nor `fetch_decode`, nor a service
routine yields `Running` from a record that is not `Running`.  From a `Running`
record the `switch` and the service routines yield `Halted` only on the opcode
`Halt`, which `decode` returns only for the raw cell `Halt`.  Hence a run from
the initial record that ends `Halted` ends with the cycle of a `Halt` cell: the
final record is the record before that cycle with `state = Halted` and `pc`,
`steps` advanced. -/
theorem C20_state_machine (P : Params) (L : Nat) :
    (∀ (fuel : Nat) (c : cpu_t), c.state ≠ Cpu_Running → Switched.loop P L fuel c = some c) ∧
    (∀ (op : Nat) (sr : Params → ℕ → cpu_t → decode_t → cpu_t × Bool) (c : cpu_t)
        (d : decode_t), Asmexp.service_routines[op]? = some sr → (sr P L c d).2 = true →
      (sr P L c d).1.state = Cpu_Running) ∧
    (∀ (c c' : cpu_t) (d : decode_t), Switched.execute P c d = some c' →
      c'.state = Cpu_Running → c.state = Cpu_Running) ∧
    (∀ c : cpu_t, (fetch_decode P c).2.state = Cpu_Running → c.state = Cpu_Running) ∧
    (∀ (op : Nat) (sr : Params → ℕ → cpu_t → decode_t → cpu_t × Bool) (c : cpu_t)
        (d : decode_t), Asmexp.service_routines[op]? = some sr →
      (sr P L c d).1.state = Cpu_Running → c.state = Cpu_Running) ∧
    (∀ (c c' : cpu_t) (d : decode_t), c.state = Cpu_Running →
      Switched.execute P c d = some c' → c'.state = Cpu_Halted → d.opcode = Instr_Halt) ∧
    (∀ (op : Nat) (sr : Params → ℕ → cpu_t → decode_t → cpu_t × Bool) (c : cpu_t)
        (d : decode_t), Asmexp.service_routines[op]? = some sr → c.state = Cpu_Running →
      (sr P L c d).1.state = Cpu_Halted → op = Instr_Halt) ∧
    (∀ (raw : Nat) (c : cpu_t), (decode P raw c).opcode = Instr_Halt → raw = Instr_Halt) ∧
    (∀ (pmem stack0 : Nat → Nat) (a : cpu_t),
      Switched.main P L (init_cpu pmem stack0) = some a → a.state = Cpu_Halted →
      ∃ c, c.state = Cpu_Running ∧ c.pc < P.PROGRAM_SIZE ∧ c.pmem c.pc = Instr_Halt ∧
        a = advance { c with state := Cpu_Halted } (decode P (c.pmem c.pc) c)) ∧
    (∀ (pmem stack0 : Nat → Nat) (b : cpu_t),
      Asmexp.main P L pmem stack0 = some b → b.state = Cpu_Halted →
      ∃ c, c.state = Cpu_Running ∧ c.pc < P.PROGRAM_SIZE ∧ c.pmem c.pc = Instr_Halt ∧
        b = advance { c with state := Cpu_Halted } (decode P (c.pmem c.pc) c) ∧
        b = (Asmexp.srv_Halt P L c (decode P (c.pmem c.pc) c)).1) := by
  refine ⟨?_, ?_, ?_, ?_, ?_, ?_, ?_, ?_, ?_, ?_⟩
  · intro fuel c hc
    exact loop_stop P L fuel c (fun h => hc h.1)
  · intro op sr c d hsr h
    exact (sr_flag P L c d op sr hsr h).1
  · intro c c' d he hr
    rcases execute_state P c c' d he with h | h | ⟨_, h⟩
    · rw [← h]; exact hr
    · rw [h] at hr; cases hr
    · rw [h] at hr; cases hr
  · intro c hr
    rcases fetch_decode_cases P c with ⟨_, e⟩ | ⟨_, e⟩
    · rw [e] at hr; exact hr
    · rw [e] at hr; cases hr
  · intro op sr c d hsr hr
    rcases sr_state P L c d op sr hsr with h | h | ⟨_, h⟩
    · rw [← h]; exact hr
    · rw [h] at hr; cases hr
    · rw [h] at hr; cases hr
  · intro c c' d hc he hh
    rcases execute_state P c c' d he with h | h | ⟨hop, _⟩
    · rw [h, hc] at hh; cases hh
    · rw [h] at hh; cases hh
    · exact hop
  · intro op sr c d hsr hc hh
    rcases sr_state P L c d op sr hsr with h | h | ⟨hop, _⟩
    · rw [h, hc] at hh; cases hh
    · rw [h] at hh; cases hh
    · exact hop
  · intro raw c h
    exact decode_opcode_halt P raw c h
  · intro pmem stack0 a hm ha
    exact loop_halted P L L (init_cpu pmem stack0) a rfl (main_some P L _ a hm) ha
  · intro pmem stack0 b hm hb
    exact dispatch_halted P L (L + 1) (init_cpu pmem stack0) b rfl
      ((asmexp_main_eq P L pmem stack0).symm.trans hm) hb

/-- Instance of `C20_state_machine`: the run of `Nop; Halt` with budget 5 ends
`Halted` after the cycle of the `Halt` cell at address 1. -/
theorem C20_state_machine_witness :
    Switched.main P0 5 (init_cpu (program [Instr_Nop, Instr_Halt]) (fun _ => 0)) =
      some { init_cpu (program [Instr_Nop, Instr_Halt]) (fun _ => 0) with
             state := Cpu_Halted, pc := 2, steps := 2 } ∧
    ∃ c, c.state = Cpu_Running ∧ c.pc < P0.PROGRAM_SIZE ∧ c.pmem c.pc = Instr_Halt ∧
      { init_cpu (program [Instr_Nop, Instr_Halt]) (fun _ => 0) with
        state := Cpu_Halted, pc := 2, steps := 2 } =
      advance { c with state := Cpu_Halted } (decode P0 (c.pmem c.pc) c) :=
  ⟨rfl, (C20_state_machine P0 5).2.2.2.2.2.2.2.2.1 (program [Instr_Nop, Instr_Halt]) (fun _ => 0)
    { init_cpu (program [Instr_Nop, Instr_Halt]) (fun _ => 0) with
      state := Cpu_Halted, pc := 2, steps := 2 } rfl rfl⟩

theorem oob_push (P : Params) (x : cpu_t) (v : Nat) (h : x.oob = true) :
    (push P x v).oob = true := by
  unfold push
  split_ifs <;> exact h

theorem oob_pop (x : cpu_t) (h : x.oob = true) : (pop x).2.oob = true := by
  unfold pop
  split_ifs <;> exact h

theorem oob_pick (P : Params) (x : cpu_t) (pos : Int) (h : x.oob = true) :
    (pick P x pos).2.oob = true := by
  unfold pick
  split_ifs
  · exact h
  · exact h
  · rfl

/-- The `switch` never clears `oob`. -/
theorem execute_oob (P : Params) (c c' : cpu_t) (d : decode_t)
    (h : Switched.execute P c d = some c') (hinv : c.oob = true) : c'.oob = true := by
  by_cases h26 : d.opcode ≤ 26
  · obtain ⟨op, len, imm⟩ := d
    simp only at h26
    interval_cases op
    all_goals simp only [Switched.execute, Instr_Break, Instr_Nop, Instr_Halt, Instr_Push,
      Instr_Print, Instr_JNE, Instr_Swap, Instr_Dup, Instr_JE, Instr_Inc, Instr_Add, Instr_Sub,
      Instr_Mul, Instr_Rand, Instr_Dec, Instr_Drop, Instr_Over, Instr_Mod, Instr_Jump, Instr_And,
      Instr_Or, Instr_Xor, Instr_SHL, Instr_SHR, Instr_SQRT, Instr_Rot, Instr_Pick,
      Nat.reduceEqDiff, OfNat.ofNat_ne_zero, OfNat.zero_ne_ofNat, reduceIte, if_true, if_false] at h
    all_goals first
      | (injection h with h; subst h; exact hinv)
      | (injection h with h; subst h
         repeat (first | exact hinv | apply oob_push | apply oob_pop | apply oob_pick))
      | (split_ifs at h <;> injection h with h <;> subst h <;>
         (try dsimp only [jump]) <;>
         repeat (first | exact hinv | apply oob_push | apply oob_pop | apply oob_pick))
  · rw [execute_eq_none P c d (by omega)] at h
    cases h

/-- The loop never clears `oob`: a run that ends with `oob` not set has read no
cell outside the stack array. -/
theorem loop_oob (P : Params) (L fuel : Nat) (c a : cpu_t)
    (h : Switched.loop P L fuel c = some a) (hinv : c.oob = true) : a.oob = true := by
  induction fuel generalizing c with
  | zero =>
    unfold Switched.loop at h
    split_ifs at h
    injection h with h
    rw [← h]
    exact hinv
  | succ n ih =>
    by_cases hcond : c.state = Cpu_Running ∧ c.steps < L
    · rcases body_cases P c hcond.1 with ⟨_, hb⟩ | ⟨_, c1, he, hb⟩
      · rw [loop_bail P L n c _ hcond.1 hcond.2 hb] at h
        injection h with h
        rw [← h]
        exact hinv
      · rw [loop_succ P L n c _ hcond.1 hcond.2 hb] at h
        exact ih _ h (execute_oob P c c1 _ he hinv)
    · rw [loop_stop P L _ c hcond] at h
      injection h with h
      rw [← h]
      exact hinv

/-! ## C22: the chain refines the loop on runs that do not end in `Break` -/

/-- C22: for every program, every initial content of the stack array and every
step budget `N` with `1 ≤ N < 2 ^ 64`, the run of the central loop of
`switched.c` has a final record.  If that record has state `Halted` or
`Running` and the run has read no cell outside the stack array, then the run of
the chain of service routines of `asmexp.c` (its driver and its fourteen
assembly routines as modelled from the spec) ends with the same state, `pc`,
`sp`, `steps`, stack array and live stack and with the same sequence of printed
words, and has read no cell outside the stack array either.  The loop never
clears `oob`, so `oob = false` at the end stands for the whole run. -/
theorem C22_chain_refines_loop (P : Params) (N : Nat) (h1 : 1 ≤ N) (hN : N < 2 ^ 64)
    (pmem stack0 : Nat → Nat) :
    (∃ a, Switched.main P N (init_cpu pmem stack0) = some a ∧
      (a.state = Cpu_Halted ∨ a.state = Cpu_Running → a.oob = false →
        ∃ b, Asmexp.main P N pmem stack0 = some b ∧
          b.state = a.state ∧ b.pc = a.pc ∧ b.sp = a.sp ∧ b.steps = a.steps ∧
          b.stack = a.stack ∧ live_stack b = live_stack a ∧ b.out = a.out ∧
          b.oob = false)) ∧
    (∀ (fuel : Nat) (c a : cpu_t), Switched.loop P N fuel c = some a → c.oob = true →
      a.oob = true) := by
  refine ⟨?_, fun fuel c a h hc => loop_oob P N fuel c a h hc⟩
  obtain ⟨a, b, ha, hb, _, _, _, _, _, _, heq⟩ := main_agree P N h1 hN pmem stack0
  refine ⟨a, ha, ?_⟩
  intro hst hoob
  have hne : a.state ≠ Cpu_Break := by
    rcases hst with h | h <;> rw [h] <;> decide
  have e := heq hne
  subst e
  exact ⟨a, hb, rfl, rfl, rfl, rfl, rfl, rfl, rfl, hoob⟩

/-- Instance of `C22_chain_refines_loop`: the program `Rand; Rand; Add; Dec`
with budget 3, which ends `Running` after three C routines of the table, and
the program `Push 5; Push 3; Sub; Print; Halt` with budget 9, which ends
`Halted`. -/
theorem C22_chain_refines_loop_witness :
    (∃ a, Switched.main P0 3
        (init_cpu (program [Instr_Rand, Instr_Rand, Instr_Add, Instr_Dec]) (fun _ => 0)) =
          some a ∧
      (a.state = Cpu_Halted ∨ a.state = Cpu_Running → a.oob = false →
        ∃ b, Asmexp.main P0 3
            (program [Instr_Rand, Instr_Rand, Instr_Add, Instr_Dec]) (fun _ => 0) = some b ∧
          b.state = a.state ∧ b.pc = a.pc ∧ b.sp = a.sp ∧ b.steps = a.steps ∧
          b.stack = a.stack ∧ live_stack b = live_stack a ∧ b.out = a.out ∧
          b.oob = false)) ∧
    (∃ a, Switched.main P0 9
        (init_cpu (program [Instr_Push, 5, Instr_Push, 3, Instr_Sub, Instr_Print, Instr_Halt])
          (fun _ => 0)) = some a ∧
      (a.state = Cpu_Halted ∨ a.state = Cpu_Running → a.oob = false →
        ∃ b, Asmexp.main P0 9
            (program [Instr_Push, 5, Instr_Push, 3, Instr_Sub, Instr_Print, Instr_Halt])
              (fun _ => 0) = some b ∧
          b.state = a.state ∧ b.pc = a.pc ∧ b.sp = a.sp ∧ b.steps = a.steps ∧
          b.stack = a.stack ∧ live_stack b = live_stack a ∧ b.out = a.out ∧
          b.oob = false)) :=
  ⟨(C22_chain_refines_loop P0 3 (by decide) (by decide) _ _).1,
   (C22_chain_refines_loop P0 9 (by decide) (by decide) _ _).1⟩

/-- A service routine that goes on to the next instruction has run `steps++`
exactly once. -/
theorem sr_steps (P : Params) (L : Nat) (c : cpu_t) (d : decode_t) (op : Nat)
    (sr : Params → ℕ → cpu_t → decode_t → cpu_t × Bool)
    (hsr : Asmexp.service_routines[op]? = some sr) (h : (sr P L c d).2 = true) :
    (sr P L c d).1.steps = (c.steps + 1) % 2 ^ 64 := by
  have hop : op ≤ 26 := by
    by_contra hgt
    have : Asmexp.service_routines[op]? = none := by
      apply List.getElem?_eq_none
      show 27 ≤ op
      omega
    rw [this] at hsr
    cases hsr
  interval_cases op
  all_goals simp only [Asmexp.service_routines, List.getElem?_cons_zero, List.getElem?_cons_succ,
    Option.some.injEq] at hsr
  all_goals subst hsr
  all_goals simp only [Asmexp.sr_Break, Asmexp.sr_Nop, Asmexp.sr_Halt, Asmexp.sr_Push,
    Asmexp.sr_Print, Asmexp.sr_Jne, Asmexp.sr_Swap, Asmexp.sr_Dup, Asmexp.sr_Je, Asmexp.sr_Inc,
    Asmexp.sr_Add, Asmexp.sr_Sub, Asmexp.sr_Mul, Asmexp.sr_Rand, Asmexp.sr_Dec,
    Asmexp.sr_Drop, Asmexp.sr_Over, Asmexp.sr_Mod, Asmexp.sr_Jump,
    Asmexp.sr_And, Asmexp.sr_Or, Asmexp.sr_Xor, Asmexp.sr_SHL, Asmexp.sr_SHR,
    Asmexp.sr_SQRT, Asmexp.sr_Rot, Asmexp.sr_Pick,
    Asmexp.srv_Break, Asmexp.srv_Nop, Asmexp.srv_Halt, Asmexp.srv_Push, Asmexp.srv_Print,
    Asmexp.srv_Swap, Asmexp.srv_Dup, Asmexp.srv_Je, Asmexp.srv_Inc, Asmexp.srv_Sub,
    Asmexp.srv_Drop, Asmexp.srv_Over, Asmexp.srv_Mod, Asmexp.srv_Jump] at h ⊢
  all_goals first
    | exact absurd h Bool.false_ne_true
    | (rw [ADVANCE_PC_fst]
       simp [advance, jump])
    | (split_ifs at h ⊢ <;> rw [ADVANCE_PC_fst] <;> simp [advance, jump])

/-- The chain of service routines started on any record and any decoding with an
opcode of the table returns within `steplimit + 1` calls. -/
theorem dispatch_total (P : Params) (L : Nat) (hL : L < 2 ^ 64) (c : cpu_t) (d : decode_t)
    (hd : d.opcode ≤ 26) :
    ∃ b, Asmexp.DISPATCH P L (L + 1) c d = some b := by
  obtain ⟨sr, hsr⟩ := sr_lookup _ hd
  cases hflag : (sr P L c d).2 with
  | false =>
    refine ⟨(sr P L c d).1, ?_⟩
    have e : sr P L c d = ((sr P L c d).1, false) := by rw [← hflag]
    rw [Asmexp.DISPATCH, hsr]
    simp only
    rw [e]
  | true =>
    obtain ⟨hrun, hlt⟩ := sr_flag P L c d d.opcode sr hsr hflag
    obtain ⟨b, hb, _⟩ := dispatch_spec P L hL L (sr P L c d).1 hrun hlt (by omega)
    refine ⟨b, ?_⟩
    have e : sr P L c d = ((sr P L c d).1, true) := by rw [← hflag]
    rw [Asmexp.DISPATCH, hsr]
    simp only
    rw [e]
    exact hb

theorem ADVANCE_PC_flag_iff (L : Nat) (c : cpu_t) (d : decode_t) :
    (Asmexp.ADVANCE_PC L c d).2 = true ↔
      (c.state = Cpu_Running ∧ (c.steps + 1) % 2 ^ 64 < L) := by
  unfold Asmexp.ADVANCE_PC
  dsimp only
  split_ifs with h
  · constructor
    · intro h'
      exact False.elim h'
    · rintro ⟨h1, h2⟩
      rcases h with h | h
      · exact absurd h1 h
      · exact absurd h2 (by show ¬ (c.steps + 1) % 2 ^ 64 < L; exact Nat.not_lt.mpr h)
  · rw [not_or, not_not] at h
    constructor
    · intro _
      exact ⟨h.1, Nat.lt_of_not_le h.2⟩
    · intro _
      trivial

/-- The one record on which `steps++` is not `steps + 1`: from the largest
`uint64_t` the counter wraps to zero, and `sr_Rand` goes on with `steps = 0`. -/
theorem steps_wrap_at_max :
    (Asmexp.sr_Rand P0 5 { sample_cpu 0 with steps := 2 ^ 64 - 1 }
        { opcode := Instr_Rand, length := 1, immediate := 0 }).2 = true ∧
    (Asmexp.sr_Rand P0 5 { sample_cpu 0 with steps := 2 ^ 64 - 1 }
        { opcode := Instr_Rand, length := 1, immediate := 0 }).1.steps = 0 := by
  constructor <;> decide

/-! ## C23: the chain of service routines terminates -/

/-- C23: for every program, every step budget `N < 2 ^ 64` and every record
`c`, `Running` or not.  A routine of the table of `asmexp.c` (thirteen C
routines and fourteen assembly routines as modelled from the spec) called on
`c` either returns
without going on to the next instruction, or it has run `steps++` exactly once,
so that `steps` is `c.steps + 1` modulo `2 ^ 64`, and it goes on with the record
`Running` and `steps < N`; unless `c.steps` is the largest `uint64_t`, `steps`
is then `c.steps + 1` and `N - steps` is strictly smaller than before.  The test
inside `ADVANCE_PC` lets a routine go on exactly when the state is `Running`
and the incremented `steps` is below `N`.  Hence the chain started by
`fetch_decode` on `c`, or on `c` with any decoding of the table, returns within
`N + 1` calls, and within `N - c.steps` calls when `c` is `Running` with
`steps < N`. -/
theorem C23_chain_terminates (P : Params) (N : Nat) (hN : N < 2 ^ 64) (c : cpu_t) :
    (∀ (op : Nat) (sr : Params → ℕ → cpu_t → decode_t → cpu_t × Bool) (d : decode_t),
      Asmexp.service_routines[op]? = some sr → (sr P N c d).2 = true →
      (sr P N c d).1.state = Cpu_Running ∧
      (sr P N c d).1.steps = (c.steps + 1) % 2 ^ 64 ∧
      (sr P N c d).1.steps < N ∧
      (c.steps + 1 < 2 ^ 64 →
        (sr P N c d).1.steps = c.steps + 1 ∧
        (N : Int) - ((sr P N c d).1.steps : Int) < (N : Int) - (c.steps : Int))) ∧
    (∀ d : decode_t, (Asmexp.ADVANCE_PC N c d).2 = true ↔
      (c.state = Cpu_Running ∧ (c.steps + 1) % 2 ^ 64 < N)) ∧
    (∃ b, Asmexp.DISPATCH P N (N + 1) (fetch_decode P c).2 (fetch_decode P c).1 = some b) ∧
    (∀ d : decode_t, d.opcode ≤ 26 → ∃ b, Asmexp.DISPATCH P N (N + 1) c d = some b) ∧
    (c.state = Cpu_Running → c.steps < N →
      ∃ b, Asmexp.DISPATCH P N (N - c.steps) (fetch_decode P c).2 (fetch_decode P c).1 = some b ∧
        b.steps ≤ N) := by
  refine ⟨?_, ?_, ?_, ?_, ?_⟩
  · intro op sr d hsr h
    obtain ⟨hrun, hlt⟩ := sr_flag P N c d op sr hsr h
    have hst := sr_steps P N c d op sr hsr h
    refine ⟨hrun, hst, hlt, ?_⟩
    intro hw
    rw [Nat.mod_eq_of_lt hw] at hst
    refine ⟨hst, ?_⟩
    rw [hst]
    push_cast
    omega
  · intro d
    exact ADVANCE_PC_flag_iff N c d
  · apply dispatch_total P N hN
    rcases fetch_decode_cases P c with ⟨_, e⟩ | ⟨_, e⟩
    · rw [e]
      exact decode_opcode_le P _ c
    · rw [e]
      exact Nat.zero_le _
  · intro d hd
    exact dispatch_total P N hN c d hd
  · intro hrun hlt
    exact dispatch_spec P N hN (N - c.steps) c hrun hlt (Nat.le_refl _)

/-- Instance of `C23_chain_terminates`: the program `Rand; JNE -3` with a
random source that always returns 1, which loops for ever without a budget
through the C routines `sr_Rand` and `sr_Jne`, with budget 5 from the initial
record. -/
theorem C23_chain_terminates_witness :
    (∃ b, Asmexp.DISPATCH { P0 with rand := fun _ => 1 } 5 (5 + 1)
        (fetch_decode { P0 with rand := fun _ => 1 }
          (init_cpu (program [Instr_Rand, Instr_JNE, encode_imm (-3)]) (fun _ => 0))).2
        (fetch_decode { P0 with rand := fun _ => 1 }
          (init_cpu (program [Instr_Rand, Instr_JNE, encode_imm (-3)]) (fun _ => 0))).1 =
      some b) ∧
    (∃ b, Asmexp.DISPATCH { P0 with rand := fun _ => 1 } 5
        (5 - (init_cpu (program [Instr_Rand, Instr_JNE, encode_imm (-3)]) (fun _ => 0)).steps)
        (fetch_decode { P0 with rand := fun _ => 1 }
          (init_cpu (program [Instr_Rand, Instr_JNE, encode_imm (-3)]) (fun _ => 0))).2
        (fetch_decode { P0 with rand := fun _ => 1 }
          (init_cpu (program [Instr_Rand, Instr_JNE, encode_imm (-3)]) (fun _ => 0))).1 =
      some b ∧ b.steps ≤ 5) :=
  ⟨(C23_chain_terminates { P0 with rand := fun _ => 1 } 5 (by decide)
      (init_cpu (program [Instr_Rand, Instr_JNE, encode_imm (-3)]) (fun _ => 0))).2.2.1,
   (C23_chain_terminates { P0 with rand := fun _ => 1 } 5 (by decide)
      (init_cpu (program [Instr_Rand, Instr_JNE, encode_imm (-3)]) (fun _ => 0))).2.2.2.2
      rfl (by decide)⟩

theorem sp_push (P : Params) (x : cpu_t) (v : Nat)
    (h : -1 ≤ x.sp ∧ x.sp < (P.STACK_CAPACITY : Int)) :
    -1 ≤ (push P x v).sp ∧ (push P x v).sp < (P.STACK_CAPACITY : Int) := by
  unfold push
  split_ifs with h1
  · exact h
  · show -1 ≤ x.sp + 1 ∧ x.sp + 1 < (P.STACK_CAPACITY : Int)
    omega

theorem sp_pop (P : Params) (x : cpu_t)
    (h : -1 ≤ x.sp ∧ x.sp < (P.STACK_CAPACITY : Int)) :
    -1 ≤ (pop x).2.sp ∧ (pop x).2.sp < (P.STACK_CAPACITY : Int) := by
  unfold pop
  split_ifs with h1
  · exact h
  · show -1 ≤ x.sp - 1 ∧ x.sp - 1 < (P.STACK_CAPACITY : Int)
    omega

theorem sp_pick (P : Params) (x : cpu_t) (pos : Int)
    (h : -1 ≤ x.sp ∧ x.sp < (P.STACK_CAPACITY : Int)) :
    -1 ≤ (pick P x pos).2.sp ∧ (pick P x pos).2.sp < (P.STACK_CAPACITY : Int) := by
  unfold pick
  split_ifs
  · exact h
  · exact h
  · exact h

/-- The `switch` preserves the bounds of `sp`. -/
theorem execute_sp (P : Params) (c c' : cpu_t) (d : decode_t)
    (h : Switched.execute P c d = some c')
    (hinv : -1 ≤ c.sp ∧ c.sp < (P.STACK_CAPACITY : Int)) :
    -1 ≤ c'.sp ∧ c'.sp < (P.STACK_CAPACITY : Int) := by
  by_cases h26 : d.opcode ≤ 26
  · obtain ⟨op, len, imm⟩ := d
    simp only at h26
    interval_cases op
    all_goals simp only [Switched.execute, Instr_Break, Instr_Nop, Instr_Halt, Instr_Push,
      Instr_Print, Instr_JNE, Instr_Swap, Instr_Dup, Instr_JE, Instr_Inc, Instr_Add, Instr_Sub,
      Instr_Mul, Instr_Rand, Instr_Dec, Instr_Drop, Instr_Over, Instr_Mod, Instr_Jump, Instr_And,
      Instr_Or, Instr_Xor, Instr_SHL, Instr_SHR, Instr_SQRT, Instr_Rot, Instr_Pick,
      Nat.reduceEqDiff, OfNat.ofNat_ne_zero, OfNat.zero_ne_ofNat, reduceIte, if_true, if_false] at h
    all_goals first
      | (injection h with h; subst h; exact hinv)
      | (injection h with h; subst h
         repeat (first | exact hinv | apply sp_push | apply sp_pop | apply sp_pick))
      | (split_ifs at h <;> injection h with h <;> subst h <;>
         (try dsimp only [jump]) <;>
         repeat (first | exact hinv | apply sp_push | apply sp_pop | apply sp_pick))
  · rw [execute_eq_none P c d (by omega)] at h
    cases h

/-- Every service routine preserves the bounds of `sp`. -/
theorem sr_sp (P : Params) (L : Nat) (c : cpu_t) (d : decode_t) (op : Nat)
    (sr : Params → ℕ → cpu_t → decode_t → cpu_t × Bool)
    (hsr : Asmexp.service_routines[op]? = some sr)
    (hinv : -1 ≤ c.sp ∧ c.sp < (P.STACK_CAPACITY : Int)) :
    -1 ≤ (sr P L c d).1.sp ∧ (sr P L c d).1.sp < (P.STACK_CAPACITY : Int) := by
  have hop : op ≤ 26 := by
    by_contra hgt
    have : Asmexp.service_routines[op]? = none := by
      apply List.getElem?_eq_none
      show 27 ≤ op
      omega
    rw [this] at hsr
    cases hsr
  interval_cases op
  all_goals simp only [Asmexp.service_routines, List.getElem?_cons_zero, List.getElem?_cons_succ,
    Option.some.injEq] at hsr
  all_goals subst hsr
  all_goals first
    | unfold Asmexp.srv_Break | unfold Asmexp.srv_Nop | unfold Asmexp.srv_Halt
    | unfold Asmexp.srv_Push
    | unfold Asmexp.srv_Print | unfold Asmexp.sr_Jne | unfold Asmexp.srv_Swap
    | unfold Asmexp.srv_Dup | unfold Asmexp.srv_Je | unfold Asmexp.srv_Inc
    | unfold Asmexp.sr_Add | unfold Asmexp.srv_Sub | unfold Asmexp.sr_Mul
    | unfold Asmexp.sr_Rand | unfold Asmexp.sr_Dec | unfold Asmexp.srv_Drop
    | unfold Asmexp.srv_Over | unfold Asmexp.srv_Mod | unfold Asmexp.srv_Jump
    | unfold Asmexp.sr_And | unfold Asmexp.sr_Or | unfold Asmexp.sr_Xor
    | unfold Asmexp.sr_SHL | unfold Asmexp.sr_SHR | unfold Asmexp.sr_SQRT
    | unfold Asmexp.sr_Rot | unfold Asmexp.sr_Pick
  all_goals try dsimp only
  all_goals first
    | (dsimp only [advance]
       exact hinv)
    | (rw [ADVANCE_PC_fst]
       dsimp only [advance, jump]
       repeat (first | exact hinv | apply sp_push | apply sp_pop | apply sp_pick))
    | (split_ifs <;>
       first
        | (dsimp only
           repeat (first | exact hinv | apply sp_push | apply sp_pop | apply sp_pick))
        | (rw [ADVANCE_PC_fst]
           dsimp only [advance, jump]
           repeat (first | exact hinv | apply sp_push | apply sp_pop | apply sp_pick)))

theorem fetch_decode_sp (P : Params) (c : cpu_t) : (fetch_decode P c).2.sp = c.sp := by
  rcases fetch_decode_cases P c with ⟨_, e⟩ | ⟨_, e⟩ <;> rw [e]

/-- One pass of the loop body preserves the bounds of `sp`. -/
theorem body_sp (P : Params) (c c' : cpu_t) (b : Bool) (hc : c.state = Cpu_Running)
    (h : Switched.body P c = some (c', b))
    (hinv : -1 ≤ c.sp ∧ c.sp < (P.STACK_CAPACITY : Int)) :
    -1 ≤ c'.sp ∧ c'.sp < (P.STACK_CAPACITY : Int) := by
  rcases body_cases P c hc with ⟨_, hb⟩ | ⟨_, c1, he, hb⟩
  · rw [hb] at h
    injection h with h
    injection h with h1 h2
    rw [← h1]
    exact hinv
  · rw [hb] at h
    injection h with h
    injection h with h1 h2
    rw [← h1]
    exact execute_sp P c c1 _ he hinv

/-- The loop preserves the bounds of `sp`. -/
theorem loop_sp (P : Params) (L fuel : Nat) (c a : cpu_t)
    (h : Switched.loop P L fuel c = some a)
    (hinv : -1 ≤ c.sp ∧ c.sp < (P.STACK_CAPACITY : Int)) :
    -1 ≤ a.sp ∧ a.sp < (P.STACK_CAPACITY : Int) := by
  induction fuel generalizing c with
  | zero =>
    unfold Switched.loop at h
    split_ifs at h
    injection h with h
    rw [← h]
    exact hinv
  | succ n ih =>
    by_cases hcond : c.state = Cpu_Running ∧ c.steps < L
    · rcases body_cases P c hcond.1 with ⟨_, hb⟩ | ⟨_, c1, he, hb⟩
      · rw [loop_bail P L n c _ hcond.1 hcond.2 hb] at h
        injection h with h
        rw [← h]
        exact hinv
      · rw [loop_succ P L n c _ hcond.1 hcond.2 hb] at h
        exact ih _ h (execute_sp P c c1 _ he hinv)
    · rw [loop_stop P L _ c hcond] at h
      injection h with h
      rw [← h]
      exact hinv

/-- The chain of service routines preserves the bounds of `sp`. -/
theorem dispatch_sp (P : Params) (L fuel : Nat) (c b : cpu_t) (d : decode_t)
    (h : Asmexp.DISPATCH P L fuel c d = some b)
    (hinv : -1 ≤ c.sp ∧ c.sp < (P.STACK_CAPACITY : Int)) :
    -1 ≤ b.sp ∧ b.sp < (P.STACK_CAPACITY : Int) := by
  induction fuel generalizing c d with
  | zero =>
    unfold Asmexp.DISPATCH at h
    cases h
  | succ n ih =>
    rw [Asmexp.DISPATCH] at h
    cases hsr : Asmexp.service_routines[d.opcode]? with
    | none =>
      rw [hsr] at h
      cases h
    | some sr =>
      rw [hsr] at h
      simp only at h
      have hs := sr_sp P L c d d.opcode sr hsr hinv
      cases hflag : (sr P L c d).2 with
      | false =>
        have e : sr P L c d = ((sr P L c d).1, false) := by rw [← hflag]
        rw [e] at h
        simp only at h
        injection h with h
        rw [← h]
        exact hs
      | true =>
        have e : sr P L c d = ((sr P L c d).1, true) := by rw [← hflag]
        rw [e] at h
        simp only at h
        apply ih _ _ h
        rw [fetch_decode_sp]
        exact hs

/-! ## C21: the bounds of `sp` -/

/-- C21: the invariant `-1 ≤ sp < STACK_CAPACITY` holds in the initial record,
where `sp = -1`.  It is preserved by `push`, `pop`, `pick` and `fetch_decode`,
by the `switch` of `switched.c` on every decoded instruction, by every service
routine of the table of `asmexp.c` (thirteen C routines and fourteen assembly
routines as modelled from the spec), by one pass of the loop body, by the loop
and by the chain of service routines, whatever the state they end in.  For
every step budget `L < 2 ^ 64` the run of either strategy from the initial
record has a final record, which satisfies the invariant; since `L` is any
budget, this covers the record reached after any number of steps.  A run that
reads outside the stack array is followed with `oob` set, beyond what C
defines. -/
theorem C21_sp_invariant (P : Params) (L : Nat) :
    (∀ pmem stack0 : Nat → Nat, (init_cpu pmem stack0).sp = -1 ∧
      -1 ≤ (init_cpu pmem stack0).sp ∧
      (init_cpu pmem stack0).sp < (P.STACK_CAPACITY : Int)) ∧
    (∀ c : cpu_t, -1 ≤ c.sp ∧ c.sp < (P.STACK_CAPACITY : Int) →
      (∀ v : Nat, -1 ≤ (push P c v).sp ∧ (push P c v).sp < (P.STACK_CAPACITY : Int)) ∧
      (-1 ≤ (pop c).2.sp ∧ (pop c).2.sp < (P.STACK_CAPACITY : Int)) ∧
      (∀ pos : Int, -1 ≤ (pick P c pos).2.sp ∧
        (pick P c pos).2.sp < (P.STACK_CAPACITY : Int)) ∧
      (-1 ≤ (fetch_decode P c).2.sp ∧ (fetch_decode P c).2.sp < (P.STACK_CAPACITY : Int))) ∧
    (∀ (c c' : cpu_t) (d : decode_t), -1 ≤ c.sp ∧ c.sp < (P.STACK_CAPACITY : Int) →
      Switched.execute P c d = some c' →
      -1 ≤ c'.sp ∧ c'.sp < (P.STACK_CAPACITY : Int)) ∧
    (∀ (op : Nat) (sr : Params → ℕ → cpu_t → decode_t → cpu_t × Bool) (c : cpu_t)
        (d : decode_t), Asmexp.service_routines[op]? = some sr →
      -1 ≤ c.sp ∧ c.sp < (P.STACK_CAPACITY : Int) →
      -1 ≤ (sr P L c d).1.sp ∧ (sr P L c d).1.sp < (P.STACK_CAPACITY : Int)) ∧
    (∀ (c c' : cpu_t) (b : Bool), c.state = Cpu_Running →
      -1 ≤ c.sp ∧ c.sp < (P.STACK_CAPACITY : Int) → Switched.body P c = some (c', b) →
      -1 ≤ c'.sp ∧ c'.sp < (P.STACK_CAPACITY : Int)) ∧
    (∀ (fuel : Nat) (c a : cpu_t), -1 ≤ c.sp ∧ c.sp < (P.STACK_CAPACITY : Int) →
      Switched.loop P L fuel c = some a →
      -1 ≤ a.sp ∧ a.sp < (P.STACK_CAPACITY : Int)) ∧
    (∀ (fuel : Nat) (c b : cpu_t) (d : decode_t),
      -1 ≤ c.sp ∧ c.sp < (P.STACK_CAPACITY : Int) →
      Asmexp.DISPATCH P L fuel c d = some b →
      -1 ≤ b.sp ∧ b.sp < (P.STACK_CAPACITY : Int)) ∧
    (L < 2 ^ 64 → ∀ pmem stack0 : Nat → Nat,
      (∃ a, Switched.main P L (init_cpu pmem stack0) = some a ∧
        -1 ≤ a.sp ∧ a.sp < (P.STACK_CAPACITY : Int)) ∧
      (∃ b, Asmexp.main P L pmem stack0 = some b ∧
        -1 ≤ b.sp ∧ b.sp < (P.STACK_CAPACITY : Int))) := by
  have hinit : ∀ pmem stack0 : Nat → Nat, -1 ≤ (init_cpu pmem stack0).sp ∧
      (init_cpu pmem stack0).sp < (P.STACK_CAPACITY : Int) := by
    intro pmem stack0
    show (-1 : Int) ≤ -1 ∧ (-1 : Int) < (P.STACK_CAPACITY : Int)
    omega
  refine ⟨fun pmem stack0 => ⟨rfl, hinit pmem stack0⟩, ?_, ?_, ?_, ?_, ?_, ?_, ?_⟩
  · intro c hinv
    refine ⟨fun v => sp_push P c v hinv, sp_pop P c hinv, fun pos => sp_pick P c pos hinv, ?_⟩
    rw [fetch_decode_sp]
    exact hinv
  · intro c c' d hinv he
    exact execute_sp P c c' d he hinv
  · intro op sr c d hsr hinv
    exact sr_sp P L c d op sr hsr hinv
  · intro c c' b hc hinv hb
    exact body_sp P c c' b hc hb hinv
  · intro fuel c a hinv h
    exact loop_sp P L fuel c a h hinv
  · intro fuel c b d hinv h
    exact dispatch_sp P L fuel c b d h hinv
  · intro hL pmem stack0
    constructor
    · obtain ⟨a, ha, _, hfin⟩ := loop_spec P L hL L (init_cpu pmem stack0) (Nat.zero_le _)
        (by simp [init_cpu])
      refine ⟨a, main_of_loop P L _ a ha ?_, loop_sp P L L _ a ha (hinit pmem stack0)⟩
      by_cases hr : a.state = Cpu_Running
      · exact Or.inr (hfin hr)
      · exact Or.inl hr
    · have hd : (fetch_decode P (init_cpu pmem stack0)).1.opcode ≤ 26 := by
        rcases fetch_decode_cases P (init_cpu pmem stack0) with ⟨_, e⟩ | ⟨_, e⟩
        · rw [e]
          exact decode_opcode_le P _ _
        · rw [e]
          exact Nat.zero_le _
      obtain ⟨b, hb⟩ := dispatch_total P L hL (fetch_decode P (init_cpu pmem stack0)).2
        (fetch_decode P (init_cpu pmem stack0)).1 hd
      refine ⟨b, (asmexp_main_eq P L pmem stack0).trans hb,
        dispatch_sp P L (L + 1) _ b _ hb ?_⟩
      rw [fetch_decode_sp]
      exact hinit pmem stack0

/-- Instance of `C21_sp_invariant`: the runs of the one-cell program `Add`,
which end in `Break` on the empty stack, with budget 5. -/
theorem C21_sp_invariant_witness :
    (∃ a, Switched.main P0 5 (init_cpu (program [Instr_Add]) (fun _ => 0)) = some a ∧
      -1 ≤ a.sp ∧ a.sp < (P0.STACK_CAPACITY : Int)) ∧
    (∃ b, Asmexp.main P0 5 (program [Instr_Add]) (fun _ => 0) = some b ∧
      -1 ≤ b.sp ∧ b.sp < (P0.STACK_CAPACITY : Int)) :=
  (C21_sp_invariant P0 5).2.2.2.2.2.2.2 (by decide) (program [Instr_Add]) (fun _ => 0)

end Interp
